import Mathlib

/-!
# zufs-zus: the IO-map instruction encoder and the mount lifecycle

A shallow embedding of `iom_enc.h` (the IO-map encoder) and of the mount part of
`zus-vfs.c`, with the properties of the specification stated and proved over it.

Conventions of the embedding:

* Pointers into the instruction area are byte offsets from `ziom->iom_e`
  (`cur_iom_e`, `end_iom_e`, every store address).  All stores of the encoder are
  stores of one `__u64`; the instruction area is a map from the byte offset of a
  word to the word stored there.
* Machine words are natural numbers, truncated with `u64` where they are stored.
* Every store into the instruction area is also appended to the ghost list
  `stores` of the builder, and every call of `zus_warn` is counted in `warns`.
-/

namespace Zus

/-! ## Machine words and `errno.h` -/

/-- Truncation to a 64-bit machine word (`__u64`, `ulong`). -/
def u64 (x : Nat) : Nat := x % 2 ^ 64

/-- The value of `ENOSPC` in `errno.h`. -/
def ENOSPC : Int := 28

/-- The value of `ENOMEM` in `errno.h`. -/
def ENOMEM : Int := 12

/-! ## The protocol header `zus_api.h` -/

/-- Modelled from the spec: the declarations of the shared protocol header `zus_api.h`
that `iom_enc.h` uses and that are not part of the sources.  The spec describes an
instruction as "one tagged word (type tag packed with a bounded value) or a small
fixed-size record beginning with such a word", the value occupying "the protocol's
reserved low-bit width".  The width, the numbers of the type tags and the layout of
the records are parameters: `ZUFS_IOM_VAL_BITS` is the reserved low-bit width, the
`IOM_*` fields are the enumerators of `enum ZUFS_IOM_TYPE`, `sizeof_*` is the size in
bytes of a record and `off_*` the byte offset of a field inside its record (the tagged
word is the first word of every record). -/
structure zus_api where
  ZUFS_IOM_VAL_BITS : Nat
  IOM_T2_WRITE : Nat
  IOM_T2_READ : Nat
  IOM_T2_ZUSMEM_WRITE : Nat
  IOM_T2_ZUSMEM_READ : Nat
  IOM_UNMAP : Nat
  IOM_WBINV : Nat
  IOM_DISCARD : Nat
  /-- Size `sizeof(struct zufs_iom_t2_io)`: fields `t2_val`, `t1_val`. -/
  sizeof_t2_io : Nat
  off_t1_val : Nat
  /-- Size `sizeof(struct zufs_iom_t2_io_len)`: first word, then `num_pages`. -/
  sizeof_t2_io_len : Nat
  off_num_pages : Nat
  /-- Size `sizeof(struct zufs_iom_unmap)`: fields `unmap_index`, `unmap_n`, `ino`. -/
  sizeof_unmap : Nat
  off_unmap_n : Nat
  off_ino : Nat
  /-- Size `sizeof(struct zufs_iom_t2_zusmem_io)`: fields `t2_val`, `zus_mem_ptr`, `len`. -/
  sizeof_t2_zusmem_io : Nat
  off_zus_mem_ptr : Nat
  off_len : Nat

/-- A field of 8 bytes at offset `off` lies behind the first word of a record of
`size` bytes, at a multiple of 8. -/
def field_ok (off size : Nat) : Prop := 8 ∣ off ∧ 8 ≤ off ∧ off + 8 ≤ size

instance (off size : Nat) : Decidable (field_ok off size) := by
  unfold field_ok; infer_instance

/-- The record layouts are those of packed structures of 64-bit words: every size is
a multiple of 8, every field other than the tagged first word lies behind it inside
the record, and two fields of one record do not share a word. -/
def zus_api.layout_ok (api : zus_api) : Prop :=
  8 ∣ api.sizeof_t2_io ∧ 8 ∣ api.sizeof_t2_io_len ∧ 8 ∣ api.sizeof_unmap ∧
  8 ∣ api.sizeof_t2_zusmem_io ∧
  field_ok api.off_t1_val api.sizeof_t2_io ∧
  field_ok api.off_num_pages api.sizeof_t2_io_len ∧
  field_ok api.off_unmap_n api.sizeof_unmap ∧
  field_ok api.off_ino api.sizeof_unmap ∧
  api.off_unmap_n ≠ api.off_ino ∧
  field_ok api.off_zus_mem_ptr api.sizeof_t2_zusmem_io ∧
  field_ok api.off_len api.sizeof_t2_zusmem_io ∧
  api.off_zus_mem_ptr ≠ api.off_len

instance (api : zus_api) : Decidable api.layout_ok := by
  unfold zus_api.layout_ok; infer_instance

/-- The list of the type tags an encoder of `iom_enc.h` can write. -/
def zus_api.tags (api : zus_api) : List Nat :=
  [api.IOM_T2_WRITE, api.IOM_T2_READ, api.IOM_T2_ZUSMEM_WRITE, api.IOM_T2_ZUSMEM_READ,
   api.IOM_UNMAP, api.IOM_WBINV, api.IOM_DISCARD]

/-- The tags are distinct enumerators, none of them the null tag 0, and a tag fits
the bits of a 64-bit word above the value. -/
def zus_api.tags_ok (api : zus_api) : Prop :=
  api.ZUFS_IOM_VAL_BITS < 64 ∧ api.tags.Nodup ∧
  ∀ t ∈ api.tags, 0 < t ∧ t < 2 ^ (64 - api.ZUFS_IOM_VAL_BITS)

instance (api : zus_api) : Decidable api.tags_ok := by
  unfold zus_api.tags_ok; infer_instance

/-- The macro `#define ZUFS_IOM_FIRST_VAL_MASK ((1UL << ZUFS_IOM_VAL_BITS) - 1)`. -/
def ZUFS_IOM_FIRST_VAL_MASK (api : zus_api) : Nat :=
  u64 (1 <<< api.ZUFS_IOM_VAL_BITS) - 1

/-- Modelled from the spec: `_zufs_iom_enc_type_val` of `zus_api.h`, which is not part
of the sources, computes the tagged word "type tag packed with a bounded value", the
value in the reserved low bits: `(__u64)val | ((__u64)type << ZUFS_IOM_VAL_BITS)`.
This is the word it stores at `*ptr`. -/
def _zufs_iom_enc_type_val (api : zus_api) (type val : Nat) : Nat :=
  u64 (u64 val ||| u64 type <<< api.ZUFS_IOM_VAL_BITS)

/-- Modelled from the spec: the decoder's reading of the type tag of a word, the bits
above the reserved low-bit width (`_zufs_iom_opt_type` of `zus_api.h`). -/
def _zufs_iom_opt_type (api : zus_api) (w : Nat) : Nat :=
  w >>> api.ZUFS_IOM_VAL_BITS

/-- Modelled from the spec: the decoder's reading of the value of a tagged word, the
reserved low bits (`_zufs_iom_first_val` of `zus_api.h`). -/
def _zufs_iom_first_val (api : zus_api) (w : Nat) : Nat :=
  w &&& ZUFS_IOM_FIRST_VAL_MASK api

/-- An instance of the protocol parameters used to evaluate the definitions on
concrete inputs: a 56-bit value, records of two and three packed words. -/
def zufs_proto : zus_api where
  ZUFS_IOM_VAL_BITS := 56
  IOM_T2_WRITE := 3
  IOM_T2_READ := 4
  IOM_T2_ZUSMEM_WRITE := 7
  IOM_T2_ZUSMEM_READ := 8
  IOM_UNMAP := 9
  IOM_WBINV := 10
  IOM_DISCARD := 12
  sizeof_t2_io := 16
  off_t1_val := 8
  sizeof_t2_io_len := 24
  off_num_pages := 16
  sizeof_unmap := 24
  off_unmap_n := 8
  off_ino := 16
  sizeof_t2_zusmem_io := 24
  off_zus_mem_ptr := 8
  off_len := 16

/-! ## The builder (`iom_enc.h`) -/

/-- The `struct zufs_iomap` header and its flexible array `iom_e[]`: `iom_e a` is the
word stored at byte offset `a` from `iom_e`. -/
structure zufs_iomap where
  iom_n : Nat
  iom_max : Nat
  iom_e : Nat → Nat

/-- The `struct zus_iomap_build`.  `cur_iom_e` and `end_iom_e` are byte offsets from
`ziom->iom_e`; `ziom` is the pointed-to `struct zufs_iomap` (the builder of a caller
that went through `_zus_iom_common_init` and `_zus_iom_start` has a non-null `ziom`).
The ghost field `stores` lists the offsets of the 8-byte stores made into the
instruction area, latest first; `warns` counts the calls of `zus_warn`. -/
structure zus_iomap_build where
  iomd : Nat
  sbi : Nat
  cur_iom_e : Nat
  end_iom_e : Nat
  ziom : zufs_iomap
  stores : List Nat
  warns : Nat

/-- The store `*(__u64 *)ptr = v` into the instruction area. -/
def iom_store (iomb : zus_iomap_build) (ptr v : Nat) : zus_iomap_build :=
  { iomb with
    ziom := { iomb.ziom with
      iom_e := fun a => if a = ptr then u64 v else iomb.ziom.iom_e a }
    stores := ptr :: iomb.stores }

/-- Source function `_zus_iom_len`: `(__u64 *)iomb->cur_iom_e - iomb->ziom->iom_e`. -/
def _zus_iom_len (iomb : zus_iomap_build) : Nat :=
  iomb.cur_iom_e / 8

/-- Source function `_zus_iom_empty`. -/
def _zus_iom_empty (iomb : zus_iomap_build) : Bool :=
  _zus_iom_len iomb == 0

/-- The condition of `ZUS_WARN_ON(val & ~ZUFS_IOM_FIRST_VAL_MASK)`. -/
def iom_val_out_of_mask (api : zus_api) (val : Nat) : Bool :=
  u64 val &&& (2 ^ 64 - 1 - ZUFS_IOM_FIRST_VAL_MASK api) != 0

/-- The macro `ZUS_WARN_ON(x_)`: when the condition holds `zus_warn` is called (it reports the
condition, file and line; counted in `warns`), and the statement expression yields
the condition: execution goes on with the statement that follows. -/
def ZUS_WARN_ON (iomb : zus_iomap_build) (x_ : Bool) : zus_iomap_build :=
  if x_ then { iomb with warns := iomb.warns + 1 } else iomb

/-- Source function `_zus_iom_enc_type_val(ptr, type, val)`: the warning check, then the store of the
tagged word at `ptr`. -/
def _zus_iom_enc_type_val (api : zus_api) (iomb : zus_iomap_build) (ptr type val : Nat) :
    zus_iomap_build :=
  iom_store (ZUS_WARN_ON iomb (iom_val_out_of_mask api val)) ptr
    (_zufs_iom_enc_type_val api type val)

/-- Source function `_zus_iom_common_init(iomb, sbi, ziom, end_ptr)`: `memset` of the header, then
`iom_max = (end_ptr - iom_e) / sizeof(__u64)`.  `end_ptr` is the byte offset of the
end pointer from `ziom->iom_e`. -/
def _zus_iom_common_init (iomb : zus_iomap_build) (sbi : Nat) (ziom : zufs_iomap)
    (end_ptr : Nat) : zus_iomap_build :=
  { iomb with
    sbi := sbi
    ziom := { ziom with iom_n := 0, iom_max := end_ptr / 8 }
    end_iom_e := end_ptr }

/-- Source function `_zus_iom_start(iomb, iomd)`. -/
def _zus_iom_start (iomb : zus_iomap_build) (iomd : Nat) : zus_iomap_build :=
  let iomb := { iomb with cur_iom_e := 0 }
  let iomb := { iomb with ziom := { iomb.ziom with iom_n := 0 } }
  let iomb := iom_store iomb 0 0
  { iomb with iomd := iomd }

/-- Source function `_zus_iom_end(iomb)`.  The test `if (iomb->ziom)` holds for every
builder of this embedding, whose `ziom` is never null. -/
def _zus_iom_end (api : zus_api) (iomb : zus_iomap_build) : zus_iomap_build :=
  let iomb :=
    if iomb.cur_iom_e < iomb.end_iom_e then
      _zus_iom_enc_type_val api iomb iomb.cur_iom_e 0 0
    else iomb
  { iomb with ziom := { iomb.ziom with iom_n := _zus_iom_len iomb } }

/-- Source function `_zus_iom_enc_wbinv(iomb)`. -/
def _zus_iom_enc_wbinv (api : zus_api) (iomb : zus_iomap_build) :
    Int × zus_iomap_build :=
  let iom_e := iomb.cur_iom_e
  if iomb.end_iom_e < iom_e + 8 then (-ENOSPC, iomb)
  else
    let iomb := { iomb with cur_iom_e := iom_e + 8 }
    (0, _zus_iom_enc_type_val api iomb iom_e api.IOM_WBINV 0)

/-- Source function `_zus_iom_enc_discard(iomb, t2_bn, num_pages)`. -/
def _zus_iom_enc_discard (api : zus_api) (iomb : zus_iomap_build) (t2_bn num_pages : Nat) :
    Int × zus_iomap_build :=
  let iom_io_range := iomb.cur_iom_e
  let next_iom_e := iom_io_range + api.sizeof_t2_io_len
  if iomb.end_iom_e < next_iom_e then (-ENOSPC, iomb)
  else
    let iomb := _zus_iom_enc_type_val api iomb iom_io_range api.IOM_DISCARD t2_bn
    let iomb := iom_store iomb (iom_io_range + api.off_num_pages) num_pages
    (0, { iomb with cur_iom_e := next_iom_e })

/-- Source function `_zus_iom_enc_unmap(iomb, index, n, ino)`. -/
def _zus_iom_enc_unmap (api : zus_api) (iomb : zus_iomap_build) (index n ino : Nat) :
    Int × zus_iomap_build :=
  let iom_unmap := iomb.cur_iom_e
  let next_iom_e := iom_unmap + api.sizeof_unmap
  if iomb.end_iom_e < next_iom_e then (-ENOSPC, iomb)
  else
    let iomb := _zus_iom_enc_type_val api iomb iom_unmap api.IOM_UNMAP index
    let iomb := iom_store iomb (iom_unmap + api.off_unmap_n) n
    let iomb := iom_store iomb (iom_unmap + api.off_ino) ino
    (0, { iomb with cur_iom_e := next_iom_e })

/-- Source function `_zus_iom_enc_t2_io(iomb, t2_bn, t1_val, type)`. -/
def _zus_iom_enc_t2_io (api : zus_api) (iomb : zus_iomap_build) (t2_bn t1_val type : Nat) :
    Int × zus_iomap_build :=
  let iom_io := iomb.cur_iom_e
  let next_iom_e := iom_io + api.sizeof_t2_io
  if iomb.end_iom_e < next_iom_e then (-ENOSPC, iomb)
  else
    let iomb := _zus_iom_enc_type_val api iomb iom_io type t2_bn
    let iomb := iom_store iomb (iom_io + api.off_t1_val) t1_val
    (0, { iomb with cur_iom_e := next_iom_e })

/-- Source function `_zus_iom_enc_t2_write(iomb, t2_bn, t1_val)`. -/
def _zus_iom_enc_t2_write (api : zus_api) (iomb : zus_iomap_build) (t2_bn t1_val : Nat) :
    Int × zus_iomap_build :=
  _zus_iom_enc_t2_io api iomb t2_bn t1_val api.IOM_T2_WRITE

/-- Source function `_zus_iom_enc_t2_read(iomb, t2_bn, t1_val)`. -/
def _zus_iom_enc_t2_read (api : zus_api) (iomb : zus_iomap_build) (t2_bn t1_val : Nat) :
    Int × zus_iomap_build :=
  _zus_iom_enc_t2_io api iomb t2_bn t1_val api.IOM_T2_READ

/-- Source function `_zus_iom_enc_t2_zusmem_io(iomb, t2_bn, ptr, len, type)`. -/
def _zus_iom_enc_t2_zusmem_io (api : zus_api) (iomb : zus_iomap_build)
    (t2_bn ptr len type : Nat) : Int × zus_iomap_build :=
  let iom_io := iomb.cur_iom_e
  let next_iom_e := iom_io + api.sizeof_t2_zusmem_io
  if iomb.end_iom_e < next_iom_e then (-ENOSPC, iomb)
  else
    let iomb := _zus_iom_enc_type_val api iomb iom_io type t2_bn
    let iomb := iom_store iomb (iom_io + api.off_zus_mem_ptr) ptr
    let iomb := iom_store iomb (iom_io + api.off_len) len
    (0, { iomb with cur_iom_e := next_iom_e })

/-- Source function `_zus_iom_enc_t2_zusmem_write(iomb, t2_bn, ptr, len)`. -/
def _zus_iom_enc_t2_zusmem_write (api : zus_api) (iomb : zus_iomap_build)
    (t2_bn ptr len : Nat) : Int × zus_iomap_build :=
  _zus_iom_enc_t2_zusmem_io api iomb t2_bn ptr len api.IOM_T2_ZUSMEM_WRITE

/-- Source function `_zus_iom_enc_t2_zusmem_read(iomb, t2_bn, ptr, len)`. -/
def _zus_iom_enc_t2_zusmem_read (api : zus_api) (iomb : zus_iomap_build)
    (t2_bn ptr len : Nat) : Int × zus_iomap_build :=
  _zus_iom_enc_t2_zusmem_io api iomb t2_bn ptr len api.IOM_T2_ZUSMEM_READ

/-! ## Sequences of encode calls -/

/-- One call of a checked encoder with its operands: `_zus_iom_enc_wbinv`,
`_zus_iom_enc_discard`, `_zus_iom_enc_unmap`, `_zus_iom_enc_t2_io` (through which
`_zus_iom_enc_t2_write` and `_zus_iom_enc_t2_read` go) and `_zus_iom_enc_t2_zusmem_io`
(through which `_zus_iom_enc_t2_zusmem_write` and `_zus_iom_enc_t2_zusmem_read` go). -/
inductive iom_call where
  | wbinv
  | discard (t2_bn num_pages : Nat)
  | unmap (index n ino : Nat)
  | t2_io (t2_bn t1_val type : Nat)
  | t2_zusmem_io (t2_bn ptr len type : Nat)
  deriving DecidableEq, Repr

/-- The size in bytes of the record a call encodes: `sizeof(__u64)` for the write-back
and invalidate word, the `sizeof` of its structure for the others. -/
def iom_call.size (api : zus_api) : iom_call → Nat
  | .wbinv => 8
  | .discard _ _ => api.sizeof_t2_io_len
  | .unmap _ _ _ => api.sizeof_unmap
  | .t2_io _ _ _ => api.sizeof_t2_io
  | .t2_zusmem_io _ _ _ _ => api.sizeof_t2_zusmem_io

/-- The call itself: result and builder after it. -/
def iom_call.exec (api : zus_api) (iomb : zus_iomap_build) : iom_call → Int × zus_iomap_build
  | .wbinv => _zus_iom_enc_wbinv api iomb
  | .discard t2_bn num_pages => _zus_iom_enc_discard api iomb t2_bn num_pages
  | .unmap index n ino => _zus_iom_enc_unmap api iomb index n ino
  | .t2_io t2_bn t1_val type => _zus_iom_enc_t2_io api iomb t2_bn t1_val type
  | .t2_zusmem_io t2_bn ptr len type => _zus_iom_enc_t2_zusmem_io api iomb t2_bn ptr len type

/-- A sequence of encode calls made one after the other on a builder: the results of
the calls in order, and the builder after the last one. -/
def iom_run (api : zus_api) : zus_iomap_build → List iom_call → List Int × zus_iomap_build
  | iomb, [] => ([], iomb)
  | iomb, c :: cs =>
    let r := c.exec api iomb
    let rest := iom_run api r.2 cs
    (r.1 :: rest.1, rest.2)

/-- The calls of a sequence that returned 0, in order. -/
def iom_accepted (api : zus_api) : zus_iomap_build → List iom_call → List iom_call
  | _, [] => []
  | iomb, c :: cs =>
    let r := c.exec api iomb
    if r.1 = 0 then c :: iom_accepted api r.2 cs else iom_accepted api r.2 cs

/-- The number of 64-bit words of the records of a list of calls. -/
def iom_words (api : zus_api) (cs : List iom_call) : Nat :=
  (cs.map fun c => c.size api / 8).sum

/-- The operands of a call are in the range the round trip needs: the tagged value
fits `ZUFS_IOM_FIRST_VAL_MASK`, the other operands are 64-bit words, and the type of a
block transfer is one of the two the public wrappers pass. -/
def iom_call.wf (api : zus_api) : iom_call → Prop
  | .wbinv => True
  | .discard t2_bn num_pages => t2_bn ≤ ZUFS_IOM_FIRST_VAL_MASK api ∧ num_pages < 2 ^ 64
  | .unmap index n ino => index ≤ ZUFS_IOM_FIRST_VAL_MASK api ∧ n < 2 ^ 64 ∧ ino < 2 ^ 64
  | .t2_io t2_bn t1_val type =>
    t2_bn ≤ ZUFS_IOM_FIRST_VAL_MASK api ∧ t1_val < 2 ^ 64 ∧
      (type = api.IOM_T2_WRITE ∨ type = api.IOM_T2_READ)
  | .t2_zusmem_io t2_bn ptr len type =>
    t2_bn ≤ ZUFS_IOM_FIRST_VAL_MASK api ∧ ptr < 2 ^ 64 ∧ len < 2 ^ 64 ∧
      (type = api.IOM_T2_ZUSMEM_WRITE ∨ type = api.IOM_T2_ZUSMEM_READ)

instance (api : zus_api) (c : iom_call) : Decidable (c.wf api) := by
  cases c <;> unfold iom_call.wf <;> infer_instance

/-- Modelled from the spec: the decoding side is not part of the sources ("decoding
only in Kernel").  One record is read by its type tag: the first word gives the tag
and the tagged value, the tag decides which record it is, the other operands are read
from the fields of that record.  The result is the instruction and the size of its
record; a word with the null tag, or with a tag of no instruction, gives none. -/
def iom_decode_one (api : zus_api) (mem : Nat → Nat) (p : Nat) : Option (iom_call × Nat) :=
  let t := _zufs_iom_opt_type api (mem p)
  let v := _zufs_iom_first_val api (mem p)
  if t = api.IOM_WBINV then some (.wbinv, 8)
  else if t = api.IOM_DISCARD then
    some (.discard v (mem (p + api.off_num_pages)), api.sizeof_t2_io_len)
  else if t = api.IOM_UNMAP then
    some (.unmap v (mem (p + api.off_unmap_n)) (mem (p + api.off_ino)), api.sizeof_unmap)
  else if t = api.IOM_T2_WRITE ∨ t = api.IOM_T2_READ then
    some (.t2_io v (mem (p + api.off_t1_val)) t, api.sizeof_t2_io)
  else if t = api.IOM_T2_ZUSMEM_WRITE ∨ t = api.IOM_T2_ZUSMEM_READ then
    some (.t2_zusmem_io v (mem (p + api.off_zus_mem_ptr)) (mem (p + api.off_len)) t,
      api.sizeof_t2_zusmem_io)
  else none

/-- Modelled from the spec: the records from offset `p` on are read one after the
other until the offset `endp` is reached or a word carries no instruction (the null
sentinel).  `fuel` bounds the number of records read. -/
def iom_decode_from (api : zus_api) (mem : Nat → Nat) (endp : Nat) : Nat → Nat → List iom_call
  | 0, _ => []
  | fuel + 1, p =>
    if p < endp then
      match iom_decode_one api mem p with
      | some (c, sz) => c :: iom_decode_from api mem endp fuel (p + sz)
      | none => []
    else []

/-- Modelled from the spec: decoding of a finished stream, from `iom_e[0]`, over the
`iom_n` words the header records ("the list length is implicit in the count field,
not solely the sentinel").  A record has at least one word, so `iom_n` records at
most are read. -/
def iom_decode (api : zus_api) (ziom : zufs_iomap) : List iom_call :=
  iom_decode_from api ziom.iom_e (8 * ziom.iom_n) ziom.iom_n 0

/-- The words of the record of call `c` are in `mem` at offset `p`: the tagged first
word and the operand fields. -/
def rec_at (api : zus_api) (mem : Nat → Nat) (p : Nat) : iom_call → Prop
  | .wbinv => mem p = _zufs_iom_enc_type_val api api.IOM_WBINV 0
  | .discard t2_bn num_pages =>
    mem p = _zufs_iom_enc_type_val api api.IOM_DISCARD t2_bn ∧
    mem (p + api.off_num_pages) = num_pages
  | .unmap index n ino =>
    mem p = _zufs_iom_enc_type_val api api.IOM_UNMAP index ∧
    mem (p + api.off_unmap_n) = n ∧ mem (p + api.off_ino) = ino
  | .t2_io t2_bn t1_val type =>
    mem p = _zufs_iom_enc_type_val api type t2_bn ∧ mem (p + api.off_t1_val) = t1_val
  | .t2_zusmem_io t2_bn ptr len type =>
    mem p = _zufs_iom_enc_type_val api type t2_bn ∧
    mem (p + api.off_zus_mem_ptr) = ptr ∧ mem (p + api.off_len) = len

/-- A builder for concrete evaluation: instruction area holding `fill` in every word,
end pointer `end_ptr` bytes behind `iom_e`. -/
def iom_builder (fill end_ptr : Nat) : zus_iomap_build :=
  _zus_iom_common_init
    { iomd := 0, sbi := 0, cur_iom_e := 0, end_iom_e := 0,
      ziom := { iom_n := 0, iom_max := 0, iom_e := fun _ => fill }, stores := [], warns := 0 }
    1 { iom_n := 0, iom_max := 0, iom_e := fun _ => fill } end_ptr

/-! ## Mount lifecycle (`zus-vfs.c`) -/

/-- The enumerator `ZUS_SBIF_ERROR` of `enum E_zus_sbi_flags`. -/
def ZUS_SBIF_ERROR : Nat := 0

/-- The calls `zus-vfs.c` makes during mount and unmount to the back-end hooks and to
functions outside the file, recorded in the order they are made. -/
inductive zus_call where
  | sbi_alloc
  | zuf_root_open_tmp
  | zuf_grab_pmem
  | mmap
  | madvise
  | md_init_from_pmem_info
  | fba_alloc_align
  | sbi_init
  | zus_sbi_set_flag (flag : Nat)
  | sbi_fini
  | fba_free
  | md_fini
  | munmap
  | zuf_root_close
  | sbi_free
  deriving DecidableEq, Repr

/-- The fields of `struct multi_devices` (`md.h`) that `zus-vfs.c` assigns. -/
structure multi_devices where
  sbi : Nat
  fd : Int
  p_pmem_addr : Nat
  user_page_size : Nat
  deriving DecidableEq, Repr

/-- The `struct zus_sb_info` of one mount; `zfi` and `z_root` are pointers, 0 is
`NULL`.  `kern_sb_id` is the field `zus_mount` assigns from the request. -/
structure zus_sb_info where
  md : multi_devices
  zfi : Nat
  z_root : Nat
  flags : Nat
  kern_sb_id : Nat
  deriving DecidableEq, Repr

/-- The `struct zus_inode_info`: owning instance and address of the inode record. -/
structure zus_inode_info where
  sbi : Nat
  zi : Nat
  deriving DecidableEq, Repr

/-- The fields of `zim->zmi` that `zus_mount` reads (`zus_zfi`, `sb_id`,
`pmem_kern_id`) and publishes (`zus_sbi`, `_zi`, `zus_ii`). -/
structure zufs_mount_info where
  zus_zfi : Nat
  sb_id : Nat
  pmem_kern_id : Nat
  zus_sbi : Nat
  _zi : Nat
  zus_ii : Nat
  deriving DecidableEq, Repr

/-- The `struct zufs_ioc_mount`: the error slot of the header and the mount info. -/
structure zufs_ioc_mount where
  hdr_err : Int
  zmi : zufs_mount_info
  deriving DecidableEq, Repr

/-- The `struct zus_zfi_operations` of a back-end.  `sbi_alloc` is the pointer the
hook returns (0 is `NULL`) and `sbi_new` the content of the instance it allocated;
`sbi_init` gives its result and what it leaves in the instance and the request;
`sbi_fini` is optional (`none` is a null hook), its result is the `int` it returns and
what it leaves in the instance.  `sbi_free` is always supplied. -/
structure zus_zfi_operations where
  sbi_alloc : Nat
  sbi_new : zus_sb_info
  sbi_init : zus_sb_info → zufs_ioc_mount → Int × zus_sb_info × zufs_ioc_mount
  sbi_fini : Option (zus_sb_info → Int × zus_sb_info)

/-- The `struct zus_fs_info`: the operations and the page size the back-end asks for. -/
structure zus_fs_info where
  op : zus_zfi_operations
  user_page_size : Nat

/-- What lies outside `zus-vfs.c`: the objects pointers refer to (`zfi_at`, `zii_at`
give the `zus_fs_info` and the `zus_inode_info` at an address, `none` where there is
none) and the results of the system and library calls of `_pmem_grab` and
`_pmem_ungrab`. -/
structure zus_world where
  zfi_at : Nat → Option zus_fs_info
  zii_at : Nat → Option zus_inode_info
  /-- Result of `zuf_root_open_tmp` and the descriptor it stores. -/
  zuf_root_open_tmp : Int × Int
  zuf_grab_pmem : Int
  /-- Address returned by `mmap`; `none` is `MAP_FAILED`, with `errno`. -/
  mmap : Option Nat
  errno : Int
  madvise : Int
  md_init_from_pmem_info : Int
  fba_alloc_align : Int
  munmap : Int

/-- The instance `*sbi` and the calls made so far, in order. -/
structure zus_exec where
  sbi : zus_sb_info
  calls : List zus_call
  deriving DecidableEq, Repr

/-- Source function `_z_set_bit(flag, val)`: `*val |= (1 << flag)`. -/
def _z_set_bit (flag : Nat) (val : Nat) : Nat := u64 (val ||| 1 <<< flag)

/-- Source function `zus_sbi_flag_set(sbi, flag)` of `zus.h`. -/
def zus_sbi_flag_set (sbi : zus_sb_info) (flag : Nat) : zus_sb_info :=
  { sbi with flags := _z_set_bit flag sbi.flags }

/-- Modelled from the spec: `zus_mount` calls `zus_sbi_set_flag`, which the sources do
not define; it "marks the instance with an error flag", as `zus_sbi_flag_set` of
`zus.h` does. -/
def zus_sbi_set_flag (st : zus_exec) (flag : Nat) : zus_exec :=
  { sbi := zus_sbi_flag_set st.sbi flag, calls := st.calls ++ [.zus_sbi_set_flag flag] }

/-- Source function `_pmem_mmap(md)`; the length of the mapping is not modelled. -/
def _pmem_mmap (w : zus_world) (st : zus_exec) : Int × zus_exec :=
  let st := { st with calls := st.calls ++ [.mmap] }
  match w.mmap with
  | none => (-(if w.errno ≠ 0 then w.errno else ENOMEM), st)
  | some addr =>
    let st := { st with sbi := { st.sbi with md := { st.sbi.md with p_pmem_addr := addr } } }
    (0, { st with calls := st.calls ++ [.madvise] })

/-- Source function `_pmem_unmap(md)`. -/
def _pmem_unmap (w : zus_world) (st : zus_exec) : Int × zus_exec :=
  let st := { st with calls := st.calls ++ [.munmap] }
  if w.munmap = -1 then (w.errno, st) else (0, st)

/-- Source function `_pmem_grab(sbi, pmem_kern_id)`; `sbi` is the address of the instance.  `none`
when `sbi->zfi` points to no `zus_fs_info` where it is dereferenced. -/
def _pmem_grab (w : zus_world) (st : zus_exec) (sbi : Nat) (_pmem_kern_id : Nat) :
    Option (Int × zus_exec) :=
  let st := { st with sbi := { st.sbi with md := { st.sbi.md with sbi := sbi } } }
  let st := { st with calls := st.calls ++ [.zuf_root_open_tmp] }
  if w.zuf_root_open_tmp.1 ≠ 0 then some (w.zuf_root_open_tmp.1, st)
  else
    let st := { st with sbi := { st.sbi with md := { st.sbi.md with fd := w.zuf_root_open_tmp.2 } } }
    let st := { st with calls := st.calls ++ [.zuf_grab_pmem] }
    if w.zuf_grab_pmem ≠ 0 then some (w.zuf_grab_pmem, st)
    else
      let r := _pmem_mmap w st
      if r.1 ≠ 0 then some r
      else
        let st := { r.2 with calls := r.2.calls ++ [.md_init_from_pmem_info] }
        if w.md_init_from_pmem_info ≠ 0 then some (w.md_init_from_pmem_info, st)
        else
          match w.zfi_at st.sbi.zfi with
          | none => none
          | some zfi =>
            let st := { st with
              sbi := { st.sbi with md := { st.sbi.md with user_page_size := zfi.user_page_size } } }
            if st.sbi.md.user_page_size = 0 then some (0, st)
            else some (w.fba_alloc_align, { st with calls := st.calls ++ [.fba_alloc_align] })

/-- Source function `_pmem_ungrab(sbi)`. -/
def _pmem_ungrab (w : zus_world) (st : zus_exec) : zus_exec :=
  let st : zus_exec := { st with calls := st.calls ++ [zus_call.fba_free] }
  let st : zus_exec := { st with calls := st.calls ++ [zus_call.md_fini] }
  let st : zus_exec := (_pmem_unmap w st).2
  let st : zus_exec := { st with calls := st.calls ++ [zus_call.zuf_root_close] }
  { st with sbi := { st.sbi with md := { st.sbi.md with p_pmem_addr := 0 } } }

/-- Source function `_zus_sbi_fini(sbi)`; `none` when `sbi->zfi` points to no `zus_fs_info`. -/
def _zus_sbi_fini (w : zus_world) (st : zus_exec) : Option zus_exec :=
  match w.zfi_at st.sbi.zfi with
  | none => none
  | some zfi =>
    let st :=
      match zfi.op.sbi_fini with
      | some fini => { sbi := (fini st.sbi).2, calls := st.calls ++ [.sbi_fini] }
      | none => st
    let st := _pmem_ungrab w st
    match w.zfi_at st.sbi.zfi with
    | none => none
    | some _ => some { st with calls := st.calls ++ [.sbi_free] }

/-- Modelled from the spec: `md_addr_to_offset` of `md.h`, which is not part of the
sources, is "a pure pointer-arithmetic contract": the offset of an address from the
base of the mapping, as a 64-bit word. -/
def md_addr_to_offset (md : multi_devices) (addr : Nat) : Nat :=
  u64 (u64 addr + 2 ^ 64 - u64 md.p_pmem_addr)

/-- Source function `pmem_dpp_t(offset)`: the cast `(zu_dpp_t)offset`. -/
def pmem_dpp_t (offset : Nat) : Nat := offset

/-- The label `err:` of `zus_mount`, entered with the pointer `sbi` and `err`.  With a
null `sbi` the flag is written through the null pointer: there is no result. -/
def zus_mount_err (w : zus_world) (zim : zufs_ioc_mount) (sbi : Nat) (st : zus_exec)
    (err : Int) : Option (Int × zufs_ioc_mount × zus_exec) :=
  if sbi = 0 then none
  else
    match _zus_sbi_fini w (zus_sbi_set_flag st ZUS_SBIF_ERROR) with
    | none => none
    | some st => some (err, { zim with hdr_err := err }, st)

/-- The instance of `zus_mount` after `sbi_alloc` returned it and `sbi->zfi` and
`sbi->kern_sb_id` were assigned from the request. -/
def zus_mount_sbi (zfi : zus_fs_info) (zim : zufs_ioc_mount) : zus_exec :=
  let st : zus_exec := { sbi := zfi.op.sbi_new, calls := [.sbi_alloc] }
  let st := { st with sbi := { st.sbi with zfi := zim.zmi.zus_zfi } }
  { st with sbi := { st.sbi with kern_sb_id := zim.zmi.sb_id } }

/-- The calls `_pmem_grab` can make. -/
def pmem_grab_calls : List zus_call :=
  [.zuf_root_open_tmp, .zuf_grab_pmem, .mmap, .madvise, .md_init_from_pmem_info,
   .fba_alloc_align]

/-- The calls of `_zus_sbi_fini` in order: the back-end's `sbi_fini` when the hook is
there, the four calls of `_pmem_ungrab`, then `sbi_free`. -/
def teardown_calls (hook : Bool) : List zus_call :=
  (if hook then [zus_call.sbi_fini] else []) ++
    [.fba_free, .md_fini, .munmap, .zuf_root_close, .sbi_free]

/-- Source function `zus_mount(fd, zim)`: result, request and instance after the call, with the calls
made; `none` when a null or dangling pointer is dereferenced. -/
def zus_mount (w : zus_world) (zim : zufs_ioc_mount) :
    Option (Int × zufs_ioc_mount × zus_exec) :=
  match w.zfi_at zim.zmi.zus_zfi with
  | none => none
  | some zfi =>
    let sbi := zfi.op.sbi_alloc
    let st : zus_exec := { sbi := zfi.op.sbi_new, calls := [.sbi_alloc] }
    if sbi = 0 then zus_mount_err w zim sbi st (-ENOMEM)
    else
      match _pmem_grab w (zus_mount_sbi zfi zim) sbi zim.zmi.pmem_kern_id with
      | none => none
      | some r =>
        if r.1 ≠ 0 then zus_mount_err w zim sbi r.2 r.1
        else
          match w.zfi_at r.2.sbi.zfi with
          | none => none
          | some zfi1 =>
            let i := zfi1.op.sbi_init r.2.sbi zim
            let st : zus_exec := { sbi := i.2.1, calls := r.2.calls ++ [.sbi_init] }
            let zim := i.2.2
            if i.1 ≠ 0 then zus_mount_err w zim sbi st i.1
            else
              match w.zii_at st.sbi.z_root with
              | none => none
              | some z_root =>
                let zim := { zim with zmi := { zim.zmi with zus_sbi := sbi } }
                let zim := { zim with zmi := { zim.zmi with
                  _zi := pmem_dpp_t (md_addr_to_offset st.sbi.md z_root.zi) } }
                let zim := { zim with zmi := { zim.zmi with zus_ii := st.sbi.z_root } }
                some (0, zim, st)

/-- Source function `zus_umount(fd, zim)`; the instance is the one `zim->zmi.zus_sbi` points to. -/
def zus_umount (w : zus_world) (st : zus_exec) : Option (Int × zus_exec) :=
  match _zus_sbi_fini w st with
  | none => none
  | some st => some (0, st)

/-- A back-end for concrete evaluation: `sbi_alloc` returns `alloc`, `sbi_init`
returns `init_err` and sets the root inode to the handle at address 200, `sbi_fini` is
there when `hook` is set. -/
def backend (alloc : Nat) (init_err : Int) (hook : Bool) : zus_fs_info where
  op := {
    sbi_alloc := alloc
    sbi_new := { md := { sbi := 0, fd := 0, p_pmem_addr := 0, user_page_size := 0 },
                 zfi := 0, z_root := 0, flags := 0, kern_sb_id := 0 }
    sbi_init := fun sbi zim => (init_err, { sbi with z_root := 200 }, zim)
    sbi_fini := if hook then some (fun sbi => (0, sbi)) else none }
  user_page_size := 4096

/-- A world for concrete evaluation: the back-end `zfi` at address 100, the root inode
handle at address 200, `zuf_root_open_tmp` returning `open_err`, every other call
succeeding. -/
def world (zfi : zus_fs_info) (open_err : Int) : zus_world where
  zfi_at := fun p => if p = 100 then some zfi else none
  zii_at := fun p => if p = 200 then some { sbi := 0, zi := 4096 + 64 } else none
  zuf_root_open_tmp := (open_err, 3)
  zuf_grab_pmem := 0
  mmap := some 4096
  errno := 0
  madvise := 0
  md_init_from_pmem_info := 0
  fba_alloc_align := 0
  munmap := 0

/-- A mount request for concrete evaluation, naming the back-end at address 100. -/
def mount_request : zufs_ioc_mount where
  hdr_err := 0
  zmi := { zus_zfi := 100, sb_id := 1, pmem_kern_id := 2, zus_sbi := 0, _zi := 0, zus_ii := 0 }

/-! ## The dispatcher (`zus-vfs.c`) and the helpers of `zus.h` -/

/-- The value of `EINVAL` in `errno.h`. -/
def EINVAL : Int := 22

/-- The value of `ENOENT` in `errno.h`. -/
def ENOENT : Int := 2

/-- The value of `ENOTSUP` in `errno.h`. -/
def ENOTSUP : Int := 95

/-- The operation code `hdr->operation`: the enumerators of `enum e_zufs_operation`
that `zus-vfs.c` names (they are distinct, all of them being case labels of the one
switch of `ZUFS_OP_name`), and `unknown` for a code that is none of them. -/
inductive e_zufs_operation where
  | ZUFS_OP_NULL
  | ZUFS_OP_STATFS
  | ZUFS_OP_NEW_INODE
  | ZUFS_OP_FREE_INODE
  | ZUFS_OP_EVICT_INODE
  | ZUFS_OP_LOOKUP
  | ZUFS_OP_ADD_DENTRY
  | ZUFS_OP_REMOVE_DENTRY
  | ZUFS_OP_RENAME
  | ZUFS_OP_READDIR
  | ZUFS_OP_CLONE
  | ZUFS_OP_COPY
  | ZUFS_OP_READ
  | ZUFS_OP_PRE_READ
  | ZUFS_OP_WRITE
  | ZUFS_OP_GET_BLOCK
  | ZUFS_OP_PUT_BLOCK
  | ZUFS_OP_MMAP_CLOSE
  | ZUFS_OP_GET_SYMLINK
  | ZUFS_OP_SETATTR
  | ZUFS_OP_SYNC
  | ZUFS_OP_FALLOCATE
  | ZUFS_OP_LLSEEK
  | ZUFS_OP_IOCTL
  | ZUFS_OP_XATTR_GET
  | ZUFS_OP_XATTR_SET
  | ZUFS_OP_XATTR_LIST
  | ZUFS_OP_BREAK
  | ZUFS_OP_MAX_OPT
  | unknown (code : Nat)
  deriving DecidableEq, Repr

/-- The `struct zufs_str`: the length `len` and the bytes of the array `name`.  A byte
read behind the end of the list reads as 0. -/
structure zufs_str where
  len : Nat
  name : List Nat
  deriving DecidableEq, Repr

/-- The fields of `struct zus_inode` that `zus-vfs.c` and the helpers of `zus.h` use.
The fields are little-endian on the media; a field is given by its value
(`cpu_to_le16` and the like are the identity on values, up to the width). -/
structure zus_inode where
  i_mode : Nat
  i_nlink : Nat
  i_ino : Nat
  i_dir_parent : Nat
  deriving DecidableEq, Repr

/-- The `struct zufs_ioc_hdr`: the operation code and the error slot. -/
structure zufs_ioc_hdr where
  operation : e_zufs_operation
  err : Int
  deriving DecidableEq, Repr

/-- The `struct zufs_ioc_new_inode`; `dir_ii` and `zus_ii` are pointers to inode
handles, `zi` is the draft inode, `_zi` the region offset published to the caller. -/
structure zufs_ioc_new_inode where
  hdr : zufs_ioc_hdr
  zi : zus_inode
  dir_ii : Nat
  zus_ii : Nat
  _zi : Nat
  str : zufs_str
  flags : Nat
  deriving DecidableEq, Repr

/-- The `struct zufs_ioc_lookup`. -/
structure zufs_ioc_lookup where
  hdr : zufs_ioc_hdr
  dir_ii : Nat
  str : zufs_str
  _zi : Nat
  zus_ii : Nat
  deriving DecidableEq, Repr

/-- The `struct zufs_ioc_dentry`. -/
structure zufs_ioc_dentry where
  hdr : zufs_ioc_hdr
  zus_ii : Nat
  zus_dir_ii : Nat
  str : zufs_str
  deriving DecidableEq, Repr

/-- The command record a `struct zufs_ioc_hdr *` points to: one of the three records
the dispatcher casts the header to, or a record of which only the header is read. -/
inductive zufs_ioc where
  | new_inode (r : zufs_ioc_new_inode)
  | lookup (r : zufs_ioc_lookup)
  | dentry (r : zufs_ioc_dentry)
  | hdr (h : zufs_ioc_hdr)
  deriving DecidableEq, Repr

/-- The header of a command record. -/
def zufs_ioc.hdr_of : zufs_ioc → zufs_ioc_hdr
  | .new_inode r => r.hdr
  | .lookup r => r.hdr
  | .dentry r => r.hdr
  | .hdr h => h

/-- The calls the dispatcher makes to the operations of a back-end, with their
arguments (pointers are addresses), in the order they are made. -/
inductive vfs_call where
  | new_inode (sbi app_ptr : Nat) (ioc_new : zufs_ioc_new_inode)
  | free_inode (zii : Nat)
  | lookup (dir_ii : Nat) (str : zufs_str)
  | add_dentry (dir_ii zii : Nat) (str : zufs_str)
  | remove_dentry (dir_ii zii : Nat) (str : zufs_str)
  | iget (sbi ino : Nat)
  deriving DecidableEq, Repr

/-- The entries of `struct zus_sbi_operations` the dispatcher calls, as the results
the back-end gives: `new_inode` the handle it returns (0 is `NULL`) and what it leaves
in the request; `lookup` the inode number; `iget` the result and the handle stored
through `&zii`; the others the `int` they return. -/
structure zus_sbi_operations where
  new_inode : Nat → Nat → zufs_ioc_new_inode → Nat × zufs_ioc_new_inode
  free_inode : Nat → Int
  lookup : Nat → zufs_str → Nat
  add_dentry : Nat → Nat → zufs_str → Int
  remove_dentry : Nat → Nat → zufs_str → Int
  iget : Nat → Nat → Int × Nat

/-- What the dispatcher reads and does not write: the flag `ZI_TMPFILE` of
`zus_api.h`, the instance at an address (`sbi_at`) and its operation table `sbi->op`
(`op_at`); `none` where the address holds none. -/
structure zus_vfs where
  ZI_TMPFILE : Nat
  sbi_at : Nat → Option zus_sb_info
  op_at : Nat → Option zus_sbi_operations

/-- The memory the dispatcher works on and the calls made so far: the inode handle at
an address (`zii_at`, the handles the back-end hands out included), the inode record
at an address (`zi_at`), `none` where the address holds none. -/
structure vfs_state where
  zii_at : Nat → Option zus_inode_info
  zi_at : Nat → Option zus_inode
  calls : List vfs_call

/-- The library function `strncmp(s1, s2, n)` on byte lists read as C strings (a list
ends with an implied NUL): 0 when the first `n` characters agree, up to a common NUL. -/
def strncmp (s1 s2 : List Nat) : Nat → Int
  | 0 => 0
  | n + 1 =>
    if s1.headD 0 ≠ s2.headD 0 then (s1.headD 0 : Int) - (s2.headD 0 : Int)
    else if s1.headD 0 = 0 then 0
    else strncmp s1.tail s2.tail n

/-- The name of a `zufs_str` as a C string: the `len` bytes of `name`, cut at the
first NUL byte. -/
def zufs_str.c_name (str : zufs_str) : List Nat :=
  (str.name.take str.len).takeWhile fun c => c ≠ 0

/-- Source function `zus_iget(sbi, ino)`: the handle returned (0 is `NULL`) and the
state after the call, the handle stamped with `sbi`; `none` when a pointer that is
dereferenced holds nothing. -/
def zus_iget (v : zus_vfs) (st : vfs_state) (sbi ino : Nat) : Option (Nat × vfs_state) :=
  match v.op_at sbi with
  | none => none
  | some op =>
    let r := op.iget sbi ino
    let st := { st with calls := st.calls ++ [.iget sbi ino] }
    if r.1 ≠ 0 then some (0, st)
    else
      match st.zii_at r.2 with
      | none => none
      | some zii =>
        some (r.2, { st with
          zii_at := fun p => if p = r.2 then some { zii with sbi := sbi } else st.zii_at p })

/-- Source function `_new_inode(app_ptr, hdr)`: result, request and state after the
call; `none` when a pointer that is dereferenced holds nothing. -/
def _new_inode (v : zus_vfs) (st : vfs_state) (app_ptr : Nat) (ioc_new : zufs_ioc_new_inode) :
    Option (Int × zufs_ioc_new_inode × vfs_state) :=
  match st.zii_at ioc_new.dir_ii with
  | none => none
  | some dir_ii =>
    let sbi := dir_ii.sbi
    let ioc_new := { ioc_new with zi := { ioc_new.zi with i_nlink := 0 } }
    match v.op_at sbi with
    | none => none
    | some op =>
      let r := op.new_inode sbi app_ptr ioc_new
      let st := { st with calls := st.calls ++ [.new_inode sbi app_ptr ioc_new] }
      let zii := r.1
      let ioc_new := r.2
      if zii = 0 then some (-EINVAL, ioc_new, st)
      else
        match v.sbi_at sbi, st.zii_at zii with
        | some sbi_mem, some zii_mem =>
          let ioc_new := { ioc_new with _zi := md_addr_to_offset sbi_mem.md zii_mem.zi }
          let ioc_new := { ioc_new with zus_ii := zii }
          if ioc_new.flags &&& v.ZI_TMPFILE ≠ 0 then some (0, ioc_new, st)
          else
            match (st.zii_at ioc_new.dir_ii).bind fun d => v.op_at d.sbi with
            | none => none
            | some dir_op =>
              let err := dir_op.add_dentry ioc_new.dir_ii zii ioc_new.str
              let st := { st with
                calls := st.calls ++ [.add_dentry ioc_new.dir_ii zii ioc_new.str] }
              if err ≠ 0 then
                match v.op_at zii_mem.sbi with
                | none => none
                | some zii_op =>
                  let _ := zii_op.free_inode zii
                  some (err, ioc_new, { st with calls := st.calls ++ [.free_inode zii] })
              else some (0, ioc_new, st)
        | _, _ => none

/-- The resolution of the name in `_lookup`: the inode number `ino` and the state
after it.  The names `"."` and `".."` are compared with `strncmp` over `str->len`
characters; any other name goes to the back-end's `lookup`. -/
def lookup_ino (v : zus_vfs) (st : vfs_state) (lookup : zufs_ioc_lookup) :
    Option (Nat × vfs_state) :=
  match st.zii_at lookup.dir_ii with
  | none => none
  | some dir_ii =>
    if strncmp [46] lookup.str.name lookup.str.len = 0 then
      (st.zi_at dir_ii.zi).map fun zi => (zi.i_ino, st)
    else if strncmp [46, 46] lookup.str.name lookup.str.len = 0 then
      (st.zi_at dir_ii.zi).map fun zi => (zi.i_dir_parent, st)
    else
      (v.op_at dir_ii.sbi).map fun op =>
        (op.lookup lookup.dir_ii lookup.str,
          { st with calls := st.calls ++ [.lookup lookup.dir_ii lookup.str] })

/-- Source function `_lookup(hdr)`: result, request and state after the call; `none`
when a pointer that is dereferenced holds nothing. -/
def _lookup (v : zus_vfs) (st : vfs_state) (lookup : zufs_ioc_lookup) :
    Option (Int × zufs_ioc_lookup × vfs_state) :=
  if lookup.str.len = 0 ∨ lookup.str.name.headD 0 = 0 then some (0, lookup, st)
  else
    match lookup_ino v st lookup with
    | none => none
    | some (ino, st) =>
      if ino = 0 then some (-ENOENT, lookup, st)
      else
        match (st.zii_at lookup.dir_ii).bind fun d => zus_iget v st d.sbi ino with
        | none => none
        | some (zii, st) =>
          if zii = 0 then some (-ENOENT, lookup, st)
          else
            match (st.zii_at zii).bind fun z => (v.sbi_at z.sbi).map fun s => (z, s) with
            | none => none
            | some (zii_mem, sbi_mem) =>
              let lookup := { lookup with _zi := md_addr_to_offset sbi_mem.md zii_mem.zi }
              let lookup := { lookup with zus_ii := zii }
              some (0, lookup, st)

/-- Source function `_dentry(hdr)`: result and state after the call; `none` when a
pointer that is dereferenced holds nothing. -/
def _dentry (v : zus_vfs) (st : vfs_state) (zid : zufs_ioc_dentry) :
    Option (Int × vfs_state) :=
  let dir_ii := zid.zus_dir_ii
  let zii := zid.zus_ii
  match (st.zii_at dir_ii).bind fun d => v.op_at d.sbi with
  | none => none
  | some op =>
    if zid.hdr.operation = .ZUFS_OP_REMOVE_DENTRY then
      some (op.remove_dentry dir_ii zii zid.str,
        { st with calls := st.calls ++ [.remove_dentry dir_ii zii zid.str] })
    else
      some (op.add_dentry dir_ii zid.zus_ii zid.str,
        { st with calls := st.calls ++ [.add_dentry dir_ii zid.zus_ii zid.str] })

/-- Source function `zus_do_command(app_ptr, hdr)`: result, command record and state
after the call; `none` when a pointer that is dereferenced holds nothing, or when the
header is cast to a record the command is not. -/
def zus_do_command (v : zus_vfs) (st : vfs_state) (app_ptr : Nat) (c : zufs_ioc) :
    Option (Int × zufs_ioc × vfs_state) :=
  match c.hdr_of.operation with
  | .ZUFS_OP_NEW_INODE =>
    match c with
    | .new_inode r => (_new_inode v st app_ptr r).map fun x => (x.1, .new_inode x.2.1, x.2.2)
    | _ => none
  | .ZUFS_OP_FREE_INODE
  | .ZUFS_OP_EVICT_INODE => some (-ENOTSUP, c, st)
  | .ZUFS_OP_LOOKUP =>
    match c with
    | .lookup r => (_lookup v st r).map fun x => (x.1, .lookup x.2.1, x.2.2)
    | _ => none
  | .ZUFS_OP_ADD_DENTRY
  | .ZUFS_OP_REMOVE_DENTRY =>
    match c with
    | .dentry r => (_dentry v st r).map fun x => (x.1, c, x.2)
    | _ => none
  | .ZUFS_OP_RENAME
  | .ZUFS_OP_READDIR
  | .ZUFS_OP_CLONE
  | .ZUFS_OP_COPY
  | .ZUFS_OP_READ
  | .ZUFS_OP_PRE_READ
  | .ZUFS_OP_WRITE
  | .ZUFS_OP_GET_BLOCK
  | .ZUFS_OP_PUT_BLOCK
  | .ZUFS_OP_MMAP_CLOSE
  | .ZUFS_OP_GET_SYMLINK
  | .ZUFS_OP_SETATTR
  | .ZUFS_OP_SYNC
  | .ZUFS_OP_FALLOCATE
  | .ZUFS_OP_LLSEEK
  | .ZUFS_OP_IOCTL
  | .ZUFS_OP_XATTR_GET
  | .ZUFS_OP_XATTR_SET
  | .ZUFS_OP_XATTR_LIST
  | .ZUFS_OP_STATFS => some (-ENOTSUP, c, st)
  | .ZUFS_OP_BREAK => some (0, c, st)
  | _ => some (0, c, st)

/-- The inode records the helpers of `zus.h` work on, by address. -/
abbrev inode_mem := Nat → zus_inode

/-- Source function `zus_std_new_dir(dir_zi, zi)` on the inode records at the
addresses `dir_zi` and `zi`. -/
def zus_std_new_dir (m : inode_mem) (dir_zi zi : Nat) : inode_mem :=
  let m : inode_mem := fun p => if p = zi then { m zi with i_dir_parent := (m dir_zi).i_ino } else m p
  fun p => if p = zi then { m zi with i_nlink := 1 % 2 ^ 16 } else m p

/-- A back-end operation table for concrete evaluation: `new_inode` returns the handle
`new_zii` and fills inode number 7 into the draft, `add_dentry` returns `add_err`,
`lookup` returns `ino`, `iget` returns `iget_err` and the handle at address 400. -/
def vfs_ops (new_zii : Nat) (add_err : Int) (ino : Nat) (iget_err : Int) :
    zus_sbi_operations where
  new_inode := fun _ _ r => (new_zii, { r with zi := { r.zi with i_ino := 7 } })
  free_inode := fun _ => 0
  lookup := fun _ _ => ino
  add_dentry := fun _ _ _ => add_err
  remove_dentry := fun _ _ _ => 0
  iget := fun _ _ => (iget_err, 400)

/-- A dispatcher world for concrete evaluation: one instance at address 50, its region
mapped at 4096, with the operation table `ops`; `ZI_TMPFILE` is bit 0. -/
def vfs_world (ops : zus_sbi_operations) : zus_vfs where
  ZI_TMPFILE := 1
  sbi_at := fun p =>
    if p = 50 then
      some { md := { sbi := 50, fd := 3, p_pmem_addr := 4096, user_page_size := 0 },
             zfi := 100, z_root := 200, flags := 0, kern_sb_id := 1 }
    else none
  op_at := fun p => if p = 50 then some ops else none

/-- A dispatcher memory for concrete evaluation: the directory handle at 200 (inode
number 1, parent 9), the handle at 300 the back-end returns from `new_inode`, the
handle at 400 it returns from `iget`, not yet stamped with its instance. -/
def vfs_mem : vfs_state where
  zii_at := fun p =>
    if p = 200 then some { sbi := 50, zi := 4096 + 64 }
    else if p = 300 then some { sbi := 50, zi := 4096 + 128 }
    else if p = 400 then some { sbi := 0, zi := 4096 + 192 }
    else none
  zi_at := fun p =>
    if p = 4096 + 64 then some { i_mode := 16877, i_nlink := 2, i_ino := 1, i_dir_parent := 9 }
    else none
  calls := []

/-- A lookup request for concrete evaluation: directory handle 200, the given name. -/
def lookup_request (len : Nat) (name : List Nat) : zufs_ioc_lookup where
  hdr := { operation := .ZUFS_OP_LOOKUP, err := 0 }
  dir_ii := 200
  str := { len := len, name := name }
  _zi := 0
  zus_ii := 0

/-- A new-inode request for concrete evaluation: directory handle 200, name `"f"`, a
draft inode with link count 1, the given flags. -/
def new_inode_request (flags : Nat) : zufs_ioc_new_inode where
  hdr := { operation := .ZUFS_OP_NEW_INODE, err := 0 }
  zi := { i_mode := 33188, i_nlink := 1, i_ino := 0, i_dir_parent := 0 }
  dir_ii := 200
  zus_ii := 0
  _zi := 0
  str := { len := 1, name := [102] }
  flags := flags

/-- A dentry request for concrete evaluation: parent handle 200, child handle 300. -/
def dentry_request (op : e_zufs_operation) : zufs_ioc_dentry where
  hdr := { operation := op, err := 0 }
  zus_ii := 300
  zus_dir_ii := 200
  str := { len := 1, name := [102] }

/-- Inode records for concrete evaluation: a directory with inode number 1 at address
10, an inode with number 2 at every other address. -/
def inode_mem_example : inode_mem := fun p =>
  if p = 10 then { i_mode := 16877, i_nlink := 2, i_ino := 1, i_dir_parent := 1 }
  else { i_mode := 16877, i_nlink := 0, i_ino := 2, i_dir_parent := 0 }

/-! ## Whole builds, the unchecked encoder, link counts and time stamps -/

/-- One call made on a builder after its set-up: `_zus_iom_start`, a checked encoder,
or `_zus_iom_end`. -/
inductive iom_op where
  | start (iomd : Nat)
  | enc (c : iom_call)
  | finish
  deriving DecidableEq, Repr

/-- The builder after one call. -/
def iom_op.exec (api : zus_api) (iomb : zus_iomap_build) : iom_op → zus_iomap_build
  | .start iomd => _zus_iom_start iomb iomd
  | .enc c => (c.exec api iomb).2
  | .finish => _zus_iom_end api iomb

/-- The builder after a sequence of calls made one after the other. -/
def iom_ops (api : zus_api) : zus_iomap_build → List iom_op → zus_iomap_build
  | iomb, [] => iomb
  | iomb, o :: os => iom_ops api (o.exec api iomb) os

/-- Source function `_ziom_enc_t1_bn(iomb, bn, pool)`: the result and the builder after the call.
The word that `_zufs_iom_enc_bn(iom_e, bn, pool)` of `zus_api.h` stores at `iom_e` is
the parameter `enc_bn bn pool`. -/
def _ziom_enc_t1_bn (enc_bn : Nat → Nat → Nat) (iomb : zus_iomap_build) (bn pool : Nat) :
    Bool × zus_iomap_build :=
  let iom_e := iomb.cur_iom_e
  let iomb := { iomb with cur_iom_e := iom_e + 8 }
  let iomb := iom_store iomb iom_e (enc_bn bn pool)
  let iomb := { iomb with ziom := { iomb.ziom with iom_n := iomb.ziom.iom_n + 1 } }
  (decide (iomb.cur_iom_e < iomb.end_iom_e), iomb)

/-- A caller of `_ziom_enc_t1_bn` that encodes the block numbers of a list in order and
stops at the first call that returns `false`: the builder after the last call made. -/
def ziom_t1_run (enc_bn : Nat → Nat → Nat) : zus_iomap_build → List (Nat × Nat) →
    zus_iomap_build
  | iomb, [] => iomb
  | iomb, (bn, pool) :: rest =>
    let r := _ziom_enc_t1_bn enc_bn iomb bn pool
    if r.1 then ziom_t1_run enc_bn r.2 rest else r.2

/-- A block-number word for concrete evaluation: the pool above 56 bits of block
number. -/
def enc_bn_example (bn pool : Nat) : Nat :=
  bn ||| pool <<< 56

/-- The value of an integer converted to `__u16` (and `__le16`). -/
def u16 (x : Int) : Int := x % 2 ^ 16

/-- The value of an integer converted to `__s16`. -/
def s16 (x : Int) : Int := (x + 2 ^ 15) % 2 ^ 16 - 2 ^ 15

/-- The value of an integer converted to `ulong` (and `__u64`, `__le64`). -/
def ulong (x : Int) : Int := x % 2 ^ 64

/-- The conversion `le16_to_cpu` of a little-endian host: the value of the argument,
a `__le16`. -/
def le16_to_cpu (x : Int) : Int := u16 x

/-- The conversion `cpu_to_le16` of a little-endian host: the value of the argument,
a `__u16`. -/
def cpu_to_le16 (x : Int) : Int := u16 x

/-- The conversion `le64_to_cpu` of a little-endian host: the value of the argument,
a `__le64`. -/
def le64_to_cpu (x : Int) : Int := ulong x

/-- The conversion `cpu_to_le64` of a little-endian host: the value of the argument,
a `__u64`. -/
def cpu_to_le64 (x : Int) : Int := ulong x

/-- Source function `le16_add(val, add)`: the value stored to `*val` (and returned), from the value
`v` of `*val`.  The sum is made in `int`. -/
def le16_add (v : Nat) (add : Int) : Nat :=
  (cpu_to_le16 (le16_to_cpu v + s16 add)).toNat

/-- The macro `S_ISDIR(m)` of `sys/stat.h`: `(m & S_IFMT) == S_IFDIR`. -/
def S_ISDIR (m : Nat) : Bool :=
  m &&& 0o170000 == 0o040000

/-- Source function `zi_isdir(zi)`. -/
def zi_isdir (zi : zus_inode) : Bool :=
  S_ISDIR (le16_to_cpu zi.i_mode).toNat

/-- Source function `zus_std_add_dentry(dir_zi, zi)` on the inode records at the addresses `dir_zi`
and `zi`.  The sum for `zi` goes through `le64_to_cpu` and `cpu_to_le64`; the store
to `i_nlink`, a `__le16`, keeps 16 bits. -/
def zus_std_add_dentry (m : inode_mem) (dir_zi zi : Nat) : inode_mem :=
  let m : inode_mem := fun p =>
    if p = zi then
      { m zi with
        i_nlink := (u16 (cpu_to_le64 (le64_to_cpu (m zi).i_nlink + 1))).toNat }
    else m p
  if zi_isdir (m zi) then
    fun p => if p = dir_zi then { m dir_zi with i_nlink := le16_add (m dir_zi).i_nlink 1 } else m p
  else m

/-- Source function `zus_std_remove_dentry(dir_zi, zi)` on the inode records at the addresses
`dir_zi` and `zi`. -/
def zus_std_remove_dentry (m : inode_mem) (dir_zi zi : Nat) : inode_mem :=
  let m : inode_mem :=
    if zi_isdir (m zi) then
      fun p =>
        if p = dir_zi then { m dir_zi with i_nlink := le16_add (m dir_zi).i_nlink (-1) } else m p
    else m
  fun p => if p = zi then { m zi with i_nlink := le16_add (m zi).i_nlink (-1) } else m p

/-- Inode records for the link-count scenario: the root directory at address 10, a
directory at address 20, a regular file with link count 0 at every other address. -/
def dentry_mem_example : inode_mem := fun p =>
  if p = 10 then { i_mode := 16877, i_nlink := 2, i_ino := 1, i_dir_parent := 1 }
  else if p = 20 then { i_mode := 16877, i_nlink := 0, i_ino := 2, i_dir_parent := 0 }
  else { i_mode := 33188, i_nlink := 0, i_ino := 3, i_dir_parent := 0 }

/-- The constant `NSEC_PER_SEC`, `1000000000UL`. -/
def NSEC_PER_SEC : Nat := 1000000000

/-- The value of an integer converted to `__s64`. -/
def s64 (x : Int) : Int := (x + 2 ^ 63) % 2 ^ 64 - 2 ^ 63

/-- The value of an integer converted to `__s32`. -/
def s32 (x : Int) : Int := (x + 2 ^ 31) % 2 ^ 32 - 2 ^ 31

/-- The value of an integer converted to `__u32`. -/
def u32 (x : Int) : Int := x % 2 ^ 32

/-- The `struct timespec` of a 64-bit host: `tv_sec` and `tv_nsec` are of type `long`,
signed 64-bit values. -/
structure timespec where
  tv_sec : Int
  tv_nsec : Int
  deriving DecidableEq, Repr

/-- Source function `_z_div_s64_rem(X, y, rem)`: the quotient returned and the value stored to
`*rem`.  Division and remainder are those of C, which truncate towards zero; the
arguments are converted to the parameter types, the remainder to `__u32`. -/
def _z_div_s64_rem (X y : Int) : Int × Int :=
  let X := s64 X
  let y := s32 y
  (s64 (X.tdiv y), u32 (X.tmod y))

/-- Source function `timespec_to_zt(mt, t)`: the value stored to `*mt`.  The product and the sum
are made in `unsigned long`, 64 bits. -/
def timespec_to_zt (t : timespec) : Nat :=
  (cpu_to_le64 (ulong (ulong (ulong t.tv_sec * NSEC_PER_SEC) + ulong t.tv_nsec))).toNat

/-- Source function `zt_to_timespec(t, mt)`: the `timespec` stored to `*t`, from the value `mt` of
`*mt`. -/
def zt_to_timespec (mt : Nat) : timespec :=
  let r := _z_div_s64_rem (le64_to_cpu mt) NSEC_PER_SEC
  { tv_sec := s64 r.1, tv_nsec := s64 r.2 }

/-! ## Basic facts -/

@[simp] theorem warn_cur (iomb : zus_iomap_build) (x : Bool) :
    (ZUS_WARN_ON iomb x).cur_iom_e = iomb.cur_iom_e := by
  unfold ZUS_WARN_ON; split <;> rfl

@[simp] theorem warn_end (iomb : zus_iomap_build) (x : Bool) :
    (ZUS_WARN_ON iomb x).end_iom_e = iomb.end_iom_e := by
  unfold ZUS_WARN_ON; split <;> rfl

@[simp] theorem warn_ziom (iomb : zus_iomap_build) (x : Bool) :
    (ZUS_WARN_ON iomb x).ziom = iomb.ziom := by
  unfold ZUS_WARN_ON; split <;> rfl

@[simp] theorem warn_stores (iomb : zus_iomap_build) (x : Bool) :
    (ZUS_WARN_ON iomb x).stores = iomb.stores := by
  unfold ZUS_WARN_ON; split <;> rfl

@[simp] theorem store_cur (iomb : zus_iomap_build) (p v : Nat) :
    (iom_store iomb p v).cur_iom_e = iomb.cur_iom_e := rfl

@[simp] theorem store_end (iomb : zus_iomap_build) (p v : Nat) :
    (iom_store iomb p v).end_iom_e = iomb.end_iom_e := rfl

@[simp] theorem store_stores (iomb : zus_iomap_build) (p v : Nat) :
    (iom_store iomb p v).stores = p :: iomb.stores := rfl

@[simp] theorem store_iom_n (iomb : zus_iomap_build) (p v : Nat) :
    (iom_store iomb p v).ziom.iom_n = iomb.ziom.iom_n := rfl

@[simp] theorem store_iom_max (iomb : zus_iomap_build) (p v : Nat) :
    (iom_store iomb p v).ziom.iom_max = iomb.ziom.iom_max := rfl

@[simp] theorem store_mem (iomb : zus_iomap_build) (p v a : Nat) :
    (iom_store iomb p v).ziom.iom_e a = if a = p then u64 v else iomb.ziom.iom_e a := rfl

@[simp] theorem type_val_cur (api : zus_api) (iomb : zus_iomap_build) (p t v : Nat) :
    (_zus_iom_enc_type_val api iomb p t v).cur_iom_e = iomb.cur_iom_e := by
  simp [_zus_iom_enc_type_val]

@[simp] theorem type_val_end (api : zus_api) (iomb : zus_iomap_build) (p t v : Nat) :
    (_zus_iom_enc_type_val api iomb p t v).end_iom_e = iomb.end_iom_e := by
  simp [_zus_iom_enc_type_val]

@[simp] theorem type_val_stores (api : zus_api) (iomb : zus_iomap_build) (p t v : Nat) :
    (_zus_iom_enc_type_val api iomb p t v).stores = p :: iomb.stores := by
  simp [_zus_iom_enc_type_val]

@[simp] theorem type_val_iom_n (api : zus_api) (iomb : zus_iomap_build) (p t v : Nat) :
    (_zus_iom_enc_type_val api iomb p t v).ziom.iom_n = iomb.ziom.iom_n := by
  simp [_zus_iom_enc_type_val]

@[simp] theorem type_val_iom_max (api : zus_api) (iomb : zus_iomap_build) (p t v : Nat) :
    (_zus_iom_enc_type_val api iomb p t v).ziom.iom_max = iomb.ziom.iom_max := by
  simp [_zus_iom_enc_type_val]

@[simp] theorem type_val_mem (api : zus_api) (iomb : zus_iomap_build) (p t v a : Nat) :
    (_zus_iom_enc_type_val api iomb p t v).ziom.iom_e a =
      if a = p then u64 (_zufs_iom_enc_type_val api t v) else iomb.ziom.iom_e a := by
  simp [_zus_iom_enc_type_val]

theorem exec_fail (api : zus_api) (iomb : zus_iomap_build) (c : iom_call)
    (h : iomb.end_iom_e < iomb.cur_iom_e + c.size api) :
    c.exec api iomb = (-ENOSPC, iomb) := by
  cases c <;>
    simp only [iom_call.exec, iom_call.size, _zus_iom_enc_wbinv, _zus_iom_enc_discard,
      _zus_iom_enc_unmap, _zus_iom_enc_t2_io, _zus_iom_enc_t2_zusmem_io] at h ⊢ <;>
    rw [if_pos h]

theorem exec_ok_fst (api : zus_api) (iomb : zus_iomap_build) (c : iom_call)
    (h : ¬ iomb.end_iom_e < iomb.cur_iom_e + c.size api) :
    (c.exec api iomb).1 = 0 := by
  cases c <;>
    simp only [iom_call.exec, iom_call.size, _zus_iom_enc_wbinv, _zus_iom_enc_discard,
      _zus_iom_enc_unmap, _zus_iom_enc_t2_io, _zus_iom_enc_t2_zusmem_io] at h ⊢ <;>
    rw [if_neg h]

theorem exec_ok_cur (api : zus_api) (iomb : zus_iomap_build) (c : iom_call)
    (h : ¬ iomb.end_iom_e < iomb.cur_iom_e + c.size api) :
    (c.exec api iomb).2.cur_iom_e = iomb.cur_iom_e + c.size api := by
  cases c <;>
    simp only [iom_call.exec, iom_call.size, _zus_iom_enc_wbinv, _zus_iom_enc_discard,
      _zus_iom_enc_unmap, _zus_iom_enc_t2_io, _zus_iom_enc_t2_zusmem_io] at h ⊢ <;>
    rw [if_neg h] <;> simp

theorem exec_end (api : zus_api) (iomb : zus_iomap_build) (c : iom_call) :
    (c.exec api iomb).2.end_iom_e = iomb.end_iom_e := by
  by_cases h : iomb.end_iom_e < iomb.cur_iom_e + c.size api
  · rw [exec_fail api iomb c h]
  · cases c <;>
      simp only [iom_call.exec, iom_call.size, _zus_iom_enc_wbinv, _zus_iom_enc_discard,
        _zus_iom_enc_unmap, _zus_iom_enc_t2_io, _zus_iom_enc_t2_zusmem_io] at h ⊢ <;>
      rw [if_neg h] <;> simp

theorem ENOSPC_ne_zero : -ENOSPC ≠ 0 := by decide

/-! ## Sequences of calls: cursor, frame and stores -/

theorem exec_cur_accept (api : zus_api) (b : zus_iomap_build) (c : iom_call) :
    (c.exec api b).2.cur_iom_e =
      b.cur_iom_e + (if (c.exec api b).1 = 0 then c.size api else 0) := by
  by_cases h : b.end_iom_e < b.cur_iom_e + c.size api
  · rw [exec_fail api b c h]; simp [show ENOSPC ≠ 0 by decide]
  · rw [exec_ok_cur api b c h, exec_ok_fst api b c h]; simp

theorem run_cur (api : zus_api) (cs : List iom_call) : ∀ b : zus_iomap_build,
    (iom_run api b cs).2.cur_iom_e =
      b.cur_iom_e + ((iom_accepted api b cs).map fun c => c.size api).sum := by
  induction cs with
  | nil => intro b; simp [iom_run, iom_accepted]
  | cons c cs ih =>
    intro b
    simp only [iom_run, iom_accepted]
    rw [ih, exec_cur_accept]
    split <;> simp [Nat.add_assoc]

theorem run_end (api : zus_api) (cs : List iom_call) : ∀ b : zus_iomap_build,
    (iom_run api b cs).2.end_iom_e = b.end_iom_e := by
  induction cs with
  | nil => intro b; rfl
  | cons c cs ih => intro b; simp only [iom_run]; rw [ih, exec_end]

theorem size_dvd (api : zus_api) (hl : api.layout_ok) (c : iom_call) : 8 ∣ c.size api := by
  obtain ⟨h1, h2, h3, h4, -⟩ := hl
  cases c <;> simp [iom_call.size, *]

theorem size_ge (api : zus_api) (hl : api.layout_ok) (c : iom_call) : 8 ≤ c.size api := by
  obtain ⟨-, -, -, -, h1, h2, h3, -, -, h4, -⟩ := hl
  unfold field_ok at h1 h2 h3 h4
  cases c <;> simp only [iom_call.size] <;> omega

theorem size_multi (api : zus_api) (hl : api.layout_ok) (c : iom_call) (hc : c ≠ .wbinv) :
    16 ≤ c.size api := by
  obtain ⟨-, -, -, -, h1, h2, h3, -, -, h4, -⟩ := hl
  unfold field_ok at h1 h2 h3 h4
  cases c <;> simp only [iom_call.size] <;> first | omega | exact absurd rfl hc

theorem sum_sizes (api : zus_api) (hl : api.layout_ok) (cs : List iom_call) :
    (cs.map fun c => c.size api).sum = 8 * iom_words api cs := by
  induction cs with
  | nil => simp [iom_words]
  | cons c cs ih =>
    have h := size_dvd api hl c
    simp only [List.map_cons, List.sum_cons, iom_words] at ih ⊢
    rw [ih]; omega

theorem end_iom_n (api : zus_api) (b : zus_iomap_build) :
    (_zus_iom_end api b).ziom.iom_n = b.cur_iom_e / 8 := by
  unfold _zus_iom_end _zus_iom_len
  split <;> simp

theorem end_mem_below (api : zus_api) (b : zus_iomap_build) (a : Nat) (h : a < b.cur_iom_e) :
    (_zus_iom_end api b).ziom.iom_e a = b.ziom.iom_e a := by
  unfold _zus_iom_end
  split <;> simp <;> omega

theorem end_stores (api : zus_api) (b : zus_iomap_build) :
    (_zus_iom_end api b).stores =
      if b.cur_iom_e < b.end_iom_e then b.cur_iom_e :: b.stores else b.stores := by
  unfold _zus_iom_end
  split <;> simp

theorem start_cur (b : zus_iomap_build) (iomd : Nat) : (_zus_iom_start b iomd).cur_iom_e = 0 := rfl

theorem start_end (b : zus_iomap_build) (iomd : Nat) :
    (_zus_iom_start b iomd).end_iom_e = b.end_iom_e := rfl

theorem start_stores (b : zus_iomap_build) (iomd : Nat) :
    (_zus_iom_start b iomd).stores = 0 :: b.stores := rfl

theorem exec_mem_below (api : zus_api) (b : zus_iomap_build) (c : iom_call) (a : Nat)
    (h : a < b.cur_iom_e) : (c.exec api b).2.ziom.iom_e a = b.ziom.iom_e a := by
  by_cases hf : b.end_iom_e < b.cur_iom_e + c.size api
  · rw [exec_fail api b c hf]
  · cases c <;>
      simp only [iom_call.exec, iom_call.size, _zus_iom_enc_wbinv, _zus_iom_enc_discard,
        _zus_iom_enc_unmap, _zus_iom_enc_t2_io, _zus_iom_enc_t2_zusmem_io] at hf ⊢ <;>
      rw [if_neg hf] <;> simp <;> (try split_ifs) <;> first | rfl | omega

theorem exec_stores (api : zus_api) (hl : api.layout_ok) (b : zus_iomap_build) (c : iom_call)
    (s : Nat) (hs : s ∈ (c.exec api b).2.stores) :
    s ∈ b.stores ∨ (b.cur_iom_e ≤ s ∧ s + 8 ≤ b.end_iom_e) := by
  by_cases hf : b.end_iom_e < b.cur_iom_e + c.size api
  · rw [exec_fail api b c hf] at hs; exact Or.inl hs
  · obtain ⟨-, -, -, -, h1, h2, h3, h4, -, h5, h6, -⟩ := hl
    unfold field_ok at h1 h2 h3 h4 h5 h6
    cases c <;>
      simp only [iom_call.exec, iom_call.size, _zus_iom_enc_wbinv, _zus_iom_enc_discard,
        _zus_iom_enc_unmap, _zus_iom_enc_t2_io, _zus_iom_enc_t2_zusmem_io] at hf hs <;>
      rw [if_neg hf] at hs <;> simp at hs <;>
      first
      | (rcases hs with h | h <;> first | exact Or.inl h | (right; omega))
      | (rcases hs with h | h | h <;> first | exact Or.inl h | (right; omega))
      | (rcases hs with h | h | h | h <;> first | exact Or.inl h | (right; omega))

theorem run_stores (api : zus_api) (hl : api.layout_ok) (cs : List iom_call) :
    ∀ (b : zus_iomap_build) (s : Nat), s ∈ (iom_run api b cs).2.stores →
      s ∈ b.stores ∨ s + 8 ≤ b.end_iom_e := by
  induction cs with
  | nil => intro b s hs; exact Or.inl hs
  | cons c cs ih =>
    intro b s hs
    simp only [iom_run] at hs
    rcases ih _ s hs with h | h
    · rcases exec_stores api hl b c s h with h | h
      · exact Or.inl h
      · exact Or.inr h.2
    · rw [exec_end] at h; exact Or.inr h

theorem run_mem_below (api : zus_api) (cs : List iom_call) :
    ∀ (b : zus_iomap_build) (a : Nat), a < b.cur_iom_e →
      (iom_run api b cs).2.ziom.iom_e a = b.ziom.iom_e a := by
  induction cs with
  | nil => intro b a _; rfl
  | cons c cs ih =>
    intro b a h
    simp only [iom_run]
    rw [ih, exec_mem_below api b c a h]
    rw [exec_cur_accept]; omega

/-! ## The tagged word and the decoding of one record -/

theorem mask_eq (api : zus_api) (hb : api.ZUFS_IOM_VAL_BITS < 64) :
    ZUFS_IOM_FIRST_VAL_MASK api = 2 ^ api.ZUFS_IOM_VAL_BITS - 1 := by
  unfold ZUFS_IOM_FIRST_VAL_MASK u64
  rw [Nat.one_shiftLeft, Nat.mod_eq_of_lt (Nat.pow_lt_pow_right (by decide) hb)]

theorem testBit_high_false {x i j : Nat} (hx : x < 2 ^ i) (hij : i ≤ j) : x.testBit j = false :=
  Nat.testBit_eq_false_of_lt (Nat.lt_of_lt_of_le hx (Nat.pow_le_pow_right (by decide) hij))

theorem out_of_mask_iff (api : zus_api) (hb : api.ZUFS_IOM_VAL_BITS < 64) (val : Nat) :
    iom_val_out_of_mask api val = true ↔ ZUFS_IOM_FIRST_VAL_MASK api < u64 val := by
  have hlt : u64 val < 2 ^ 64 := Nat.mod_lt _ (by decide)
  have hm := mask_eq api hb
  have hpos : 0 < 2 ^ api.ZUFS_IOM_VAL_BITS := Nat.two_pow_pos _
  have hp : 2 ^ api.ZUFS_IOM_VAL_BITS < 2 ^ 64 := Nat.pow_lt_pow_right (by decide) hb
  have hc : 2 ^ 64 - 1 - ZUFS_IOM_FIRST_VAL_MASK api =
      2 ^ 64 - ((2 ^ api.ZUFS_IOM_VAL_BITS - 1) + 1) := by rw [hm]; omega
  have hbit : ∀ i, (u64 val &&& (2 ^ 64 - 1 - ZUFS_IOM_FIRST_VAL_MASK api)).testBit i =
      ((u64 val).testBit i && decide (api.ZUFS_IOM_VAL_BITS ≤ i)) := by
    intro i
    rw [hc, Nat.testBit_and, Nat.testBit_two_pow_sub_succ (by omega),
      Nat.testBit_two_pow_sub_one]
    by_cases h64 : i < 64
    · by_cases hi : i < api.ZUFS_IOM_VAL_BITS <;> simp [h64, hi]
      omega
    · rw [testBit_high_false hlt (by omega)]; simp
  unfold iom_val_out_of_mask
  constructor
  · intro h
    by_contra hle
    have hv : u64 val < 2 ^ api.ZUFS_IOM_VAL_BITS := by omega
    have hz : u64 val &&& (2 ^ 64 - 1 - ZUFS_IOM_FIRST_VAL_MASK api) = 0 := by
      apply Nat.zero_of_testBit_eq_false
      intro i
      rw [hbit]
      by_cases hi : api.ZUFS_IOM_VAL_BITS ≤ i
      · rw [testBit_high_false hv hi]; rfl
      · simp [hi]
    rw [hz] at h; simp at h
  · intro h
    have hge : u64 val ≥ 2 ^ api.ZUFS_IOM_VAL_BITS := by omega
    obtain ⟨i, hi, ht⟩ := Nat.ge_two_pow_implies_high_bit_true hge
    have : (u64 val &&& (2 ^ 64 - 1 - ZUFS_IOM_FIRST_VAL_MASK api)).testBit i = true := by
      rw [hbit, ht]; simp [hi]
    simp only [bne_iff_ne, ne_eq]
    intro h0
    rw [h0] at this
    simp at this

theorem first_val_enc (api : zus_api) (hb : api.ZUFS_IOM_VAL_BITS < 64) (type val : Nat) :
    _zufs_iom_first_val api (_zufs_iom_enc_type_val api type val) =
      val % 2 ^ api.ZUFS_IOM_VAL_BITS := by
  unfold _zufs_iom_first_val _zufs_iom_enc_type_val u64
  rw [mask_eq api hb, Nat.and_pow_two_sub_one_eq_mod]
  apply Nat.eq_of_testBit_eq
  intro i
  simp only [Nat.testBit_mod_two_pow, Nat.testBit_or, Nat.testBit_shiftLeft]
  by_cases hi : i < api.ZUFS_IOM_VAL_BITS
  · have h1 : i < 64 := by omega
    have h2 : ¬ i ≥ api.ZUFS_IOM_VAL_BITS := by omega
    simp [hi, h1, h2]
  · simp [hi]

theorem opt_type_enc (api : zus_api) (hb : api.ZUFS_IOM_VAL_BITS < 64) (type val : Nat)
    (ht : type < 2 ^ (64 - api.ZUFS_IOM_VAL_BITS))
    (hv : val ≤ ZUFS_IOM_FIRST_VAL_MASK api) :
    _zufs_iom_opt_type api (_zufs_iom_enc_type_val api type val) = type := by
  have hpos : 0 < 2 ^ api.ZUFS_IOM_VAL_BITS := Nat.two_pow_pos _
  have hv' : val < 2 ^ api.ZUFS_IOM_VAL_BITS := by rw [mask_eq api hb] at hv; omega
  unfold _zufs_iom_opt_type _zufs_iom_enc_type_val u64
  apply Nat.eq_of_testBit_eq
  intro j
  simp only [Nat.testBit_shiftRight, Nat.testBit_mod_two_pow, Nat.testBit_or,
    Nat.testBit_shiftLeft, Nat.add_sub_cancel_left]
  rw [testBit_high_false hv' (Nat.le_add_right _ j)]
  by_cases hj : api.ZUFS_IOM_VAL_BITS + j < 64
  · have : j < 64 := by omega
    simp [hj, this]
  · have hf : type.testBit j = false := testBit_high_false ht (by omega)
    simp [hj, hf]

theorem first_val_enc_of_le (api : zus_api) (hb : api.ZUFS_IOM_VAL_BITS < 64) (type val : Nat)
    (hv : val ≤ ZUFS_IOM_FIRST_VAL_MASK api) :
    _zufs_iom_first_val api (_zufs_iom_enc_type_val api type val) = val := by
  rw [first_val_enc api hb]
  have hpos : 0 < 2 ^ api.ZUFS_IOM_VAL_BITS := Nat.two_pow_pos _
  rw [mask_eq api hb] at hv
  exact Nat.mod_eq_of_lt (by omega)

theorem u64_u64 (x : Nat) : u64 (u64 x) = u64 x := Nat.mod_mod _ _

theorem u64_of_lt {x : Nat} (h : x < 2 ^ 64) : u64 x = x := Nat.mod_eq_of_lt h

theorem u64_enc (api : zus_api) (t v : Nat) :
    u64 (_zufs_iom_enc_type_val api t v) = _zufs_iom_enc_type_val api t v := u64_u64 _

theorem rec_at_exec (api : zus_api) (hl : api.layout_ok) (b : zus_iomap_build) (c : iom_call)
    (hw : c.wf api) (hf : ¬ b.end_iom_e < b.cur_iom_e + c.size api) :
    rec_at api (c.exec api b).2.ziom.iom_e b.cur_iom_e c := by
  obtain ⟨-, -, -, -, h1, h2, h3, h4, h34, h5, h6, h56⟩ := hl
  unfold field_ok at h1 h2 h3 h4 h5 h6
  have n1 : api.off_t1_val ≠ 0 := by omega
  have n2 : api.off_num_pages ≠ 0 := by omega
  have n3 : api.off_unmap_n ≠ 0 := by omega
  have n4 : api.off_ino ≠ 0 := by omega
  have n5 : api.off_zus_mem_ptr ≠ 0 := by omega
  have n6 : api.off_len ≠ 0 := by omega
  cases c <;>
    simp only [iom_call.exec, iom_call.size, _zus_iom_enc_wbinv, _zus_iom_enc_discard,
      _zus_iom_enc_unmap, _zus_iom_enc_t2_io, _zus_iom_enc_t2_zusmem_io] at hf ⊢ <;>
    rw [if_neg hf] <;> simp only [iom_call.wf] at hw <;>
    simp [rec_at, u64_enc, n1, n2, n3, n4, n5, n6, h34, h56, h34.symm, h56.symm]
  · exact u64_of_lt hw.2
  · exact ⟨u64_of_lt hw.2.1, u64_of_lt hw.2.2⟩
  · exact u64_of_lt hw.2.1
  · exact ⟨u64_of_lt hw.2.1, u64_of_lt hw.2.2.1⟩

theorem rec_at_congr (api : zus_api) (hl : api.layout_ok) (m1 m2 : Nat → Nat) (p : Nat)
    (c : iom_call) (h : ∀ a, p ≤ a → a < p + c.size api → m2 a = m1 a)
    (hr : rec_at api m1 p c) : rec_at api m2 p c := by
  obtain ⟨-, -, -, -, h1, h2, h3, h4, -, h5, h6, -⟩ := hl
  unfold field_ok at h1 h2 h3 h4 h5 h6
  cases c <;> simp only [rec_at, iom_call.size] at h hr ⊢
  · rw [h p (by omega) (by omega)]; exact hr
  · rw [h p (by omega) (by omega), h _ (by omega) (by omega)]; exact hr
  · rw [h p (by omega) (by omega), h (p + api.off_unmap_n) (by omega) (by omega),
      h (p + api.off_ino) (by omega) (by omega)]; exact hr
  · rw [h p (by omega) (by omega), h _ (by omega) (by omega)]; exact hr
  · rw [h p (by omega) (by omega), h (p + api.off_zus_mem_ptr) (by omega) (by omega),
      h (p + api.off_len) (by omega) (by omega)]; exact hr

theorem decode_one_rec (api : zus_api) (ht : api.tags_ok) (mem : Nat → Nat) (p : Nat)
    (c : iom_call) (hw : c.wf api) (hr : rec_at api mem p c) :
    iom_decode_one api mem p = some (c, c.size api) := by
  obtain ⟨hb, hnd, hbd⟩ := ht
  simp only [zus_api.tags, List.nodup_cons, List.mem_cons, List.mem_singleton, not_or,
    List.not_mem_nil, List.nodup_nil, not_false_eq_true, and_true] at hnd
  simp only [zus_api.tags, List.mem_cons, List.mem_singleton, List.not_mem_nil, or_false,
    forall_eq_or_imp, forall_eq] at hbd
  obtain ⟨b1, b2, b3, b4, b5, b6, b7⟩ := hbd
  obtain ⟨⟨-, a13, a14, a15, a16, a17⟩, ⟨a23, a24, a25, a26, a27⟩, ⟨-, a35, a36, a37⟩,
    ⟨a45, a46, a47⟩, ⟨a56, a57⟩, a67⟩ := hnd
  have hz : (0 : Nat) ≤ ZUFS_IOM_FIRST_VAL_MASK api := Nat.zero_le _
  cases c <;> simp only [rec_at, iom_call.wf, iom_call.size] at hr hw ⊢ <;>
    unfold iom_decode_one
  · rw [hr, opt_type_enc api hb _ _ b6.2 hz]; simp
  · rw [hr.1, opt_type_enc api hb _ _ b7.2 hw.1, first_val_enc_of_le api hb _ _ hw.1, hr.2]
    simp only []
    rw [if_neg (Ne.symm a67)]
    simp
  · rw [hr.1, opt_type_enc api hb _ _ b5.2 hw.1, first_val_enc_of_le api hb _ _ hw.1, hr.2.1,
      hr.2.2]
    simp only []
    rw [if_neg a56, if_neg a57]
    simp
  · rcases hw.2.2 with h | h <;> subst h
    · rw [hr.1, opt_type_enc api hb _ _ b1.2 hw.1, first_val_enc_of_le api hb _ _ hw.1, hr.2]
      simp only []
      rw [if_neg a16, if_neg a17, if_neg a15]
      simp
    · rw [hr.1, opt_type_enc api hb _ _ b2.2 hw.1, first_val_enc_of_le api hb _ _ hw.1, hr.2]
      simp only []
      rw [if_neg a26, if_neg a27, if_neg a25]
      simp
  · rcases hw.2.2.2 with h | h <;> subst h
    · rw [hr.1, opt_type_enc api hb _ _ b3.2 hw.1, first_val_enc_of_le api hb _ _ hw.1,
        hr.2.1, hr.2.2]
      simp only []
      rw [if_neg a36, if_neg a37, if_neg a35,
        if_neg (fun h => h.elim (fun e => a13 e.symm) (fun e => a23 e.symm))]
      simp
    · rw [hr.1, opt_type_enc api hb _ _ b4.2 hw.1, first_val_enc_of_le api hb _ _ hw.1,
        hr.2.1, hr.2.2]
      simp only []
      rw [if_neg a46, if_neg a47, if_neg a45,
        if_neg (fun h => h.elim (fun e => a14 e.symm) (fun e => a24 e.symm))]
      simp

theorem accepted_of_all_ok (api : zus_api) (cs : List iom_call) : ∀ b : zus_iomap_build,
    (∀ r ∈ (iom_run api b cs).1, r = 0) → iom_accepted api b cs = cs := by
  induction cs with
  | nil => intro b _; rfl
  | cons c cs ih =>
    intro b h
    simp only [iom_run, List.mem_cons, forall_eq_or_imp] at h
    simp only [iom_accepted, h.1, if_true]
    rw [ih _ h.2]

theorem length_le_words (api : zus_api) (hl : api.layout_ok) (cs : List iom_call) :
    cs.length ≤ iom_words api cs := by
  induction cs with
  | nil => simp
  | cons c cs ih =>
    have h1 := size_ge api hl c
    simp only [iom_words, List.map_cons, List.sum_cons, List.length_cons] at ih ⊢
    omega

theorem decode_run (api : zus_api) (hl : api.layout_ok) (ht : api.tags_ok)
    (cs : List iom_call) : ∀ (b : zus_iomap_build) (fuel : Nat) (mem : Nat → Nat),
    (∀ c ∈ cs, c.wf api) → (∀ r ∈ (iom_run api b cs).1, r = 0) → cs.length ≤ fuel →
    (∀ a, b.cur_iom_e ≤ a → a < (iom_run api b cs).2.cur_iom_e →
      mem a = (iom_run api b cs).2.ziom.iom_e a) →
    iom_decode_from api mem (iom_run api b cs).2.cur_iom_e fuel b.cur_iom_e = cs := by
  induction cs with
  | nil =>
    intro b fuel mem _ _ _ _
    cases fuel <;> simp [iom_decode_from, iom_run]
  | cons c cs ih =>
    intro b fuel mem hw hok hfuel hmem
    obtain ⟨f, rfl⟩ : ∃ f, fuel = f + 1 := ⟨fuel - 1, by simp at hfuel; omega⟩
    simp only [iom_run, List.mem_cons, forall_eq_or_imp] at hok hmem ⊢
    have hnf : ¬ b.end_iom_e < b.cur_iom_e + c.size api := by
      intro hf
      have := hok.1
      rw [exec_fail api b c hf] at this
      exact ENOSPC_ne_zero this
    have hcur := exec_ok_cur api b c hnf
    have hrc := run_cur api cs (c.exec api b).2
    have hsz := size_ge api hl c
    have hrec : rec_at api mem b.cur_iom_e c := by
      apply rec_at_congr api hl (c.exec api b).2.ziom.iom_e mem
      · intro a h1 h2
        rw [hmem a h1 (by omega)]
        exact run_mem_below api cs _ a (by omega)
      · exact rec_at_exec api hl b c (hw c (List.mem_cons_self _ _)) hnf
    have hdec := decode_one_rec api ht mem b.cur_iom_e c (hw c (List.mem_cons_self _ _)) hrec
    simp only [iom_decode_from]
    rw [if_pos (by omega), hdec]
    simp only []
    rw [← hcur, ih (c.exec api b).2 f mem (fun c' hc' => hw c' (List.mem_cons_of_mem _ hc'))
      hok.2 (by simp at hfuel; omega) (fun a h1 h2 => hmem a (by omega) h2)]

/-! ## The calls of `_pmem_grab` and of the teardown -/

theorem mmap_zfi (w : zus_world) (st : zus_exec) : (_pmem_mmap w st).2.sbi.zfi = st.sbi.zfi := by
  unfold _pmem_mmap; split <;> rfl

theorem mmap_calls (w : zus_world) (st : zus_exec) :
    ∃ g, (∀ c ∈ g, c ∈ pmem_grab_calls) ∧ (_pmem_mmap w st).2.calls = st.calls ++ g := by
  unfold _pmem_mmap
  split
  · exact ⟨[.mmap], by decide, rfl⟩
  · exact ⟨[.mmap, .madvise], by decide, by simp⟩

theorem grab_spec (w : zus_world) (st st1 : zus_exec) (p id : Nat) (e : Int)
    (h : _pmem_grab w st p id = some (e, st1)) :
    st1.sbi.zfi = st.sbi.zfi ∧
    ∃ g, (∀ c ∈ g, c ∈ pmem_grab_calls) ∧ st1.calls = st.calls ++ g := by
  unfold _pmem_grab at h
  simp only [] at h
  split at h
  · simp only [Option.some.injEq, Prod.mk.injEq] at h
    obtain ⟨-, rfl⟩ := h
    exact ⟨rfl, [.zuf_root_open_tmp], by decide, rfl⟩
  · split at h
    · simp only [Option.some.injEq, Prod.mk.injEq] at h
      obtain ⟨-, rfl⟩ := h
      exact ⟨rfl, [.zuf_root_open_tmp, .zuf_grab_pmem], by decide, by simp⟩
    · generalize hm : _pmem_mmap w _ = m at h
      have hz : m.2.sbi.zfi = st.sbi.zfi := by rw [← hm]; exact mmap_zfi w _
      obtain ⟨g, hg, hc⟩ : ∃ g, (∀ c ∈ g, c ∈ pmem_grab_calls) ∧
          m.2.calls = st.calls ++ [.zuf_root_open_tmp, .zuf_grab_pmem] ++ g := by
        obtain ⟨g, hg, hc⟩ := mmap_calls w
          { sbi := { st.sbi with
              md := { st.sbi.md with sbi := p, fd := w.zuf_root_open_tmp.2 } },
            calls := st.calls ++ [.zuf_root_open_tmp] ++ [.zuf_grab_pmem] }
        refine ⟨g, hg, ?_⟩
        rw [← hm]
        simpa using hc
      have hpre : ∀ (l : List zus_call), (∀ c ∈ l, c ∈ pmem_grab_calls) →
          ∀ c ∈ [zus_call.zuf_root_open_tmp, zus_call.zuf_grab_pmem] ++ g ++ l,
            c ∈ pmem_grab_calls := by
        intro l hl c hc'
        simp only [List.mem_append] at hc'
        rcases hc' with (h1 | h1) | h1
        · revert h1 c; decide
        · exact hg c h1
        · exact hl c h1
      split at h
      · simp only [Option.some.injEq] at h
        subst h
        exact ⟨hz, _, hpre [] (by simp), by rw [hc]; simp⟩
      · split at h
        · simp only [Option.some.injEq, Prod.mk.injEq] at h
          obtain ⟨-, rfl⟩ := h
          exact ⟨hz, _, hpre [.md_init_from_pmem_info] (by decide), by simp [hc]⟩
        · split at h
          · exact absurd h (by simp)
          · split at h
            · simp only [Option.some.injEq, Prod.mk.injEq] at h
              obtain ⟨-, rfl⟩ := h
              exact ⟨hz, _, hpre [.md_init_from_pmem_info] (by decide), by simp [hc]⟩
            · simp only [Option.some.injEq, Prod.mk.injEq] at h
              obtain ⟨-, rfl⟩ := h
              exact ⟨hz, _, hpre [.md_init_from_pmem_info, .fba_alloc_align] (by decide),
                by simp [hc]⟩

theorem ungrab_spec (w : zus_world) (st : zus_exec) :
    (_pmem_ungrab w st).sbi.zfi = st.sbi.zfi ∧
    (_pmem_ungrab w st).calls =
      st.calls ++ [.fba_free, .md_fini, .munmap, .zuf_root_close] := by
  unfold _pmem_ungrab _pmem_unmap
  constructor
  · split <;> rfl
  · split <;> simp

theorem sbi_fini_spec (w : zus_world) (st : zus_exec) (zfi : zus_fs_info)
    (hz : w.zfi_at st.sbi.zfi = some zfi)
    (hf : ∀ fini, zfi.op.sbi_fini = some fini → ∀ s, (fini s).2.zfi = s.zfi) :
    ∃ st1, _zus_sbi_fini w st = some st1 ∧
      st1.calls = st.calls ++ teardown_calls zfi.op.sbi_fini.isSome := by
  unfold _zus_sbi_fini
  rw [hz]
  simp only []
  cases hh : zfi.op.sbi_fini with
  | none =>
    simp only []
    have hu := ungrab_spec w st
    rw [hu.1, hz]
    exact ⟨_, rfl, by simp [hu.2, teardown_calls]⟩
  | some fini =>
    simp only []
    have hu := ungrab_spec w { sbi := (fini st.sbi).2, calls := st.calls ++ [.sbi_fini] }
    rw [hu.1]
    simp only []
    rw [hf fini hh, hz]
    exact ⟨_, rfl, by simp [hu.2, teardown_calls]⟩

theorem mount_err_spec (w : zus_world) (zim : zufs_ioc_mount) (sbi : Nat) (st : zus_exec)
    (err : Int) (zfi : zus_fs_info) (hs : sbi ≠ 0)
    (hz : w.zfi_at st.sbi.zfi = some zfi)
    (hf : ∀ fini, zfi.op.sbi_fini = some fini → ∀ s, (fini s).2.zfi = s.zfi) :
    ∃ st1, zus_mount_err w zim sbi st err = some (err, { zim with hdr_err := err }, st1) ∧
      st1.calls = st.calls ++ [.zus_sbi_set_flag ZUS_SBIF_ERROR] ++
        teardown_calls zfi.op.sbi_fini.isSome := by
  unfold zus_mount_err
  rw [if_neg hs]
  obtain ⟨st1, h1, h2⟩ := sbi_fini_spec w (zus_sbi_set_flag st ZUS_SBIF_ERROR) zfi hz hf
  rw [h1]
  exact ⟨st1, rfl, h2⟩

theorem flag_set_bit (sbi : zus_sb_info) :
    (zus_sbi_flag_set sbi ZUS_SBIF_ERROR).flags.testBit ZUS_SBIF_ERROR = true := by
  show (u64 (sbi.flags ||| 1 <<< 0)).testBit 0 = true
  unfold u64
  rw [Nat.testBit_mod_two_pow, Nat.testBit_or]
  have : (1 <<< 0).testBit 0 = true := by decide
  rw [this]
  simp

/-! ## Mount success, names and the evaluation of the dispatcher -/

theorem mmap_kern (w : zus_world) (st : zus_exec) :
    (_pmem_mmap w st).2.sbi.kern_sb_id = st.sbi.kern_sb_id := by
  unfold _pmem_mmap; split <;> rfl

theorem grab_kern_sb_id (w : zus_world) (st st1 : zus_exec) (p id : Nat) (e : Int)
    (h : _pmem_grab w st p id = some (e, st1)) :
    st1.sbi.kern_sb_id = st.sbi.kern_sb_id := by
  unfold _pmem_grab at h
  simp only [] at h
  split at h
  · simp only [Option.some.injEq, Prod.mk.injEq] at h
    obtain ⟨-, rfl⟩ := h
    rfl
  · split at h
    · simp only [Option.some.injEq, Prod.mk.injEq] at h
      obtain ⟨-, rfl⟩ := h
      rfl
    · generalize hm : _pmem_mmap w _ = m at h
      have hz : m.2.sbi.kern_sb_id = st.sbi.kern_sb_id := by rw [← hm]; exact mmap_kern w _
      split at h
      · simp only [Option.some.injEq] at h
        subst h
        exact hz
      · split at h
        · simp only [Option.some.injEq, Prod.mk.injEq] at h
          obtain ⟨-, rfl⟩ := h
          exact hz
        · split at h
          · exact absurd h (by simp)
          · split at h <;>
            · simp only [Option.some.injEq, Prod.mk.injEq] at h
              obtain ⟨-, rfl⟩ := h
              exact hz

theorem guard_iff (str : zufs_str) :
    (str.len = 0 ∨ str.name.headD 0 = 0) ↔ str.c_name = [] := by
  unfold zufs_str.c_name
  rcases hn : str.name with _ | ⟨a, rest⟩
  · simp
  · rcases hl : str.len with _ | n
    · simp
    · by_cases ha : a = 0 <;> simp [List.takeWhile, ha]

theorem strncmp_dot (str : zufs_str) (hg : ¬ (str.len = 0 ∨ str.name.headD 0 = 0)) :
    strncmp [46] str.name str.len = 0 ↔ str.c_name = [46] := by
  unfold zufs_str.c_name
  rcases hn : str.name with _ | ⟨a, rest⟩
  · simp [hn] at hg
  · rcases hl : str.len with _ | n
    · simp [hl] at hg
    · have ha : a ≠ 0 := by simpa [hn, hl] using hg
      by_cases h46 : a = 46
      · subst h46
        rcases n with _ | n
        · simp [strncmp, List.takeWhile]
        · rcases rest with _ | ⟨b, rest2⟩
          · simp [strncmp, List.takeWhile]
          · by_cases hb : b = 0
            · simp [strncmp, List.takeWhile, hb]
            · have : (0 : Int) - (b : Int) ≠ 0 := by omega
              simp [strncmp, List.takeWhile, hb, Ne.symm hb, this]
      · have : (46 : Int) - (a : Int) ≠ 0 := by omega
        simp [strncmp, List.takeWhile, ha, h46, Ne.symm h46, this]

theorem strncmp_dotdot (str : zufs_str) (hg : ¬ (str.len = 0 ∨ str.name.headD 0 = 0))
    (hd : strncmp [46] str.name str.len ≠ 0) :
    strncmp [46, 46] str.name str.len = 0 ↔ str.c_name = [46, 46] := by
  have hd2 : str.c_name ≠ [46] := fun h => hd ((strncmp_dot str hg).mpr h)
  unfold zufs_str.c_name at hd2 ⊢
  rcases hn : str.name with _ | ⟨a, rest⟩
  · simp [hn] at hg
  · rcases hl : str.len with _ | n
    · simp [hl] at hg
    · have ha : a ≠ 0 := by simpa [hn, hl] using hg
      rw [hn, hl] at hd2
      by_cases h46 : a = 46
      · subst h46
        rcases n with _ | n
        · simp [List.takeWhile] at hd2
        · rcases rest with _ | ⟨b, rest2⟩
          · simp [List.takeWhile] at hd2
          · by_cases hb : b = 46
            · subst hb
              rcases n with _ | n
              · simp [strncmp, List.takeWhile]
              · rcases rest2 with _ | ⟨c, rest3⟩
                · simp [strncmp, List.takeWhile]
                · by_cases hc : c = 0
                  · simp [strncmp, List.takeWhile, hc]
                  · have : (0 : Int) - (c : Int) ≠ 0 := by omega
                    simp [strncmp, List.takeWhile, hc, Ne.symm hc, this]
            · have : (46 : Int) - (b : Int) ≠ 0 := by omega
              by_cases hb0 : b = 0
              · simp [List.takeWhile, hb0] at hd2
              · simp [strncmp, List.takeWhile, hb, Ne.symm hb, this, hb0]
      · have : (46 : Int) - (a : Int) ≠ 0 := by omega
        simp [strncmp, List.takeWhile, ha, h46, Ne.symm h46, this]

theorem take_c_name (str : zufs_str) (n : List Nat) (h : str.name.take str.len = n)
    (hn : ∀ c ∈ n, c ≠ 0) : str.c_name = n := by
  unfold zufs_str.c_name
  rw [h]
  exact List.takeWhile_eq_self_iff.mpr (by simpa using hn)

theorem new_inode_eval (v : zus_vfs) (st : vfs_state) (app_ptr : Nat)
    (ioc_new req : zufs_ioc_new_inode) (dir_ii zii_mem : zus_inode_info)
    (op zii_op : zus_sbi_operations) (sbi_mem : zus_sb_info) (zii : Nat)
    (hd : st.zii_at ioc_new.dir_ii = some dir_ii)
    (hop : v.op_at dir_ii.sbi = some op)
    (hs : v.sbi_at dir_ii.sbi = some sbi_mem)
    (hn : op.new_inode dir_ii.sbi app_ptr
      { ioc_new with zi := { ioc_new.zi with i_nlink := 0 } } = (zii, req))
    (hz : zii ≠ 0)
    (hh : st.zii_at zii = some zii_mem)
    (hfo : v.op_at zii_mem.sbi = some zii_op)
    (hrd : req.dir_ii = ioc_new.dir_ii) :
    _new_inode v st app_ptr ioc_new =
      if req.flags &&& v.ZI_TMPFILE ≠ 0 then
        some (0, { req with _zi := md_addr_to_offset sbi_mem.md zii_mem.zi, zus_ii := zii },
          { st with calls := st.calls ++ [.new_inode dir_ii.sbi app_ptr
              { ioc_new with zi := { ioc_new.zi with i_nlink := 0 } }] })
      else if op.add_dentry ioc_new.dir_ii zii req.str ≠ 0 then
        some (op.add_dentry ioc_new.dir_ii zii req.str,
          { req with _zi := md_addr_to_offset sbi_mem.md zii_mem.zi, zus_ii := zii },
          { st with calls := st.calls ++ [.new_inode dir_ii.sbi app_ptr
              { ioc_new with zi := { ioc_new.zi with i_nlink := 0 } }] ++
              [.add_dentry ioc_new.dir_ii zii req.str] ++ [.free_inode zii] })
      else
        some (0, { req with _zi := md_addr_to_offset sbi_mem.md zii_mem.zi, zus_ii := zii },
          { st with calls := st.calls ++ [.new_inode dir_ii.sbi app_ptr
              { ioc_new with zi := { ioc_new.zi with i_nlink := 0 } }] ++
              [.add_dentry ioc_new.dir_ii zii req.str] }) := by
  unfold _new_inode
  rw [hd]
  simp only []
  rw [hop]
  simp only []
  rw [hn]
  simp only []
  rw [if_neg hz, hs, hh]
  simp only []
  split
  · rfl
  · rw [hrd, hd]
    simp only [Option.some_bind]
    rw [hop]
    simp only []
    split
    · rw [hfo]
    · rfl

theorem lookup_ino_mem (v : zus_vfs) (st st1 : vfs_state) (l : zufs_ioc_lookup) (ino : Nat)
    (h : lookup_ino v st l = some (ino, st1)) :
    st1.zii_at = st.zii_at ∧ st1.zi_at = st.zi_at := by
  unfold lookup_ino at h
  split at h
  · exact absurd h (by simp)
  · split at h
    · simp only [Option.map_eq_some', Prod.mk.injEq] at h
      obtain ⟨_, _, _, rfl⟩ := h
      exact ⟨rfl, rfl⟩
    · split at h
      · simp only [Option.map_eq_some', Prod.mk.injEq] at h
        obtain ⟨_, _, _, rfl⟩ := h
        exact ⟨rfl, rfl⟩
      · simp only [Option.map_eq_some', Prod.mk.injEq] at h
        obtain ⟨_, _, _, rfl⟩ := h
        exact ⟨rfl, rfl⟩

theorem lookup_eval_zero (v : zus_vfs) (st st1 : vfs_state) (l : zufs_ioc_lookup)
    (hg : ¬ (l.str.len = 0 ∨ l.str.name.headD 0 = 0))
    (hr : lookup_ino v st l = some (0, st1)) :
    _lookup v st l = some (-ENOENT, l, st1) := by
  unfold _lookup
  rw [if_neg hg, hr]
  simp

theorem lookup_eval_fail (v : zus_vfs) (st st1 : vfs_state) (l : zufs_ioc_lookup) (ino : Nat)
    (dir_ii : zus_inode_info) (op : zus_sbi_operations)
    (hg : ¬ (l.str.len = 0 ∨ l.str.name.headD 0 = 0))
    (hr : lookup_ino v st l = some (ino, st1)) (hi : ino ≠ 0)
    (hd : st.zii_at l.dir_ii = some dir_ii) (hop : v.op_at dir_ii.sbi = some op)
    (he : (op.iget dir_ii.sbi ino).1 ≠ 0) :
    _lookup v st l =
      some (-ENOENT, l, { st1 with calls := st1.calls ++ [.iget dir_ii.sbi ino] }) := by
  have hm := lookup_ino_mem v st st1 l ino hr
  have hd1 : st1.zii_at l.dir_ii = some dir_ii := by rw [hm.1]; exact hd
  unfold _lookup
  rw [if_neg hg, hr]
  simp only []
  rw [if_neg hi, hd1]
  simp only [Option.some_bind]
  unfold zus_iget
  rw [hop]
  simp only []
  rw [if_pos he]
  simp

theorem lookup_eval_ok (v : zus_vfs) (st st1 : vfs_state) (l : zufs_ioc_lookup) (ino zii : Nat)
    (dir_ii zii_mem : zus_inode_info) (op : zus_sbi_operations) (sbi_mem : zus_sb_info)
    (hg : ¬ (l.str.len = 0 ∨ l.str.name.headD 0 = 0))
    (hr : lookup_ino v st l = some (ino, st1)) (hi : ino ≠ 0)
    (hd : st.zii_at l.dir_ii = some dir_ii) (hop : v.op_at dir_ii.sbi = some op)
    (he : op.iget dir_ii.sbi ino = (0, zii)) (hz : zii ≠ 0)
    (hh : st.zii_at zii = some zii_mem) (hs : v.sbi_at dir_ii.sbi = some sbi_mem) :
    _lookup v st l =
      some (0, { l with _zi := md_addr_to_offset sbi_mem.md zii_mem.zi, zus_ii := zii },
        { st1 with
          calls := st1.calls ++ [.iget dir_ii.sbi ino]
          zii_at := fun p =>
            if p = zii then some { zii_mem with sbi := dir_ii.sbi } else st.zii_at p }) := by
  have hm := lookup_ino_mem v st st1 l ino hr
  have hd1 : st1.zii_at l.dir_ii = some dir_ii := by rw [hm.1]; exact hd
  have hh1 : st1.zii_at zii = some zii_mem := by rw [hm.1]; exact hh
  unfold _lookup
  rw [if_neg hg, hr]
  simp only []
  rw [if_neg hi, hd1]
  simp only [Option.some_bind]
  unfold zus_iget
  rw [hop]
  simp only []
  rw [he]
  simp only []
  rw [if_neg (by simp), hh1]
  simp only []
  rw [if_neg hz]
  simp [hs, hm.1]

theorem lookup_calls (v : zus_vfs) (st st1 : vfs_state) (l : zufs_ioc_lookup) (ino : Nat)
    (dir_ii : zus_inode_info) (op : zus_sbi_operations)
    (hg : ¬ (l.str.len = 0 ∨ l.str.name.headD 0 = 0))
    (hr : lookup_ino v st l = some (ino, st1))
    (hd : st.zii_at l.dir_ii = some dir_ii) (hop : v.op_at dir_ii.sbi = some op)
    (hv : (op.iget dir_ii.sbi ino).1 = 0 →
      (op.iget dir_ii.sbi ino).2 ≠ 0 ∧ (st.zii_at (op.iget dir_ii.sbi ino).2).isSome ∧
      (v.sbi_at dir_ii.sbi).isSome) :
    ∃ r, _lookup v st l = some r ∧
      r.2.2.calls = st1.calls ++ if ino = 0 then [] else [.iget dir_ii.sbi ino] := by
  by_cases hi : ino = 0
  · subst hi
    exact ⟨_, lookup_eval_zero v st st1 l hg hr, by simp⟩
  · by_cases he : (op.iget dir_ii.sbi ino).1 = 0
    · obtain ⟨hz, hh, hs⟩ := hv he
      obtain ⟨zii_mem, hh⟩ := Option.isSome_iff_exists.mp hh
      obtain ⟨sbi_mem, hs⟩ := Option.isSome_iff_exists.mp hs
      exact ⟨_, lookup_eval_ok v st st1 l ino _ dir_ii zii_mem op sbi_mem hg hr hi hd hop
        (Prod.ext he rfl) hz hh hs, by simp [hi]⟩
    · exact ⟨_, lookup_eval_fail v st st1 l ino dir_ii op hg hr hi hd hop he, by simp [hi]⟩

theorem lookup_ino_dot (v : zus_vfs) (st : vfs_state) (l : zufs_ioc_lookup)
    (dir_ii : zus_inode_info) (zi : zus_inode)
    (hg : ¬ (l.str.len = 0 ∨ l.str.name.headD 0 = 0))
    (hd : st.zii_at l.dir_ii = some dir_ii) (hzi : st.zi_at dir_ii.zi = some zi)
    (hc : l.str.c_name = [46]) :
    lookup_ino v st l = some (zi.i_ino, st) := by
  unfold lookup_ino
  rw [hd]
  simp only []
  rw [if_pos ((strncmp_dot l.str hg).mpr hc), hzi]
  rfl

theorem lookup_ino_dotdot (v : zus_vfs) (st : vfs_state) (l : zufs_ioc_lookup)
    (dir_ii : zus_inode_info) (zi : zus_inode)
    (hg : ¬ (l.str.len = 0 ∨ l.str.name.headD 0 = 0))
    (hd : st.zii_at l.dir_ii = some dir_ii) (hzi : st.zi_at dir_ii.zi = some zi)
    (hc : l.str.c_name = [46, 46]) :
    lookup_ino v st l = some (zi.i_dir_parent, st) := by
  have h1 : strncmp [46] l.str.name l.str.len ≠ 0 := by
    intro h
    have := (strncmp_dot l.str hg).mp h
    rw [hc] at this
    exact absurd this (by decide)
  unfold lookup_ino
  rw [hd]
  simp only []
  rw [if_neg h1, if_pos ((strncmp_dotdot l.str hg h1).mpr hc), hzi]
  rfl

theorem lookup_ino_other (v : zus_vfs) (st : vfs_state) (l : zufs_ioc_lookup)
    (dir_ii : zus_inode_info) (op : zus_sbi_operations)
    (hg : ¬ (l.str.len = 0 ∨ l.str.name.headD 0 = 0))
    (hd : st.zii_at l.dir_ii = some dir_ii) (hop : v.op_at dir_ii.sbi = some op)
    (h1 : l.str.c_name ≠ [46]) (h2 : l.str.c_name ≠ [46, 46]) :
    lookup_ino v st l = some (op.lookup l.dir_ii l.str,
      { st with calls := st.calls ++ [.lookup l.dir_ii l.str] }) := by
  have s1 : strncmp [46] l.str.name l.str.len ≠ 0 :=
    fun h => h1 ((strncmp_dot l.str hg).mp h)
  have s2 : strncmp [46, 46] l.str.name l.str.len ≠ 0 :=
    fun h => h2 ((strncmp_dotdot l.str hg s1).mp h)
  unfold lookup_ino
  rw [hd]
  simp only []
  rw [if_neg s1, if_neg s2, hop]
  rfl

/-! ## Whole builds and the unchecked encoder -/

theorem exec_cur_le (api : zus_api) (b : zus_iomap_build) (c : iom_call)
    (h : b.cur_iom_e ≤ b.end_iom_e) :
    (c.exec api b).2.cur_iom_e ≤ b.end_iom_e := by
  by_cases hf : b.end_iom_e < b.cur_iom_e + c.size api
  · rw [exec_fail api b c hf]; exact h
  · rw [exec_ok_cur api b c hf]; omega

theorem exec_iom_n (api : zus_api) (b : zus_iomap_build) (c : iom_call) :
    (c.exec api b).2.ziom.iom_n = b.ziom.iom_n ∧
    (c.exec api b).2.ziom.iom_max = b.ziom.iom_max := by
  by_cases h : b.end_iom_e < b.cur_iom_e + c.size api
  · rw [exec_fail api b c h]; exact ⟨rfl, rfl⟩
  · cases c <;>
      simp only [iom_call.exec, iom_call.size, _zus_iom_enc_wbinv, _zus_iom_enc_discard,
        _zus_iom_enc_unmap, _zus_iom_enc_t2_io, _zus_iom_enc_t2_zusmem_io] at h ⊢ <;>
      rw [if_neg h] <;> simp

theorem end_frame (api : zus_api) (b : zus_iomap_build) :
    (_zus_iom_end api b).cur_iom_e = b.cur_iom_e ∧
    (_zus_iom_end api b).end_iom_e = b.end_iom_e ∧
    (_zus_iom_end api b).ziom.iom_max = b.ziom.iom_max := by
  unfold _zus_iom_end
  by_cases h : b.cur_iom_e < b.end_iom_e
  · simp [h]
  · simp [h]

theorem op_frame (api : zus_api) (b : zus_iomap_build) (o : iom_op) :
    (o.exec api b).end_iom_e = b.end_iom_e ∧ (o.exec api b).ziom.iom_max = b.ziom.iom_max := by
  cases o with
  | start iomd => exact ⟨rfl, rfl⟩
  | enc c => exact ⟨exec_end api b c, (exec_iom_n api b c).2⟩
  | finish => exact ⟨(end_frame api b).2.1, (end_frame api b).2.2⟩

theorem ops_frame (api : zus_api) (os : List iom_op) : ∀ b : zus_iomap_build,
    (iom_ops api b os).end_iom_e = b.end_iom_e ∧
    (iom_ops api b os).ziom.iom_max = b.ziom.iom_max := by
  induction os with
  | nil => intro b; exact ⟨rfl, rfl⟩
  | cons o os ih =>
    intro b
    simp only [iom_ops]
    rw [(ih _).1, (ih _).2]
    exact op_frame api b o

theorem op_inv (api : zus_api) (b : zus_iomap_build) (o : iom_op)
    (hm : b.ziom.iom_max = b.end_iom_e / 8)
    (h : b.cur_iom_e ≤ b.end_iom_e ∧ b.ziom.iom_n ≤ b.ziom.iom_max) :
    (o.exec api b).cur_iom_e ≤ (o.exec api b).end_iom_e ∧
    (o.exec api b).ziom.iom_n ≤ (o.exec api b).ziom.iom_max := by
  rw [(op_frame api b o).1, (op_frame api b o).2]
  cases o with
  | start iomd =>
    refine ⟨?_, ?_⟩
    · show 0 ≤ _; omega
    · show 0 ≤ _; omega
  | enc c =>
    refine ⟨exec_cur_le api b c h.1, ?_⟩
    show (c.exec api b).2.ziom.iom_n ≤ _
    rw [(exec_iom_n api b c).1]; exact h.2
  | finish =>
    refine ⟨?_, ?_⟩
    · show (_zus_iom_end api b).cur_iom_e ≤ _
      rw [(end_frame api b).1]; exact h.1
    · show (_zus_iom_end api b).ziom.iom_n ≤ _
      rw [end_iom_n, hm]
      exact Nat.div_le_div_right h.1

theorem ops_inv (api : zus_api) (os : List iom_op) : ∀ b : zus_iomap_build,
    b.ziom.iom_max = b.end_iom_e / 8 →
    b.cur_iom_e ≤ b.end_iom_e ∧ b.ziom.iom_n ≤ b.ziom.iom_max →
    (iom_ops api b os).cur_iom_e ≤ (iom_ops api b os).end_iom_e ∧
    (iom_ops api b os).ziom.iom_n ≤ (iom_ops api b os).ziom.iom_max := by
  induction os with
  | nil => intro b _ h; exact h
  | cons o os ih =>
    intro b hm h
    simp only [iom_ops]
    apply ih
    · rw [(op_frame api b o).1, (op_frame api b o).2]; exact hm
    · exact op_inv api b o hm h

theorem ops_append (api : zus_api) (os os2 : List iom_op) : ∀ b : zus_iomap_build,
    iom_ops api b (os ++ os2) = iom_ops api (iom_ops api b os) os2 := by
  induction os with
  | nil => intro b; rfl
  | cons o os ih => intro b; simp only [List.cons_append, iom_ops]; exact ih _

theorem t1_bn_frame (enc_bn : Nat → Nat → Nat) (b : zus_iomap_build) (bn pool : Nat) :
    (_ziom_enc_t1_bn enc_bn b bn pool).2.stores = b.cur_iom_e :: b.stores ∧
    (_ziom_enc_t1_bn enc_bn b bn pool).2.cur_iom_e = b.cur_iom_e + 8 ∧
    (_ziom_enc_t1_bn enc_bn b bn pool).2.end_iom_e = b.end_iom_e ∧
    (_ziom_enc_t1_bn enc_bn b bn pool).2.ziom.iom_n = b.ziom.iom_n + 1 ∧
    ((_ziom_enc_t1_bn enc_bn b bn pool).1 = true ↔ b.cur_iom_e + 8 < b.end_iom_e) := by
  simp [_ziom_enc_t1_bn]

theorem t1_run_inv (enc_bn : Nat → Nat → Nat) (e : Nat) (h8 : 8 ∣ e) (old : List Nat)
    (args : List (Nat × Nat)) : ∀ b : zus_iomap_build,
    b.end_iom_e = e → (args = [] ∨ b.cur_iom_e < e) → b.cur_iom_e ≤ e → 8 ∣ b.cur_iom_e →
    b.ziom.iom_n = b.cur_iom_e / 8 → (∀ s ∈ b.stores, s ∈ old ∨ s + 8 ≤ e) →
    (ziom_t1_run enc_bn b args).end_iom_e = e ∧
    (ziom_t1_run enc_bn b args).cur_iom_e ≤ e ∧
    (ziom_t1_run enc_bn b args).ziom.iom_n = (ziom_t1_run enc_bn b args).cur_iom_e / 8 ∧
    (∀ s ∈ (ziom_t1_run enc_bn b args).stores, s ∈ old ∨ s + 8 ≤ e) := by
  induction args with
  | nil => intro b he _ hle _ hn hs; exact ⟨he, hle, hn, hs⟩
  | cons a args ih =>
    intro b he hlt _ hd hn hs
    obtain ⟨bn, pool⟩ := a
    have hlt : b.cur_iom_e < e := by
      rcases hlt with h | h
      · exact absurd h (by simp)
      · exact h
    obtain ⟨f1, f2, f3, f4, f5⟩ := t1_bn_frame enc_bn b bn pool
    have hle8 : b.cur_iom_e + 8 ≤ e := by omega
    have hs2 : ∀ s ∈ (_ziom_enc_t1_bn enc_bn b bn pool).2.stores, s ∈ old ∨ s + 8 ≤ e := by
      intro s h
      rw [f1] at h
      rcases List.mem_cons.mp h with h | h
      · right; omega
      · exact hs s h
    simp only [ziom_t1_run]
    by_cases hr : (_ziom_enc_t1_bn enc_bn b bn pool).1 = true
    · rw [if_pos hr]
      apply ih
      · rw [f3]; exact he
      · right; rw [f2]; rw [he] at f5; exact f5.mp hr
      · rw [f2]; exact hle8
      · rw [f2]; omega
      · rw [f4, f2, hn]; omega
      · exact hs2
    · rw [if_neg hr]
      refine ⟨by rw [f3]; exact he, by rw [f2]; exact hle8, by rw [f4, f2, hn]; omega, hs2⟩

/-! ## Link counts and time stamps -/

theorem le16_add_one (v : Nat) : le16_add v 1 = (v + 1) % 2 ^ 16 := by
  simp only [le16_add, cpu_to_le16, le16_to_cpu, u16, s16]
  omega

theorem le16_add_neg_one (v : Nat) : le16_add v (-1) = (v + 65535) % 2 ^ 16 := by
  simp only [le16_add, cpu_to_le16, le16_to_cpu, u16, s16]
  omega

theorem add_nlink_val (v : Nat) :
    (u16 (cpu_to_le64 (le64_to_cpu v + 1))).toNat = (v + 1) % 2 ^ 16 := by
  simp only [u16, cpu_to_le64, le64_to_cpu, ulong]
  omega

theorem add_dentry_eval (m : inode_mem) (dir_zi zi : Nat) (hne : dir_zi ≠ zi) :
    zus_std_add_dentry m dir_zi zi zi = { m zi with i_nlink := ((m zi).i_nlink + 1) % 2 ^ 16 } ∧
    zus_std_add_dentry m dir_zi zi dir_zi =
      { m dir_zi with
        i_nlink := if zi_isdir (m zi) then ((m dir_zi).i_nlink + 1) % 2 ^ 16
          else (m dir_zi).i_nlink } ∧
    (∀ p, p ≠ zi → p ≠ dir_zi → zus_std_add_dentry m dir_zi zi p = m p) := by
  have hz : zi_isdir { m zi with i_nlink := ((m zi).i_nlink + 1) % 2 ^ 16 } = zi_isdir (m zi) := by
    simp only [zi_isdir]
  refine ⟨?_, ?_, ?_⟩
  · simp only [zus_std_add_dentry, add_nlink_val, le16_add_one, if_pos, hz]
    by_cases h : zi_isdir (m zi) = true
    · simp [h, Ne.symm hne]
    · simp [h]
  · simp only [zus_std_add_dentry, add_nlink_val, le16_add_one, if_pos, hz]
    by_cases h : zi_isdir (m zi) = true
    · simp [h, hne]
    · simp [h, hne]
  · intro p h1 h2
    simp only [zus_std_add_dentry, add_nlink_val, le16_add_one, if_pos, hz]
    by_cases h : zi_isdir (m zi) = true
    · simp [h, h1, h2]
    · simp [h, h1]

theorem remove_dentry_eval (m : inode_mem) (dir_zi zi : Nat) (hne : dir_zi ≠ zi) :
    zus_std_remove_dentry m dir_zi zi zi =
      { m zi with i_nlink := ((m zi).i_nlink + 65535) % 2 ^ 16 } ∧
    zus_std_remove_dentry m dir_zi zi dir_zi =
      { m dir_zi with
        i_nlink := if zi_isdir (m zi) then ((m dir_zi).i_nlink + 65535) % 2 ^ 16
          else (m dir_zi).i_nlink } ∧
    (∀ p, p ≠ zi → p ≠ dir_zi → zus_std_remove_dentry m dir_zi zi p = m p) := by
  refine ⟨?_, ?_, ?_⟩
  · simp only [zus_std_remove_dentry, le16_add_neg_one]
    by_cases h : zi_isdir (m zi) = true
    · simp [h, Ne.symm hne]
    · simp [h]
  · simp only [zus_std_remove_dentry, le16_add_neg_one]
    by_cases h : zi_isdir (m zi) = true
    · simp [h, hne]
    · simp [h, hne]
  · intro p h1 h2
    simp only [zus_std_remove_dentry, le16_add_neg_one]
    by_cases h : zi_isdir (m zi) = true
    · simp [h, h1, h2]
    · simp [h, h1]

theorem inode_nlink_eta (zi : zus_inode) (v : Nat) (h : v = zi.i_nlink) :
    { zi with i_nlink := v } = zi := by
  cases zi; simp at h; simp [h]

theorem inode_ext (a b : zus_inode) (h1 : a.i_mode = b.i_mode) (h2 : a.i_nlink = b.i_nlink)
    (h3 : a.i_ino = b.i_ino) (h4 : a.i_dir_parent = b.i_dir_parent) : a = b := by
  cases a; cases b; simp_all

/-! ## The claims -/

/-- C1: for every sequence of encode calls made after `_zus_iom_start` whose tagged
values fit `ZUFS_IOM_FIRST_VAL_MASK` (operands 64-bit words, block transfers of type
read or write) and which all return 0, `_zus_iom_end` followed by decoding from
`iom_e[0]`, record by record by the type tag, gives back exactly the encoded
instructions, same kinds and operands, in the same order. -/
theorem iom_roundtrip (api : zus_api) (hl : api.layout_ok) (ht : api.tags_ok)
    (iomb : zus_iomap_build) (iomd : Nat) (cs : List iom_call)
    (hw : ∀ c ∈ cs, c.wf api)
    (hok : ∀ r ∈ (iom_run api (_zus_iom_start iomb iomd) cs).1, r = 0) :
    iom_decode api (_zus_iom_end api (iom_run api (_zus_iom_start iomb iomd) cs).2).ziom
      = cs := by
  have hcur := run_cur api cs (_zus_iom_start iomb iomd)
  rw [accepted_of_all_ok api cs _ hok, sum_sizes api hl, start_cur, Nat.zero_add] at hcur
  have hlen := length_le_words api hl cs
  unfold iom_decode
  rw [end_iom_n, hcur, Nat.mul_div_cancel_left _ (by decide : 0 < 8)]
  have h := decode_run api hl ht cs (_zus_iom_start iomb iomd) (iom_words api cs)
    (_zus_iom_end api (iom_run api (_zus_iom_start iomb iomd) cs).2).ziom.iom_e hw hok hlen
    (fun a _ h2 => end_mem_below api _ a h2)
  rw [hcur, start_cur] at h
  exact h

/-- Witness of C1: a block write, a discard, a write-back word and an unmap in a buffer
of 80 bytes. -/
theorem iom_roundtrip_witness :
    iom_decode zufs_proto (_zus_iom_end zufs_proto (iom_run zufs_proto
        (_zus_iom_start (iom_builder 7 80) 0)
        [.t2_io 5 6 3, .discard 7 8, .wbinv, .unmap 1 2 3]).2).ziom
      = [.t2_io 5 6 3, .discard 7 8, .wbinv, .unmap 1 2 3] :=
  iom_roundtrip zufs_proto (by decide) (by decide) (iom_builder 7 80) 0
    [.t2_io 5 6 3, .discard 7 8, .wbinv, .unmap 1 2 3] (by decide) (by decide)

/-- Counterexample to C2 as stated: one successful block-write call leaves
`iom_n = 2`, the two words of its record, not 1, the number of successful calls. -/
theorem iom_n_not_call_count :
    (iom_run zufs_proto (_zus_iom_start (iom_builder 0 64) 0) [.t2_io 5 7 3]).1 = [0] ∧
    (_zus_iom_end zufs_proto
      (iom_run zufs_proto (_zus_iom_start (iom_builder 0 64) 0) [.t2_io 5 7 3]).2).ziom.iom_n
      ≠ [iom_call.t2_io 5 7 3].length := by
  decide

/-- C2, amended: after `_zus_iom_start` and any sequence of encode calls, the count
`_zus_iom_end` records in `ziom->iom_n` is the number of 64-bit words of the records of
the calls that returned 0 (one for a write-back word, `sizeof / 8` for a multi-word
record), for every mix of instruction kinds. -/
theorem iom_n_counts_words (api : zus_api) (hl : api.layout_ok) (iomb : zus_iomap_build)
    (iomd : Nat) (cs : List iom_call) :
    (_zus_iom_end api (iom_run api (_zus_iom_start iomb iomd) cs).2).ziom.iom_n =
      iom_words api (iom_accepted api (_zus_iom_start iomb iomd) cs) := by
  rw [end_iom_n, run_cur, sum_sizes api hl, start_cur]
  omega

/-- Witness of C2, amended: four calls into 64 bytes, the last one refused. -/
theorem iom_n_counts_words_witness :
    zufs_proto.layout_ok ∧
    (_zus_iom_end zufs_proto (iom_run zufs_proto (_zus_iom_start (iom_builder 0 64) 0)
        [.t2_io 5 7 3, .wbinv, .unmap 1 2 3, .unmap 1 2 3]).2).ziom.iom_n =
      iom_words zufs_proto (iom_accepted zufs_proto (_zus_iom_start (iom_builder 0 64) 0)
        [.t2_io 5 7 3, .wbinv, .unmap 1 2 3, .unmap 1 2 3]) :=
  ⟨by decide, iom_n_counts_words zufs_proto (by decide) (iom_builder 0 64) 0 _⟩

/-- C3: for each checked encoder and every builder state, the call returns `-ENOSPC`
exactly when `cur_iom_e` plus the size of the record exceeds `end_iom_e`, and then the
builder is unchanged (cursor, every word of the buffer, `iom_n`, no store made);
otherwise it returns 0 and advances `cur_iom_e` by exactly the size of the record. -/
theorem enc_capacity_check (api : zus_api) (iomb : zus_iomap_build) (c : iom_call) :
    ((c.exec api iomb).1 = -ENOSPC ↔ iomb.end_iom_e < iomb.cur_iom_e + c.size api) ∧
    ((c.exec api iomb).1 = -ENOSPC → (c.exec api iomb).2 = iomb) ∧
    ((c.exec api iomb).1 ≠ -ENOSPC →
      (c.exec api iomb).1 = 0 ∧
      (c.exec api iomb).2.cur_iom_e = iomb.cur_iom_e + c.size api) := by
  by_cases h : iomb.end_iom_e < iomb.cur_iom_e + c.size api
  · simp [exec_fail api iomb c h, h]
  · have h1 := exec_ok_fst api iomb c h
    have h2 := exec_ok_cur api iomb c h
    refine ⟨?_, ?_, ?_⟩
    · simp [h1, h, ENOSPC_ne_zero.symm]
    · intro h3; rw [h1] at h3; exact absurd h3.symm ENOSPC_ne_zero
    · intro _; exact ⟨h1, h2⟩

/-- Witness of C3: an unmap record does not fit 8 bytes, the builder is unchanged. -/
theorem enc_capacity_check_witness :
    (iom_call.exec zufs_proto (iom_builder 0 8) (.unmap 1 2 3)).1 = -ENOSPC ∧
    (iom_call.exec zufs_proto (iom_builder 0 8) (.unmap 1 2 3)).2 = iom_builder 0 8 :=
  ⟨(enc_capacity_check zufs_proto (iom_builder 0 8) (.unmap 1 2 3)).1.mpr (by decide),
   (enc_capacity_check zufs_proto (iom_builder 0 8) (.unmap 1 2 3)).2.1
     ((enc_capacity_check zufs_proto (iom_builder 0 8) (.unmap 1 2 3)).1.mpr (by decide))⟩

/-- Counterexample to C4 as stated: a discard of block number `2 ^ 56`, one bit above
the 56-bit mask, returns 0 after one `zus_warn`, and the word it stored decodes to
type 13, not `IOM_DISCARD = 12`, with value 0. -/
theorem misdecoded_word :
    (_zus_iom_enc_discard zufs_proto (_zus_iom_start (iom_builder 0 64) 0) (2 ^ 56) 1).1 = 0 ∧
    (_zus_iom_enc_discard zufs_proto (_zus_iom_start (iom_builder 0 64) 0) (2 ^ 56) 1).2.warns
      = 1 ∧
    _zufs_iom_opt_type zufs_proto
      ((_zus_iom_enc_discard zufs_proto (_zus_iom_start (iom_builder 0 64) 0)
        (2 ^ 56) 1).2.ziom.iom_e 0) = 13 ∧
    zufs_proto.IOM_DISCARD = 12 ∧
    _zufs_iom_first_val zufs_proto
      ((_zus_iom_enc_discard zufs_proto (_zus_iom_start (iom_builder 0 64) 0)
        (2 ^ 56) 1).2.ziom.iom_e 0) = 0 := by
  decide

/-- C4, amended: `_zus_iom_enc_type_val` always stores the packed word.  For a value
within `ZUFS_IOM_FIRST_VAL_MASK` (and a tag within the tag bits) no warning is raised
and the stored word decodes to exactly `(type, val)`.  For a value with a bit outside
the mask `zus_warn` is called once and the word is stored all the same; its decoded
value is `val` reduced to the low bits, which differs from `val`. -/
theorem enc_type_val_spec (api : zus_api) (hb : api.ZUFS_IOM_VAL_BITS < 64)
    (iomb : zus_iomap_build) (ptr type val : Nat)
    (ht : type < 2 ^ (64 - api.ZUFS_IOM_VAL_BITS)) (hv : val < 2 ^ 64) :
    (_zus_iom_enc_type_val api iomb ptr type val).ziom.iom_e ptr =
      _zufs_iom_enc_type_val api type val ∧
    (val ≤ ZUFS_IOM_FIRST_VAL_MASK api →
      (_zus_iom_enc_type_val api iomb ptr type val).warns = iomb.warns ∧
      _zufs_iom_opt_type api ((_zus_iom_enc_type_val api iomb ptr type val).ziom.iom_e ptr)
        = type ∧
      _zufs_iom_first_val api ((_zus_iom_enc_type_val api iomb ptr type val).ziom.iom_e ptr)
        = val) ∧
    (ZUFS_IOM_FIRST_VAL_MASK api < val →
      (_zus_iom_enc_type_val api iomb ptr type val).warns = iomb.warns + 1 ∧
      _zufs_iom_first_val api ((_zus_iom_enc_type_val api iomb ptr type val).ziom.iom_e ptr)
        = val % 2 ^ api.ZUFS_IOM_VAL_BITS ∧
      _zufs_iom_first_val api ((_zus_iom_enc_type_val api iomb ptr type val).ziom.iom_e ptr)
        ≠ val) := by
  have hmem : (_zus_iom_enc_type_val api iomb ptr type val).ziom.iom_e ptr =
      _zufs_iom_enc_type_val api type val := by simp [u64_enc]
  have hout := out_of_mask_iff api hb val
  rw [u64_of_lt hv] at hout
  have hpos : 0 < 2 ^ api.ZUFS_IOM_VAL_BITS := Nat.two_pow_pos _
  refine ⟨hmem, ?_, ?_⟩
  · intro hle
    have hno : iom_val_out_of_mask api val = false := by
      cases h : iom_val_out_of_mask api val
      · rfl
      · exact absurd (hout.mp h) (by omega)
    rw [hmem]
    refine ⟨?_, opt_type_enc api hb _ _ ht hle, first_val_enc_of_le api hb _ _ hle⟩
    simp [_zus_iom_enc_type_val, ZUS_WARN_ON, hno, iom_store]
  · intro hgt
    have hyes := hout.mpr hgt
    rw [hmem, first_val_enc api hb]
    refine ⟨?_, rfl, ?_⟩
    · simp [_zus_iom_enc_type_val, ZUS_WARN_ON, hyes, iom_store]
    · rw [mask_eq api hb] at hgt
      have := Nat.mod_lt val hpos
      omega

/-- Witness of C4, amended: tag 12 with value 77 decodes to `(12, 77)`. -/
theorem enc_type_val_spec_witness :
    _zufs_iom_opt_type zufs_proto
      ((_zus_iom_enc_type_val zufs_proto (iom_builder 0 64) 8 12 77).ziom.iom_e 8) = 12 ∧
    _zufs_iom_first_val zufs_proto
      ((_zus_iom_enc_type_val zufs_proto (iom_builder 0 64) 8 12 77).ziom.iom_e 8) = 77 :=
  ((enc_type_val_spec zufs_proto (by decide) (iom_builder 0 64) 8 12 77 (by decide)
    (by decide)).2.1 (by decide)).2

/-- Counterexample to C5 as stated: in the buffer of one block-write record, one
discard record and one sentinel word, a third call of `_zus_iom_enc_wbinv` returns 0:
its one word takes the place left for the sentinel. -/
theorem third_wbinv_fits :
    (iom_run zufs_proto (_zus_iom_start (iom_builder 0 (16 + 24 + 8)) 0)
      [.t2_io 5 6 3, .discard 7 8]).1 = [0, 0] ∧
    (iom_call.wbinv.exec zufs_proto
      (iom_run zufs_proto (_zus_iom_start (iom_builder 0 (16 + 24 + 8)) 0)
        [.t2_io 5 6 3, .discard 7 8]).2).1 ≠ -ENOSPC := by
  decide

/-- C5, amended: in a buffer of exactly one block-write record, one discard record
and one word, after `_zus_iom_start` the block write and the discard both return 0; a
third encode call of any multi-word kind returns `-ENOSPC` and leaves the builder
unchanged, a third `_zus_iom_enc_wbinv` returns 0; in every case the words of the first
two instructions are unchanged. -/
theorem third_encode (api : zus_api) (hl : api.layout_ok) (iomb : zus_iomap_build)
    (sbi : Nat) (ziom : zufs_iomap) (iomd t2_bn t1_val bn num_pages : Nat) (c : iom_call) :
    (iom_run api (_zus_iom_start (_zus_iom_common_init iomb sbi ziom
        (api.sizeof_t2_io + api.sizeof_t2_io_len + 8)) iomd)
      [.t2_io t2_bn t1_val api.IOM_T2_WRITE, .discard bn num_pages]).1 = [0, 0] ∧
    (c ≠ .wbinv →
      c.exec api (iom_run api (_zus_iom_start (_zus_iom_common_init iomb sbi ziom
          (api.sizeof_t2_io + api.sizeof_t2_io_len + 8)) iomd)
        [.t2_io t2_bn t1_val api.IOM_T2_WRITE, .discard bn num_pages]).2 =
      (-ENOSPC, (iom_run api (_zus_iom_start (_zus_iom_common_init iomb sbi ziom
          (api.sizeof_t2_io + api.sizeof_t2_io_len + 8)) iomd)
        [.t2_io t2_bn t1_val api.IOM_T2_WRITE, .discard bn num_pages]).2)) ∧
    (c = .wbinv →
      (c.exec api (iom_run api (_zus_iom_start (_zus_iom_common_init iomb sbi ziom
          (api.sizeof_t2_io + api.sizeof_t2_io_len + 8)) iomd)
        [.t2_io t2_bn t1_val api.IOM_T2_WRITE, .discard bn num_pages]).2).1 = 0) ∧
    ∀ a, a < api.sizeof_t2_io + api.sizeof_t2_io_len →
      (c.exec api (iom_run api (_zus_iom_start (_zus_iom_common_init iomb sbi ziom
          (api.sizeof_t2_io + api.sizeof_t2_io_len + 8)) iomd)
        [.t2_io t2_bn t1_val api.IOM_T2_WRITE, .discard bn num_pages]).2).2.ziom.iom_e a =
      (iom_run api (_zus_iom_start (_zus_iom_common_init iomb sbi ziom
          (api.sizeof_t2_io + api.sizeof_t2_io_len + 8)) iomd)
        [.t2_io t2_bn t1_val api.IOM_T2_WRITE, .discard bn num_pages]).2.ziom.iom_e a := by
  generalize hb : _zus_iom_start (_zus_iom_common_init iomb sbi ziom
    (api.sizeof_t2_io + api.sizeof_t2_io_len + 8)) iomd = b
  have hc0 : b.cur_iom_e = 0 := by rw [← hb]; rfl
  have he0 : b.end_iom_e = api.sizeof_t2_io + api.sizeof_t2_io_len + 8 := by rw [← hb]; rfl
  have h1 : ¬ b.end_iom_e <
      b.cur_iom_e + (iom_call.t2_io t2_bn t1_val api.IOM_T2_WRITE).size api := by
    simp only [iom_call.size]; omega
  have e1 := exec_ok_fst api b _ h1
  have c1 := exec_ok_cur api b _ h1
  have n1 := exec_end api b (iom_call.t2_io t2_bn t1_val api.IOM_T2_WRITE)
  generalize hb1 : (iom_call.t2_io t2_bn t1_val api.IOM_T2_WRITE).exec api b = r1 at e1 c1 n1
  have h2 : ¬ r1.2.end_iom_e < r1.2.cur_iom_e + (iom_call.discard bn num_pages).size api := by
    simp only [iom_call.size] at c1 ⊢; omega
  have e2 := exec_ok_fst api r1.2 _ h2
  have c2 := exec_ok_cur api r1.2 _ h2
  have n2 := exec_end api r1.2 (iom_call.discard bn num_pages)
  generalize hb2 : (iom_call.discard bn num_pages).exec api r1.2 = r2 at e2 c2 n2
  have hrun : iom_run api b [.t2_io t2_bn t1_val api.IOM_T2_WRITE, .discard bn num_pages]
      = ([r1.1, r2.1], r2.2) := by
    simp [iom_run, hb1, hb2]
  rw [hrun]
  simp only [iom_call.size] at c1 c2
  refine ⟨by simp [e1, e2], ?_, ?_, ?_⟩
  · intro hc
    have := size_multi api hl c hc
    exact exec_fail api r2.2 c (by omega)
  · intro hc; subst hc
    exact exec_ok_fst api r2.2 _ (by simp only [iom_call.size]; omega)
  · intro a ha
    exact exec_mem_below api r2.2 c a (by omega)

/-- Witness of C5, amended: the scenario with the 16- and 24-byte records. -/
theorem third_encode_witness :
    zufs_proto.layout_ok ∧
    iom_call.exec zufs_proto (iom_run zufs_proto (_zus_iom_start (_zus_iom_common_init
        (iom_builder 0 0) 1 (iom_builder 0 0).ziom
        (zufs_proto.sizeof_t2_io + zufs_proto.sizeof_t2_io_len + 8)) 0)
      [.t2_io 5 6 zufs_proto.IOM_T2_WRITE, .discard 7 8]).2 (.unmap 1 2 3) =
    (-ENOSPC, (iom_run zufs_proto (_zus_iom_start (_zus_iom_common_init
        (iom_builder 0 0) 1 (iom_builder 0 0).ziom
        (zufs_proto.sizeof_t2_io + zufs_proto.sizeof_t2_io_len + 8)) 0)
      [.t2_io 5 6 zufs_proto.IOM_T2_WRITE, .discard 7 8]).2) :=
  ⟨by decide, (third_encode zufs_proto (by decide) (iom_builder 0 0) 1 (iom_builder 0 0).ziom
    0 5 6 7 8 (.unmap 1 2 3)).2.1 (by decide)⟩

/-- C6: `_zus_iom_end` on every builder state: if `cur_iom_e < end_iom_e` it stores a
zero word at `cur_iom_e` and changes no other word; otherwise it stores nothing; in
both cases it sets `ziom->iom_n` to `_zus_iom_len` and leaves `cur_iom_e` and
`end_iom_e` unchanged. -/
theorem iom_end_spec (api : zus_api) (iomb : zus_iomap_build) :
    (iomb.cur_iom_e < iomb.end_iom_e →
      (_zus_iom_end api iomb).ziom.iom_e iomb.cur_iom_e = 0 ∧
      (∀ a, a ≠ iomb.cur_iom_e →
        (_zus_iom_end api iomb).ziom.iom_e a = iomb.ziom.iom_e a) ∧
      (_zus_iom_end api iomb).stores = iomb.cur_iom_e :: iomb.stores) ∧
    (¬ iomb.cur_iom_e < iomb.end_iom_e →
      (_zus_iom_end api iomb).ziom.iom_e = iomb.ziom.iom_e ∧
      (_zus_iom_end api iomb).stores = iomb.stores) ∧
    (_zus_iom_end api iomb).ziom.iom_n = _zus_iom_len iomb ∧
    (_zus_iom_end api iomb).cur_iom_e = iomb.cur_iom_e ∧
    (_zus_iom_end api iomb).end_iom_e = iomb.end_iom_e := by
  have hz : u64 (_zufs_iom_enc_type_val api 0 0) = 0 := by
    simp [_zufs_iom_enc_type_val, u64]
  by_cases h : iomb.cur_iom_e < iomb.end_iom_e
  · simp [_zus_iom_end, h, hz, _zus_iom_len]
    intro a ha; simp [ha]
  · simp [_zus_iom_end, h, _zus_iom_len]

/-- Witness of C6: on a full buffer `_zus_iom_end` makes no store. -/
theorem iom_end_spec_witness :
    (_zus_iom_end zufs_proto (iom_builder 0 0)).ziom.iom_e = (iom_builder 0 0).ziom.iom_e ∧
    (_zus_iom_end zufs_proto (iom_builder 0 0)).stores = (iom_builder 0 0).stores :=
  (iom_end_spec zufs_proto (iom_builder 0 0)).2.1 (by decide)

/-- Counterexample to C7 as stated: with an end pointer 12 bytes behind `iom_e`, one
write-back word is accepted and `_zus_iom_end` then stores the 8-byte sentinel at
offset 8, bytes 8 to 15, past the end pointer at 12. -/
theorem sentinel_out_of_bounds :
    (iom_run zufs_proto (_zus_iom_start (iom_builder 0 12) 0) [.wbinv]).1 = [0] ∧
    (_zus_iom_end zufs_proto
      (iom_run zufs_proto (_zus_iom_start (iom_builder 0 12) 0) [.wbinv]).2).stores
      = [8, 0, 0] ∧
    (_zus_iom_end zufs_proto
      (iom_run zufs_proto (_zus_iom_start (iom_builder 0 12) 0) [.wbinv]).2).end_iom_e = 12 ∧
    ¬ (8 + 8 ≤ 12) := by
  decide

/-- C7, amended: for a builder initialised by `_zus_iom_common_init` with an end
pointer a positive multiple of 8 bytes behind `iom_e`, after `_zus_iom_start`, any
sequence of checked encode calls and a final `_zus_iom_end`, every 8-byte store made
into the instruction area, the sentinel included, lies in `[iom_e, end_iom_e)`. -/
theorem stores_in_bounds (api : zus_api) (hl : api.layout_ok) (iomb : zus_iomap_build)
    (sbi : Nat) (ziom : zufs_iomap) (end_ptr iomd : Nat) (cs : List iom_call)
    (h8 : 8 ∣ end_ptr) (hpos : 0 < end_ptr) :
    ∀ s ∈ (_zus_iom_end api (iom_run api
        (_zus_iom_start (_zus_iom_common_init iomb sbi ziom end_ptr) iomd) cs).2).stores,
      s ∈ iomb.stores ∨ s + 8 ≤ end_ptr := by
  intro s hs
  have hcur := run_cur api cs (_zus_iom_start (_zus_iom_common_init iomb sbi ziom end_ptr) iomd)
  have hend := run_end api cs (_zus_iom_start (_zus_iom_common_init iomb sbi ziom end_ptr) iomd)
  rw [sum_sizes api hl, start_cur] at hcur
  rw [start_end] at hend
  have he : (_zus_iom_common_init iomb sbi ziom end_ptr).end_iom_e = end_ptr := rfl
  rw [he] at hend
  have hrun : s ∈ (iom_run api
      (_zus_iom_start (_zus_iom_common_init iomb sbi ziom end_ptr) iomd) cs).2.stores →
      s ∈ iomb.stores ∨ s + 8 ≤ end_ptr := by
    intro h
    rcases run_stores api hl cs _ s h with h | h
    · rw [start_stores] at h
      have hs0 : (_zus_iom_common_init iomb sbi ziom end_ptr).stores = iomb.stores := rfl
      rw [hs0] at h
      rcases List.mem_cons.mp h with h | h
      · right; omega
      · exact Or.inl h
    · rw [start_end, he] at h; exact Or.inr h
  rw [end_stores] at hs
  split at hs
  · rename_i hlt
    rcases List.mem_cons.mp hs with h | h
    · right; rw [hend] at hlt; omega
    · exact hrun h
  · exact hrun hs

/-- Witness of C7, amended: three calls into a buffer of 24 bytes. -/
theorem stores_in_bounds_witness :
    zufs_proto.layout_ok ∧
    16 ∈ (_zus_iom_end zufs_proto (iom_run zufs_proto
        (_zus_iom_start (_zus_iom_common_init (iom_builder 0 0) 1 (iom_builder 0 0).ziom 24) 0)
        [.wbinv, .t2_io 1 2 3, .wbinv]).2).stores ∧
    (16 ∈ (iom_builder 0 0).stores ∨ 16 + 8 ≤ 24) :=
  ⟨by decide, by decide,
   stores_in_bounds zufs_proto (by decide) (iom_builder 0 0) 1 (iom_builder 0 0).ziom 24 0
    [.wbinv, .t2_io 1 2 3, .wbinv] (by decide) (by decide) 16 (by decide)⟩

/-- C8: when `sbi_alloc` and `_pmem_grab` succeed and `sbi_init` returns `e ≠ 0`
(the hooks leaving `sbi->zfi` in place), `zus_mount` returns `e` with
`zim->hdr.err = e` and `zim->zmi` as `sbi_init` left it; the flag `ZUS_SBIF_ERROR` is
set on the instance; the calls are `sbi_alloc`, those of `_pmem_grab`, `sbi_init`, the
flag, then the teardown: the four calls of `_pmem_ungrab` once each and `sbi_free`
once, last. -/
theorem mount_init_fails (w : zus_world) (zim zim2 : zufs_ioc_mount) (zfi : zus_fs_info)
    (st1 : zus_exec) (sbi2 : zus_sb_info) (e : Int)
    (hz : w.zfi_at zim.zmi.zus_zfi = some zfi) (ha : zfi.op.sbi_alloc ≠ 0)
    (hg : _pmem_grab w (zus_mount_sbi zfi zim) zfi.op.sbi_alloc zim.zmi.pmem_kern_id
      = some (0, st1))
    (hi : zfi.op.sbi_init st1.sbi zim = (e, sbi2, zim2)) (he : e ≠ 0)
    (hk : sbi2.zfi = zim.zmi.zus_zfi)
    (hf : ∀ fini, zfi.op.sbi_fini = some fini → ∀ s, (fini s).2.zfi = s.zfi) :
    ∃ st g, zus_mount w zim = some (e, { zim2 with hdr_err := e }, st) ∧
      (∀ c ∈ g, c ∈ pmem_grab_calls) ∧
      st.calls = zus_call.sbi_alloc :: g ++
        [.sbi_init, .zus_sbi_set_flag ZUS_SBIF_ERROR] ++
        teardown_calls zfi.op.sbi_fini.isSome ∧
      (zus_sbi_flag_set sbi2 ZUS_SBIF_ERROR).flags.testBit ZUS_SBIF_ERROR = true := by
  obtain ⟨hzfi, g, hg1, hg2⟩ := grab_spec w _ _ _ _ _ hg
  have hz1 : w.zfi_at st1.sbi.zfi = some zfi := by rw [hzfi]; exact hz
  obtain ⟨st, h1, h2⟩ := mount_err_spec w zim2 zfi.op.sbi_alloc
    { sbi := sbi2, calls := st1.calls ++ [.sbi_init] } e zfi ha (by simpa [hk] using hz) hf
  refine ⟨st, g, ?_, hg1, ?_, ?_⟩
  · unfold zus_mount
    rw [hz]
    simp only []
    rw [if_neg ha, hg]
    simp only []
    rw [if_neg (by simp), hz1]
    simp only []
    rw [hi]
    simp only []
    rw [if_pos he]
    exact h1
  · rw [h2, hg2]
    simp [zus_mount_sbi]
  · exact flag_set_bit _

/-- Witness of C8: a back-end whose `sbi_init` returns -5. -/
theorem mount_init_fails_witness :
    ∃ st g, zus_mount (world (backend 50 (-5) true) 0) mount_request
        = some (-5, { mount_request with hdr_err := -5 }, st) ∧
      (∀ c ∈ g, c ∈ pmem_grab_calls) ∧
      st.calls = zus_call.sbi_alloc :: g ++
        [.sbi_init, .zus_sbi_set_flag ZUS_SBIF_ERROR] ++
        teardown_calls (backend 50 (-5) true).op.sbi_fini.isSome ∧
      (zus_sbi_flag_set
        { md := { sbi := 50, fd := 3, p_pmem_addr := 4096, user_page_size := 4096 },
          zfi := 100, z_root := 200, flags := 0, kern_sb_id := 1 }
        ZUS_SBIF_ERROR).flags.testBit ZUS_SBIF_ERROR = true :=
  mount_init_fails (world (backend 50 (-5) true) 0) mount_request mount_request
    (backend 50 (-5) true)
    { sbi := { md := { sbi := 50, fd := 3, p_pmem_addr := 4096, user_page_size := 4096 },
               zfi := 100, z_root := 0, flags := 0, kern_sb_id := 1 },
      calls := [.sbi_alloc, .zuf_root_open_tmp, .zuf_grab_pmem, .mmap, .madvise,
        .md_init_from_pmem_info, .fba_alloc_align] }
    { md := { sbi := 50, fd := 3, p_pmem_addr := 4096, user_page_size := 4096 },
      zfi := 100, z_root := 200, flags := 0, kern_sb_id := 1 }
    (-5) rfl (by decide) (by decide) rfl (by decide) rfl
    (fun fini h s => by
      have : fini = fun sbi => (0, sbi) := by
        simp only [backend] at h
        exact (Option.some.inj h).symm
      subst this; rfl)

/-- C9, the code at the failing input: when `sbi_alloc` returns `NULL`, `zus_mount`
jumps to `err:` and writes the error flag through the null pointer; it has no result,
neither the return of `-ENOMEM` nor `zim->hdr.err`. -/
theorem mount_alloc_null (w : zus_world) (zim : zufs_ioc_mount) (zfi : zus_fs_info)
    (hz : w.zfi_at zim.zmi.zus_zfi = some zfi) (ha : zfi.op.sbi_alloc = 0) :
    zus_mount w zim = none := by
  unfold zus_mount
  rw [hz]
  simp only []
  rw [if_pos ha]
  unfold zus_mount_err
  rw [if_pos ha]

/-- Witness of C9: a back-end whose `sbi_alloc` returns `NULL`. -/
theorem mount_alloc_null_witness :
    zus_mount (world (backend 0 0 true) 0) mount_request = none :=
  mount_alloc_null (world (backend 0 0 true) 0) mount_request (backend 0 0 true) rfl rfl

/-- Counterexample to C10 as stated: `zuf_root_open_tmp` fails with -13, `sbi_init` is
never called, and the teardown still calls the back-end's `sbi_fini`. -/
theorem sbi_fini_without_init :
    (zus_mount (world (backend 50 0 true) (-13)) mount_request).map
        (fun r => (r.1, r.2.2.calls)) =
      some (-13, [.sbi_alloc, .zuf_root_open_tmp, .zus_sbi_set_flag ZUS_SBIF_ERROR,
        .sbi_fini, .fba_free, .md_fini, .munmap, .zuf_root_close, .sbi_free]) := by
  decide

/-- C10, amended: when `sbi_alloc` succeeds and `_pmem_grab` fails with `e`,
`zus_mount` never calls `sbi_init`, sets the error flag on the instance, runs the
teardown with the back-end's `sbi_fini` called whenever the hook is there, then the
four calls of `_pmem_ungrab` and `sbi_free` once each, and returns `e` with
`zim->hdr.err = e`. -/
theorem mount_grab_fails (w : zus_world) (zim : zufs_ioc_mount) (zfi : zus_fs_info)
    (st1 : zus_exec) (e : Int)
    (hz : w.zfi_at zim.zmi.zus_zfi = some zfi) (ha : zfi.op.sbi_alloc ≠ 0)
    (hg : _pmem_grab w (zus_mount_sbi zfi zim) zfi.op.sbi_alloc zim.zmi.pmem_kern_id
      = some (e, st1))
    (he : e ≠ 0)
    (hf : ∀ fini, zfi.op.sbi_fini = some fini → ∀ s, (fini s).2.zfi = s.zfi) :
    ∃ st g, zus_mount w zim = some (e, { zim with hdr_err := e }, st) ∧
      (∀ c ∈ g, c ∈ pmem_grab_calls) ∧
      st.calls = zus_call.sbi_alloc :: g ++ [.zus_sbi_set_flag ZUS_SBIF_ERROR] ++
        teardown_calls zfi.op.sbi_fini.isSome ∧
      zus_call.sbi_init ∉ st.calls ∧
      (zus_sbi_flag_set st1.sbi ZUS_SBIF_ERROR).flags.testBit ZUS_SBIF_ERROR = true := by
  obtain ⟨hzfi, g, hg1, hg2⟩ := grab_spec w _ _ _ _ _ hg
  have hz1 : w.zfi_at st1.sbi.zfi = some zfi := by rw [hzfi]; exact hz
  obtain ⟨st, h1, h2⟩ := mount_err_spec w zim zfi.op.sbi_alloc st1 e zfi ha hz1 hf
  have hcalls : st.calls = zus_call.sbi_alloc :: g ++ [.zus_sbi_set_flag ZUS_SBIF_ERROR] ++
      teardown_calls zfi.op.sbi_fini.isSome := by
    rw [h2, hg2]; simp [zus_mount_sbi]
  refine ⟨st, g, ?_, hg1, hcalls, ?_, ?_⟩
  · unfold zus_mount
    rw [hz]
    simp only []
    rw [if_neg ha, hg]
    simp only []
    rw [if_pos he]
    exact h1
  · rw [hcalls]
    intro hmem
    simp only [List.cons_append, List.mem_cons, List.mem_append, List.mem_singleton,
      teardown_calls] at hmem
    rcases hmem with h | (h | h) | h
    · exact absurd h (by decide)
    · exact absurd (hg1 _ h) (by decide)
    · exact absurd h (by decide)
    · cases zfi.op.sbi_fini.isSome <;> simp at h
  · exact flag_set_bit _

/-- Witness of C10, amended: `zuf_root_open_tmp` fails with -13, no `sbi_fini` hook. -/
theorem mount_grab_fails_witness :
    ∃ st g, zus_mount (world (backend 50 0 false) (-13)) mount_request
        = some (-13, { mount_request with hdr_err := -13 }, st) ∧
      (∀ c ∈ g, c ∈ pmem_grab_calls) ∧
      st.calls = zus_call.sbi_alloc :: g ++ [.zus_sbi_set_flag ZUS_SBIF_ERROR] ++
        teardown_calls (backend 50 0 false).op.sbi_fini.isSome ∧
      zus_call.sbi_init ∉ st.calls ∧
      (zus_sbi_flag_set
        { md := { sbi := 50, fd := 0, p_pmem_addr := 0, user_page_size := 0 },
          zfi := 100, z_root := 0, flags := 0, kern_sb_id := 1 }
        ZUS_SBIF_ERROR).flags.testBit ZUS_SBIF_ERROR = true :=
  mount_grab_fails (world (backend 50 0 false) (-13)) mount_request (backend 50 0 false)
    { sbi := { md := { sbi := 50, fd := 0, p_pmem_addr := 0, user_page_size := 0 },
               zfi := 100, z_root := 0, flags := 0, kern_sb_id := 1 },
      calls := [.sbi_alloc, .zuf_root_open_tmp] }
    (-13) rfl (by decide) (by decide) (by decide)
    (fun fini h => by simp [backend] at h)

/-- C11: when `sbi_alloc`, `_pmem_grab` and `sbi_init` all succeed (the root inode
handle `sbi->z_root` being there), `zus_mount` returns 0 and publishes
`zim->zmi.zus_sbi` (the new instance), `zus_ii` (the root inode handle) and `_zi`
(`md_addr_to_offset` of `z_root->zi`); the instance handed to `sbi_init` has `zfi` and
`kern_sb_id` from the request; the calls are `sbi_alloc`, those of `_pmem_grab` and
`sbi_init` only: no teardown step, no error flag, the instance is as `sbi_init` left
it. -/
theorem mount_succeeds (w : zus_world) (zim zim2 : zufs_ioc_mount) (zfi : zus_fs_info)
    (st1 : zus_exec) (sbi2 : zus_sb_info) (z_root : zus_inode_info)
    (hz : w.zfi_at zim.zmi.zus_zfi = some zfi) (ha : zfi.op.sbi_alloc ≠ 0)
    (hg : _pmem_grab w (zus_mount_sbi zfi zim) zfi.op.sbi_alloc zim.zmi.pmem_kern_id
      = some (0, st1))
    (hi : zfi.op.sbi_init st1.sbi zim = (0, sbi2, zim2))
    (hr : w.zii_at sbi2.z_root = some z_root) :
    zus_mount w zim = some (0,
      { zim2 with zmi := { zim2.zmi with
          zus_sbi := zfi.op.sbi_alloc
          _zi := md_addr_to_offset sbi2.md z_root.zi
          zus_ii := sbi2.z_root } },
      { sbi := sbi2, calls := st1.calls ++ [.sbi_init] }) ∧
    st1.sbi.zfi = zim.zmi.zus_zfi ∧ st1.sbi.kern_sb_id = zim.zmi.sb_id ∧
    ∃ g, (∀ c ∈ g, c ∈ pmem_grab_calls) ∧
      st1.calls ++ [zus_call.sbi_init] = zus_call.sbi_alloc :: g ++ [.sbi_init] := by
  obtain ⟨hzfi, g, hg1, hg2⟩ := grab_spec w _ _ _ _ _ hg
  have hk := grab_kern_sb_id w _ _ _ _ _ hg
  have hz1 : w.zfi_at st1.sbi.zfi = some zfi := by rw [hzfi]; exact hz
  refine ⟨?_, hzfi, hk, g, hg1, by rw [hg2]; rfl⟩
  unfold zus_mount
  rw [hz]
  simp only []
  rw [if_neg ha, hg]
  simp only []
  rw [if_neg (by simp), hz1]
  simp only []
  rw [hi]
  simp only []
  rw [if_neg (by simp), hr]
  rfl

/-- Witness of C11: a mount with every step succeeding. -/
theorem mount_succeeds_witness :
    zus_mount (world (backend 50 0 true) 0) mount_request = some (0,
      { mount_request with zmi := { mount_request.zmi with
          zus_sbi := 50
          _zi := md_addr_to_offset
            { sbi := 50, fd := 3, p_pmem_addr := 4096, user_page_size := 4096 } (4096 + 64)
          zus_ii := 200 } },
      { sbi := { md := { sbi := 50, fd := 3, p_pmem_addr := 4096, user_page_size := 4096 },
                 zfi := 100, z_root := 200, flags := 0, kern_sb_id := 1 },
        calls := [.sbi_alloc, .zuf_root_open_tmp, .zuf_grab_pmem, .mmap, .madvise,
          .md_init_from_pmem_info, .fba_alloc_align] ++ [.sbi_init] }) :=
  (mount_succeeds (world (backend 50 0 true) 0) mount_request mount_request
    (backend 50 0 true)
    { sbi := { md := { sbi := 50, fd := 3, p_pmem_addr := 4096, user_page_size := 4096 },
               zfi := 100, z_root := 0, flags := 0, kern_sb_id := 1 },
      calls := [.sbi_alloc, .zuf_root_open_tmp, .zuf_grab_pmem, .mmap, .madvise,
        .md_init_from_pmem_info, .fba_alloc_align] }
    { md := { sbi := 50, fd := 3, p_pmem_addr := 4096, user_page_size := 4096 },
      zfi := 100, z_root := 200, flags := 0, kern_sb_id := 1 }
    { sbi := 0, zi := 4096 + 64 }
    rfl (by decide) (by decide) rfl rfl).1

/-- C12: for every mounted instance (whose `sbi->zfi` is a back-end, the hook leaving
it in place), whatever its flags and whatever the calls return, `zus_umount` returns 0
and runs the teardown once in this order: the back-end's `sbi_fini` when the hook is
there, then `fba_free`, `md_fini`, the unmap and the close of the private handle, then
`sbi_free`. -/
theorem umount_spec (w : zus_world) (st : zus_exec) (zfi : zus_fs_info)
    (hz : w.zfi_at st.sbi.zfi = some zfi)
    (hf : ∀ fini, zfi.op.sbi_fini = some fini → ∀ s, (fini s).2.zfi = s.zfi) :
    ∃ st1, zus_umount w st = some (0, st1) ∧
      (zfi.op.sbi_fini = none →
        st1.calls = st.calls ++
          [.fba_free, .md_fini, .munmap, .zuf_root_close, .sbi_free]) ∧
      (zfi.op.sbi_fini ≠ none →
        st1.calls = st.calls ++
          [.sbi_fini, .fba_free, .md_fini, .munmap, .zuf_root_close, .sbi_free]) := by
  obtain ⟨st1, h1, h2⟩ := sbi_fini_spec w st zfi hz hf
  refine ⟨st1, ?_, ?_, ?_⟩
  · unfold zus_umount; rw [h1]
  · intro h; rw [h2, h]; rfl
  · intro h
    cases hh : zfi.op.sbi_fini with
    | none => exact absurd hh h
    | some f => rw [h2, hh]; rfl

/-- Witness of C12: an instance with the error flag set and a `sbi_fini` hook. -/
theorem umount_spec_witness :
    ∃ st1, zus_umount (world (backend 50 0 true) 0)
        { sbi := { md := { sbi := 50, fd := 3, p_pmem_addr := 4096, user_page_size := 4096 },
                   zfi := 100, z_root := 200, flags := 1, kern_sb_id := 1 },
          calls := [] } = some (0, st1) ∧
      st1.calls = [] ++
        [.sbi_fini, .fba_free, .md_fini, .munmap, .zuf_root_close, .sbi_free] := by
  obtain ⟨st1, h1, -, h3⟩ := umount_spec (world (backend 50 0 true) 0)
    { sbi := { md := { sbi := 50, fd := 3, p_pmem_addr := 4096, user_page_size := 4096 },
               zfi := 100, z_root := 200, flags := 1, kern_sb_id := 1 },
      calls := [] }
    (backend 50 0 true) rfl
    (fun fini h s => by
      have : fini = fun sbi => (0, sbi) := by
        simp only [backend] at h
        exact (Option.some.inj h).symm
      subst this; rfl)
  exact ⟨st1, h1, h3 (fun h => by simp [backend] at h)⟩

/-- C13: for every new-inode request for which the back-end's `new_inode` returns a
handle (the back-end leaving `dir_ii`, `flags` and `str` of the request in place): the
draft inode passed to `new_inode` has `i_nlink = 0`; the request's `_zi` and `zus_ii`
are the region offset and the handle of the new inode; with `ZI_TMPFILE` set the result
is 0 and `new_inode` is the only call; with `ZI_TMPFILE` clear `add_dentry(dir_ii, new
inode, name)` is called exactly once, right after it, and its result is returned. -/
theorem new_inode_spec (v : zus_vfs) (st : vfs_state) (app_ptr : Nat)
    (ioc_new req : zufs_ioc_new_inode) (dir_ii zii_mem : zus_inode_info)
    (op zii_op : zus_sbi_operations) (sbi_mem : zus_sb_info) (zii : Nat)
    (hd : st.zii_at ioc_new.dir_ii = some dir_ii)
    (hop : v.op_at dir_ii.sbi = some op)
    (hs : v.sbi_at dir_ii.sbi = some sbi_mem)
    (hn : op.new_inode dir_ii.sbi app_ptr
      { ioc_new with zi := { ioc_new.zi with i_nlink := 0 } } = (zii, req))
    (hz : zii ≠ 0)
    (hh : st.zii_at zii = some zii_mem)
    (hfo : v.op_at zii_mem.sbi = some zii_op)
    (hrd : req.dir_ii = ioc_new.dir_ii) (hrf : req.flags = ioc_new.flags)
    (hrs : req.str = ioc_new.str) :
    ∃ r, _new_inode v st app_ptr ioc_new = some r ∧
      r.2.1._zi = md_addr_to_offset sbi_mem.md zii_mem.zi ∧ r.2.1.zus_ii = zii ∧
      (ioc_new.flags &&& v.ZI_TMPFILE ≠ 0 →
        r.1 = 0 ∧
        r.2.2.calls = st.calls ++ [.new_inode dir_ii.sbi app_ptr
          { ioc_new with zi := { ioc_new.zi with i_nlink := 0 } }]) ∧
      (ioc_new.flags &&& v.ZI_TMPFILE = 0 →
        r.1 = op.add_dentry ioc_new.dir_ii zii ioc_new.str ∧
        r.2.2.calls = st.calls ++ [.new_inode dir_ii.sbi app_ptr
            { ioc_new with zi := { ioc_new.zi with i_nlink := 0 } },
          .add_dentry ioc_new.dir_ii zii ioc_new.str] ++
          if op.add_dentry ioc_new.dir_ii zii ioc_new.str ≠ 0 then [.free_inode zii]
          else []) := by
  have h := new_inode_eval v st app_ptr ioc_new req dir_ii zii_mem op zii_op sbi_mem zii
    hd hop hs hn hz hh hfo hrd
  rw [hrf, hrs] at h
  by_cases hf : ioc_new.flags &&& v.ZI_TMPFILE ≠ 0
  · rw [if_pos hf] at h
    exact ⟨_, h, rfl, rfl, fun _ => ⟨rfl, rfl⟩, fun h0 => absurd h0 hf⟩
  · rw [if_neg hf] at h
    by_cases he : op.add_dentry ioc_new.dir_ii zii ioc_new.str ≠ 0
    · rw [if_pos he] at h
      exact ⟨_, h, rfl, rfl, fun h1 => absurd h1 hf, fun _ => ⟨rfl, by simp [he]⟩⟩
    · rw [if_neg he] at h
      refine ⟨_, h, rfl, rfl, fun h1 => absurd h1 hf, fun _ => ⟨?_, by simp [he]⟩⟩
      simp only [ne_eq, not_not] at he
      exact he.symm

/-- Witness of C13: a create of `"f"` in the directory of handle 200, linked. -/
theorem new_inode_spec_witness :
    ∃ r, _new_inode (vfs_world (vfs_ops 300 0 0 0)) vfs_mem 77 (new_inode_request 0) = some r ∧
      r.2.1._zi = 128 ∧ r.2.1.zus_ii = 300 ∧ r.1 = 0 ∧
      r.2.2.calls = [.new_inode 50 77
          { new_inode_request 0 with zi := { (new_inode_request 0).zi with i_nlink := 0 } },
        .add_dentry 200 300 { len := 1, name := [102] }] := by
  obtain ⟨r, h, h1, h2, -, h4⟩ := new_inode_spec (vfs_world (vfs_ops 300 0 0 0)) vfs_mem 77
    (new_inode_request 0)
    { new_inode_request 0 with zi := { (new_inode_request 0).zi with i_nlink := 0, i_ino := 7 } }
    { sbi := 50, zi := 4096 + 64 } { sbi := 50, zi := 4096 + 128 }
    (vfs_ops 300 0 0 0) (vfs_ops 300 0 0 0)
    { md := { sbi := 50, fd := 3, p_pmem_addr := 4096, user_page_size := 0 },
      zfi := 100, z_root := 200, flags := 0, kern_sb_id := 1 }
    300 rfl rfl rfl rfl (by decide) rfl rfl rfl rfl rfl
  exact ⟨r, h, h1, h2, (h4 (by decide)).1, (h4 (by decide)).2⟩

/-- Counterexample to C14 as stated: `add_dentry` fails with -5, `free_inode` is the
last call, and the request still carries the handle 300 and the offset 128 of the freed
inode in `zus_ii` and `_zi`, which were 0 before the call. -/
theorem freed_inode_published :
    (_new_inode (vfs_world (vfs_ops 300 (-5) 0 0)) vfs_mem 77 (new_inode_request 0)).map
        (fun r => (r.1, r.2.1.zus_ii, r.2.1._zi, r.2.2.calls.getLast?)) =
      some (-5, 300, 128, some (.free_inode 300)) ∧
    (new_inode_request 0).zus_ii = 0 := by
  decide

/-- C14, amended: for every request without `ZI_TMPFILE` in which the back-end creates
the inode and `add_dentry` then fails with `e`, the dispatcher calls `free_inode`
exactly once on the new inode, last, and returns exactly `e`; the request's `_zi` and
`zus_ii`, written before the link attempt, still hold the offset and the handle of the
freed inode. -/
theorem new_inode_link_fails (v : zus_vfs) (st : vfs_state) (app_ptr : Nat)
    (ioc_new req : zufs_ioc_new_inode) (dir_ii zii_mem : zus_inode_info)
    (op zii_op : zus_sbi_operations) (sbi_mem : zus_sb_info) (zii : Nat) (e : Int)
    (hd : st.zii_at ioc_new.dir_ii = some dir_ii)
    (hop : v.op_at dir_ii.sbi = some op)
    (hs : v.sbi_at dir_ii.sbi = some sbi_mem)
    (hn : op.new_inode dir_ii.sbi app_ptr
      { ioc_new with zi := { ioc_new.zi with i_nlink := 0 } } = (zii, req))
    (hz : zii ≠ 0)
    (hh : st.zii_at zii = some zii_mem)
    (hfo : v.op_at zii_mem.sbi = some zii_op)
    (hrd : req.dir_ii = ioc_new.dir_ii) (hrf : req.flags = ioc_new.flags)
    (hrs : req.str = ioc_new.str)
    (hf : ioc_new.flags &&& v.ZI_TMPFILE = 0)
    (ha : op.add_dentry ioc_new.dir_ii zii ioc_new.str = e) (he : e ≠ 0) :
    _new_inode v st app_ptr ioc_new =
      some (e, { req with _zi := md_addr_to_offset sbi_mem.md zii_mem.zi, zus_ii := zii },
        { st with calls := st.calls ++ [.new_inode dir_ii.sbi app_ptr
            { ioc_new with zi := { ioc_new.zi with i_nlink := 0 } },
          .add_dentry ioc_new.dir_ii zii ioc_new.str, .free_inode zii] }) := by
  have h := new_inode_eval v st app_ptr ioc_new req dir_ii zii_mem op zii_op sbi_mem zii
    hd hop hs hn hz hh hfo hrd
  rw [hrf, hrs, if_neg (by simp [hf]), ha, if_pos he] at h
  rw [h]
  simp [hrf, hrs]

/-- Witness of C14, amended: `add_dentry` failing with -5. -/
theorem new_inode_link_fails_witness :
    _new_inode (vfs_world (vfs_ops 300 (-5) 0 0)) vfs_mem 77 (new_inode_request 0) =
      some (-5,
        { new_inode_request 0 with
          zi := { (new_inode_request 0).zi with i_nlink := 0, i_ino := 7 }
          _zi := md_addr_to_offset
            { sbi := 50, fd := 3, p_pmem_addr := 4096, user_page_size := 0 } (4096 + 128)
          zus_ii := 300 },
        { vfs_mem with calls := vfs_mem.calls ++ [.new_inode 50 77
            { new_inode_request 0 with zi := { (new_inode_request 0).zi with i_nlink := 0 } },
          .add_dentry 200 300 { len := 1, name := [102] }, .free_inode 300] }) :=
  new_inode_link_fails (vfs_world (vfs_ops 300 (-5) 0 0)) vfs_mem 77
    (new_inode_request 0)
    { new_inode_request 0 with zi := { (new_inode_request 0).zi with i_nlink := 0, i_ino := 7 } }
    { sbi := 50, zi := 4096 + 64 } { sbi := 50, zi := 4096 + 128 }
    (vfs_ops 300 (-5) 0 0) (vfs_ops 300 (-5) 0 0)
    { md := { sbi := 50, fd := 3, p_pmem_addr := 4096, user_page_size := 0 },
      zfi := 100, z_root := 200, flags := 0, kern_sb_id := 1 }
    300 (-5) rfl rfl rfl rfl (by decide) rfl rfl rfl rfl rfl (by decide) rfl (by decide)

/-- C15: for every directory inode and back-end, a lookup of the name `"."` resolves
to the directory's own `i_ino` and a lookup of `".."` to its recorded `i_dir.parent`,
in both cases without a call of the back-end's `lookup` (the state is unchanged by the
resolution); the only call `_lookup` then makes is `iget` with the resolved number
(none when that number is 0). -/
theorem lookup_dot_dotdot (v : zus_vfs) (st : vfs_state) (l : zufs_ioc_lookup)
    (dir_ii : zus_inode_info) (zi : zus_inode) (op : zus_sbi_operations)
    (hd : st.zii_at l.dir_ii = some dir_ii) (hzi : st.zi_at dir_ii.zi = some zi)
    (hop : v.op_at dir_ii.sbi = some op)
    (hv : ∀ ino, (op.iget dir_ii.sbi ino).1 = 0 →
      (op.iget dir_ii.sbi ino).2 ≠ 0 ∧ (st.zii_at (op.iget dir_ii.sbi ino).2).isSome ∧
      (v.sbi_at dir_ii.sbi).isSome) :
    (l.str.name.take l.str.len = [46] →
      lookup_ino v st l = some (zi.i_ino, st) ∧
      ∃ r, _lookup v st l = some r ∧
        r.2.2.calls = st.calls ++ if zi.i_ino = 0 then [] else [.iget dir_ii.sbi zi.i_ino]) ∧
    (l.str.name.take l.str.len = [46, 46] →
      lookup_ino v st l = some (zi.i_dir_parent, st) ∧
      ∃ r, _lookup v st l = some r ∧
        r.2.2.calls = st.calls ++
          if zi.i_dir_parent = 0 then [] else [.iget dir_ii.sbi zi.i_dir_parent]) := by
  constructor
  · intro hn
    have hc := take_c_name l.str [46] hn (by decide)
    have hg : ¬ (l.str.len = 0 ∨ l.str.name.headD 0 = 0) := by
      rw [guard_iff, hc]; decide
    have hr := lookup_ino_dot v st l dir_ii zi hg hd hzi hc
    exact ⟨hr, lookup_calls v st st l zi.i_ino dir_ii op hg hr hd hop (hv _)⟩
  · intro hn
    have hc := take_c_name l.str [46, 46] hn (by decide)
    have hg : ¬ (l.str.len = 0 ∨ l.str.name.headD 0 = 0) := by
      rw [guard_iff, hc]; decide
    have hr := lookup_ino_dotdot v st l dir_ii zi hg hd hzi hc
    exact ⟨hr, lookup_calls v st st l zi.i_dir_parent dir_ii op hg hr hd hop (hv _)⟩

/-- Witness of C15: `".."` in the directory whose recorded parent is 9. -/
theorem lookup_dot_dotdot_witness :
    lookup_ino (vfs_world (vfs_ops 300 0 5 0)) vfs_mem (lookup_request 2 [46, 46])
      = some (9, vfs_mem) ∧
    ∃ r, _lookup (vfs_world (vfs_ops 300 0 5 0)) vfs_mem (lookup_request 2 [46, 46]) = some r ∧
      r.2.2.calls = vfs_mem.calls ++ if 9 = 0 then [] else [.iget 50 9] :=
  (lookup_dot_dotdot (vfs_world (vfs_ops 300 0 5 0)) vfs_mem (lookup_request 2 [46, 46])
    { sbi := 50, zi := 4096 + 64 }
    { i_mode := 16877, i_nlink := 2, i_ino := 1, i_dir_parent := 9 }
    (vfs_ops 300 0 5 0) rfl rfl rfl (fun _ _ => ⟨(by decide : (400 : Nat) ≠ 0),
      (by decide : (vfs_mem.zii_at 400).isSome = true), by decide⟩)).2 rfl

/-- Counterexample to C16 as stated: for the empty name `_lookup` returns 0 without any
call, and the names `".\0x"` and `"..\0x"`, which are neither `"."` nor `".."`, are
resolved as `"."` and `".."` without a call of the back-end's `lookup`. -/
theorem lookup_not_to_backend :
    (_lookup (vfs_world (vfs_ops 300 0 5 0)) vfs_mem (lookup_request 0 [])).map
      (fun r => (r.1, r.2.1, r.2.2.calls)) = some (0, lookup_request 0 [], []) ∧
    (_lookup (vfs_world (vfs_ops 300 0 5 0)) vfs_mem (lookup_request 3 [46, 0, 120])).map
      (fun r => (r.1, r.2.2.calls)) = some (0, [.iget 50 1]) ∧
    (_lookup (vfs_world (vfs_ops 300 0 5 0)) vfs_mem (lookup_request 4 [46, 46, 0, 120])).map
      (fun r => (r.1, r.2.2.calls)) = some (0, [.iget 50 9]) := by
  decide

/-- C16, amended: the name is compared as a C string, cut at its first NUL byte within
the `str->len` bytes.  If that string is empty `_lookup` returns 0 and calls nothing;
if it is `"."` or `".."` the inode's own number or its recorded parent is used; for
every other name the inode number used is the value of the back-end's
`lookup(dir_ii, name)`, which is called exactly once, before the `iget`. -/
theorem lookup_other (v : zus_vfs) (st : vfs_state) (l : zufs_ioc_lookup)
    (dir_ii : zus_inode_info) (op : zus_sbi_operations)
    (hd : st.zii_at l.dir_ii = some dir_ii) (hop : v.op_at dir_ii.sbi = some op)
    (hv : ∀ ino, (op.iget dir_ii.sbi ino).1 = 0 →
      (op.iget dir_ii.sbi ino).2 ≠ 0 ∧ (st.zii_at (op.iget dir_ii.sbi ino).2).isSome ∧
      (v.sbi_at dir_ii.sbi).isSome) :
    (l.str.c_name = [] → _lookup v st l = some (0, l, st)) ∧
    (l.str.c_name = [46] → ∀ zi, st.zi_at dir_ii.zi = some zi →
      lookup_ino v st l = some (zi.i_ino, st)) ∧
    (l.str.c_name = [46, 46] → ∀ zi, st.zi_at dir_ii.zi = some zi →
      lookup_ino v st l = some (zi.i_dir_parent, st)) ∧
    (l.str.c_name ≠ [] → l.str.c_name ≠ [46] → l.str.c_name ≠ [46, 46] →
      lookup_ino v st l = some (op.lookup l.dir_ii l.str,
        { st with calls := st.calls ++ [.lookup l.dir_ii l.str] }) ∧
      ∃ r, _lookup v st l = some r ∧
        r.2.2.calls = st.calls ++ [.lookup l.dir_ii l.str] ++
          if op.lookup l.dir_ii l.str = 0 then []
          else [.iget dir_ii.sbi (op.lookup l.dir_ii l.str)]) := by
  refine ⟨?_, ?_, ?_, ?_⟩
  · intro hc
    unfold _lookup
    rw [if_pos ((guard_iff l.str).mpr hc)]
  · intro hc zi hzi
    exact lookup_ino_dot v st l dir_ii zi (by rw [guard_iff, hc]; decide) hd hzi hc
  · intro hc zi hzi
    exact lookup_ino_dotdot v st l dir_ii zi (by rw [guard_iff, hc]; decide) hd hzi hc
  · intro h0 h1 h2
    have hg : ¬ (l.str.len = 0 ∨ l.str.name.headD 0 = 0) := by rw [guard_iff]; exact h0
    have hr := lookup_ino_other v st l dir_ii op hg hd hop h1 h2
    exact ⟨hr, lookup_calls v st _ l _ dir_ii op hg hr hd hop (hv _)⟩

/-- Witness of C16, amended: the name `"f"` goes to the back-end. -/
theorem lookup_other_witness :
    lookup_ino (vfs_world (vfs_ops 300 0 5 0)) vfs_mem (lookup_request 1 [102]) =
      some (5, { vfs_mem with calls := vfs_mem.calls ++ [.lookup 200 { len := 1, name := [102] }] }) :=
  ((lookup_other (vfs_world (vfs_ops 300 0 5 0)) vfs_mem (lookup_request 1 [102])
    { sbi := 50, zi := 4096 + 64 } (vfs_ops 300 0 5 0) rfl rfl
    (fun _ _ => ⟨(by decide : (400 : Nat) ≠ 0),
      (by decide : (vfs_mem.zii_at 400).isSome = true), by decide⟩)).2.2.2
    (by decide) (by decide) (by decide)).1

/-- C17: for every lookup request with a non-empty name (as the C string the code
tests), with `ino` the resolved inode number: if `ino` is 0 the dispatcher returns
`-ENOENT` without calling `iget`; if it is not 0 and the back-end's `iget` fails, it
returns `-ENOENT`; in both cases the request is unchanged.  Otherwise it returns 0,
`zus_ii` is the handle `iget` returned, stamped with the directory's instance, and
`_zi` is the region offset of that handle's inode record. -/
theorem lookup_result (v : zus_vfs) (st st1 : vfs_state) (l : zufs_ioc_lookup) (ino : Nat)
    (dir_ii : zus_inode_info) (op : zus_sbi_operations)
    (hn : l.str.c_name ≠ [])
    (hr : lookup_ino v st l = some (ino, st1))
    (hd : st.zii_at l.dir_ii = some dir_ii) (hop : v.op_at dir_ii.sbi = some op) :
    (ino = 0 → _lookup v st l = some (-ENOENT, l, st1)) ∧
    (ino ≠ 0 → (op.iget dir_ii.sbi ino).1 ≠ 0 →
      _lookup v st l =
        some (-ENOENT, l, { st1 with calls := st1.calls ++ [.iget dir_ii.sbi ino] })) ∧
    (ino ≠ 0 → (op.iget dir_ii.sbi ino).1 = 0 → (op.iget dir_ii.sbi ino).2 ≠ 0 →
      ∀ zii_mem sbi_mem, st.zii_at (op.iget dir_ii.sbi ino).2 = some zii_mem →
        v.sbi_at dir_ii.sbi = some sbi_mem →
      _lookup v st l =
        some (0,
          { l with
            _zi := md_addr_to_offset sbi_mem.md zii_mem.zi
            zus_ii := (op.iget dir_ii.sbi ino).2 },
          { st1 with
            calls := st1.calls ++ [.iget dir_ii.sbi ino]
            zii_at := fun p =>
              if p = (op.iget dir_ii.sbi ino).2 then some { zii_mem with sbi := dir_ii.sbi }
              else st.zii_at p })) := by
  have hg : ¬ (l.str.len = 0 ∨ l.str.name.headD 0 = 0) := by rw [guard_iff]; exact hn
  refine ⟨?_, ?_, ?_⟩
  · intro h0
    subst h0
    exact lookup_eval_zero v st st1 l hg hr
  · intro hi he
    exact lookup_eval_fail v st st1 l ino dir_ii op hg hr hi hd hop he
  · intro hi he hz zii_mem sbi_mem hh hs
    exact lookup_eval_ok v st st1 l ino _ dir_ii zii_mem op sbi_mem hg hr hi hd hop
      (Prod.ext he rfl) hz hh hs

/-- Witness of C17: the back-end finds no inode for `"f"`. -/
theorem lookup_result_witness :
    _lookup (vfs_world (vfs_ops 300 0 0 0)) vfs_mem (lookup_request 1 [102]) =
      some (-ENOENT, lookup_request 1 [102],
        { vfs_mem with calls := vfs_mem.calls ++ [.lookup 200 { len := 1, name := [102] }] }) :=
  (lookup_result (vfs_world (vfs_ops 300 0 0 0)) vfs_mem
    { vfs_mem with calls := vfs_mem.calls ++ [.lookup 200 { len := 1, name := [102] }] }
    (lookup_request 1 [102]) 0 { sbi := 50, zi := 4096 + 64 } (vfs_ops 300 0 0 0)
    (by decide) rfl rfl rfl).1 rfl

/-- C18: `zus_do_command` with `ZUFS_OP_ADD_DENTRY` calls exactly the back-end's
`add_dentry`, with `ZUFS_OP_REMOVE_DENTRY` exactly `remove_dentry`, once, with the
request's `(zus_dir_ii, zus_ii, str)`, on the operation table of the parent
directory's instance, and returns the result of that call; the request, the inode
handles and the inode records are unchanged. -/
theorem dentry_routes (v : zus_vfs) (st : vfs_state) (app_ptr : Nat) (zid : zufs_ioc_dentry)
    (dir_ii : zus_inode_info) (op : zus_sbi_operations)
    (hd : st.zii_at zid.zus_dir_ii = some dir_ii) (hop : v.op_at dir_ii.sbi = some op) :
    (zid.hdr.operation = .ZUFS_OP_ADD_DENTRY →
      zus_do_command v st app_ptr (.dentry zid) =
        some (op.add_dentry zid.zus_dir_ii zid.zus_ii zid.str, .dentry zid,
          { st with calls := st.calls ++
              [.add_dentry zid.zus_dir_ii zid.zus_ii zid.str] })) ∧
    (zid.hdr.operation = .ZUFS_OP_REMOVE_DENTRY →
      zus_do_command v st app_ptr (.dentry zid) =
        some (op.remove_dentry zid.zus_dir_ii zid.zus_ii zid.str, .dentry zid,
          { st with calls := st.calls ++
              [.remove_dentry zid.zus_dir_ii zid.zus_ii zid.str] })) := by
  constructor
  · intro h
    simp [zus_do_command, zufs_ioc.hdr_of, h, _dentry, hd, hop]
  · intro h
    simp [zus_do_command, zufs_ioc.hdr_of, h, _dentry, hd, hop]

/-- Witness of C18: an add-dentry whose back-end call returns -17. -/
theorem dentry_routes_witness :
    zus_do_command (vfs_world (vfs_ops 300 (-17) 5 0)) vfs_mem 0
        (.dentry (dentry_request .ZUFS_OP_ADD_DENTRY)) =
      some (-17, .dentry (dentry_request .ZUFS_OP_ADD_DENTRY),
        { vfs_mem with calls := vfs_mem.calls ++
            [.add_dentry 200 300 { len := 1, name := [102] }] }) :=
  (dentry_routes (vfs_world (vfs_ops 300 (-17) 5 0)) vfs_mem 0
    (dentry_request .ZUFS_OP_ADD_DENTRY) { sbi := 50, zi := 4096 + 64 }
    (vfs_ops 300 (-17) 5 0) rfl rfl).1 rfl

/-- C19: for every command whose operation code is not `NEW_INODE`, `LOOKUP`,
`ADD_DENTRY` or `REMOVE_DENTRY`, `zus_do_command` makes no call and changes nothing,
and returns `-ENOTSUP` for `FREE_INODE`, `EVICT_INODE` and every other enumerated
unserviced code, 0 for `ZUFS_OP_BREAK` and 0 for every code the switch does not
name. -/
theorem unserviced_ops (v : zus_vfs) (st : vfs_state) (app_ptr : Nat) (c : zufs_ioc) :
    (c.hdr_of.operation ≠ .ZUFS_OP_NEW_INODE → c.hdr_of.operation ≠ .ZUFS_OP_LOOKUP →
      c.hdr_of.operation ≠ .ZUFS_OP_ADD_DENTRY → c.hdr_of.operation ≠ .ZUFS_OP_REMOVE_DENTRY →
      zus_do_command v st app_ptr c = some (-ENOTSUP, c, st) ∨
      zus_do_command v st app_ptr c = some (0, c, st)) ∧
    (c.hdr_of.operation ∈ [e_zufs_operation.ZUFS_OP_FREE_INODE, .ZUFS_OP_EVICT_INODE,
        .ZUFS_OP_RENAME, .ZUFS_OP_READDIR, .ZUFS_OP_CLONE, .ZUFS_OP_COPY, .ZUFS_OP_READ,
        .ZUFS_OP_PRE_READ, .ZUFS_OP_WRITE, .ZUFS_OP_GET_BLOCK, .ZUFS_OP_PUT_BLOCK,
        .ZUFS_OP_MMAP_CLOSE, .ZUFS_OP_GET_SYMLINK, .ZUFS_OP_SETATTR, .ZUFS_OP_SYNC,
        .ZUFS_OP_FALLOCATE, .ZUFS_OP_LLSEEK, .ZUFS_OP_IOCTL, .ZUFS_OP_XATTR_GET,
        .ZUFS_OP_XATTR_SET, .ZUFS_OP_XATTR_LIST, .ZUFS_OP_STATFS] →
      zus_do_command v st app_ptr c = some (-ENOTSUP, c, st)) ∧
    (c.hdr_of.operation = .ZUFS_OP_BREAK → zus_do_command v st app_ptr c = some (0, c, st)) ∧
    (c.hdr_of.operation = .ZUFS_OP_NULL ∨ c.hdr_of.operation = .ZUFS_OP_MAX_OPT ∨
        (∃ code, c.hdr_of.operation = .unknown code) →
      zus_do_command v st app_ptr c = some (0, c, st)) := by
  refine ⟨?_, ?_, ?_, ?_⟩
  · intro h1 h2 h3 h4
    unfold zus_do_command
    cases h : c.hdr_of.operation <;> first
      | exact absurd h h1 | exact absurd h h2 | exact absurd h h3 | exact absurd h h4
      | exact Or.inl rfl | exact Or.inr rfl
  · intro h
    simp only [List.mem_cons, List.mem_singleton, List.not_mem_nil, or_false] at h
    unfold zus_do_command
    rcases h with h | h | h | h | h | h | h | h | h | h | h | h | h | h | h | h | h | h | h |
      h | h | h <;> rw [h]
  · intro h
    unfold zus_do_command
    rw [h]
  · intro h
    unfold zus_do_command
    rcases h with h | h | ⟨code, h⟩ <;> rw [h]

/-- Witness of C19: `ZUFS_OP_READ`. -/
theorem unserviced_ops_witness :
    zus_do_command (vfs_world (vfs_ops 300 0 5 0)) vfs_mem 0
        (.hdr { operation := .ZUFS_OP_READ, err := 0 }) =
      some (-ENOTSUP, .hdr { operation := .ZUFS_OP_READ, err := 0 }, vfs_mem) :=
  (unserviced_ops (vfs_world (vfs_ops 300 0 5 0)) vfs_mem 0
    (.hdr { operation := .ZUFS_OP_READ, err := 0 })).2.1 (by decide)

/-- Counterexample to C20 as stated: a new directory with inode number 2 made in the
directory with inode number 1 gets `i_dir.parent = 1`, not its own number 2. -/
theorem new_dir_not_self_parented :
    (zus_std_new_dir inode_mem_example 10 20 20).i_dir_parent = 1 ∧
    (zus_std_new_dir inode_mem_example 10 20 20).i_ino = 2 ∧
    (inode_mem_example 10).i_ino = 1 := by
  decide

/-- C20, amended: `zus_std_new_dir(dir_zi, zi)` sets `zi`'s `i_dir.parent` to the
inode number of `dir_zi`, the parent directory (its own number only when `dir_zi` is
`zi` itself), and its link count to exactly 1; it changes no other field of `zi`, no
other inode, and no field of a `dir_zi` distinct from `zi`. -/
theorem new_dir_spec (m : inode_mem) (dir_zi zi : Nat) :
    (zus_std_new_dir m dir_zi zi zi).i_dir_parent = (m dir_zi).i_ino ∧
    (zus_std_new_dir m dir_zi zi zi).i_nlink = 1 ∧
    (zus_std_new_dir m dir_zi zi zi).i_ino = (m zi).i_ino ∧
    (zus_std_new_dir m dir_zi zi zi).i_mode = (m zi).i_mode ∧
    (∀ p, p ≠ zi → zus_std_new_dir m dir_zi zi p = m p) ∧
    (dir_zi ≠ zi → zus_std_new_dir m dir_zi zi dir_zi = m dir_zi) := by
  refine ⟨?_, ?_, ?_, ?_, ?_, ?_⟩ <;> simp [zus_std_new_dir]
  · intro p hp; simp [hp]
  · intro h; simp [h]

/-- Witness of C20, amended: the parent directory at address 10 is unchanged. -/
theorem new_dir_spec_witness :
    zus_std_new_dir inode_mem_example 10 20 10 = inode_mem_example 10 :=
  (new_dir_spec inode_mem_example 10 20).2.2.2.2.2 (by decide)

/-- C21: for inode records at distinct addresses `dir_zi` and `zi`,
`zus_std_add_dentry` adds one to `zi`'s `i_nlink` and, exactly when `zi` is a
directory, one to `dir_zi`'s; `zus_std_remove_dentry` takes one off `zi`'s `i_nlink`
and, exactly when `zi` is a directory, one off `dir_zi`'s; both count modulo 2^16 and
change no other field and no other record.  For link counts that fit their 16 bits,
add followed by remove and remove followed by add give back the records as they
were. -/
theorem dentry_add_remove (m : inode_mem) (dir_zi zi : Nat) (hne : dir_zi ≠ zi) :
    zus_std_add_dentry m dir_zi zi zi = { m zi with i_nlink := ((m zi).i_nlink + 1) % 2 ^ 16 } ∧
    zus_std_add_dentry m dir_zi zi dir_zi =
      { m dir_zi with
        i_nlink := if zi_isdir (m zi) then ((m dir_zi).i_nlink + 1) % 2 ^ 16
          else (m dir_zi).i_nlink } ∧
    (∀ p, p ≠ zi → p ≠ dir_zi → zus_std_add_dentry m dir_zi zi p = m p) ∧
    zus_std_remove_dentry m dir_zi zi zi =
      { m zi with i_nlink := ((m zi).i_nlink + 65535) % 2 ^ 16 } ∧
    zus_std_remove_dentry m dir_zi zi dir_zi =
      { m dir_zi with
        i_nlink := if zi_isdir (m zi) then ((m dir_zi).i_nlink + 65535) % 2 ^ 16
          else (m dir_zi).i_nlink } ∧
    (∀ p, p ≠ zi → p ≠ dir_zi → zus_std_remove_dentry m dir_zi zi p = m p) ∧
    ((m zi).i_nlink < 2 ^ 16 → (m dir_zi).i_nlink < 2 ^ 16 →
      zus_std_remove_dentry (zus_std_add_dentry m dir_zi zi) dir_zi zi = m ∧
      zus_std_add_dentry (zus_std_remove_dentry m dir_zi zi) dir_zi zi = m) := by
  obtain ⟨a1, a2, a3⟩ := add_dentry_eval m dir_zi zi hne
  obtain ⟨r1, r2, r3⟩ := remove_dentry_eval m dir_zi zi hne
  refine ⟨a1, a2, a3, r1, r2, r3, ?_⟩
  intro hz hd
  have hia : zi_isdir (zus_std_add_dentry m dir_zi zi zi) = zi_isdir (m zi) := by
    rw [a1]; simp only [zi_isdir]
  have hir : zi_isdir (zus_std_remove_dentry m dir_zi zi zi) = zi_isdir (m zi) := by
    rw [r1]; simp only [zi_isdir]
  refine ⟨?_, ?_⟩
  · obtain ⟨q1, q2, q3⟩ := remove_dentry_eval (zus_std_add_dentry m dir_zi zi) dir_zi zi hne
    funext p
    by_cases hp : p = zi
    · rw [hp, q1, a1]
      apply inode_ext <;> simp only []
      omega
    · by_cases hq : p = dir_zi
      · rw [hq, q2, hia, a2]
        apply inode_ext <;> simp only []
        by_cases h : zi_isdir (m zi) = true
        · simp only [h, if_true]; omega
        · simp only [h]; simp
      · rw [q3 p hp hq, a3 p hp hq]
  · obtain ⟨q1, q2, q3⟩ := add_dentry_eval (zus_std_remove_dentry m dir_zi zi) dir_zi zi hne
    funext p
    by_cases hp : p = zi
    · rw [hp, q1, r1]
      apply inode_ext <;> simp only []
      omega
    · by_cases hq : p = dir_zi
      · rw [hq, q2, hir, r2]
        apply inode_ext <;> simp only []
        by_cases h : zi_isdir (m zi) = true
        · simp only [h, if_true]; omega
        · simp only [h]; simp
      · rw [q3 p hp hq, r3 p hp hq]

/-- Witness of C21: a directory at address 20 added to and removed from the directory
at address 10. -/
theorem dentry_add_remove_witness :
    (zus_std_add_dentry dentry_mem_example 10 20 10).i_nlink = 3 ∧
    (zus_std_add_dentry dentry_mem_example 10 20 20).i_nlink = 1 ∧
    zus_std_remove_dentry (zus_std_add_dentry dentry_mem_example 10 20) 10 20 =
      dentry_mem_example :=
  ⟨by decide, by decide,
   ((dentry_add_remove dentry_mem_example 10 20 (by decide)).2.2.2.2.2.2
    (by decide) (by decide)).1⟩

/-- Counterexample to C22 as stated: the directory at address 20 has link count 1
after `zus_std_new_dir`, the inode at address 30 is a regular file with link count 0;
after `zus_std_add_dentry` of the file to the directory the file has link count 1 and
the directory still has link count 1, not 2. -/
theorem add_file_keeps_dir_nlink :
    (zus_std_new_dir dentry_mem_example 10 20 20).i_nlink = 1 ∧
    zi_isdir (zus_std_new_dir dentry_mem_example 10 20 20) = true ∧
    zi_isdir (zus_std_new_dir dentry_mem_example 10 20 30) = false ∧
    (zus_std_new_dir dentry_mem_example 10 20 30).i_nlink = 0 ∧
    (zus_std_add_dentry (zus_std_new_dir dentry_mem_example 10 20) 20 30 30).i_nlink = 1 ∧
    (zus_std_add_dentry (zus_std_new_dir dentry_mem_example 10 20) 20 30 20).i_nlink = 1 ∧
    (zus_std_add_dentry (zus_std_new_dir dentry_mem_example 10 20) 20 30 20).i_nlink ≠ 2 := by
  decide

/-- C22, amended: for a directory `d` with link count 1 after `zus_std_new_dir` and,
at another address, a regular file `f` with link count 0, `zus_std_add_dentry(d, f)`
sets the link count of `f` to 1 and leaves `d` as it was, with link count 1 (the link
count of the parent is raised for a child that is a directory only); a following
`zus_std_remove_dentry(d, f)` returns the link count of `f` to 0 and leaves `d` as it
was: every record is then as before `f` was added. -/
theorem dentry_scenario (m : inode_mem) (parent d f : Nat) (hdf : d ≠ f)
    (hreg : zi_isdir (m f) = false) (hf : (m f).i_nlink = 0) :
    (zus_std_new_dir m parent d d).i_nlink = 1 ∧
    (zus_std_add_dentry (zus_std_new_dir m parent d) d f f).i_nlink = 1 ∧
    zus_std_add_dentry (zus_std_new_dir m parent d) d f d = zus_std_new_dir m parent d d ∧
    (zus_std_remove_dentry (zus_std_add_dentry (zus_std_new_dir m parent d) d f) d f f).i_nlink
      = 0 ∧
    zus_std_remove_dentry (zus_std_add_dentry (zus_std_new_dir m parent d) d f) d f d =
      zus_std_new_dir m parent d d ∧
    zus_std_remove_dentry (zus_std_add_dentry (zus_std_new_dir m parent d) d f) d f =
      zus_std_new_dir m parent d := by
  have hfd : f ≠ d := Ne.symm hdf
  have h1 : zus_std_new_dir m parent d f = m f := by simp [zus_std_new_dir, hfd]
  have hd1 : (zus_std_new_dir m parent d d).i_nlink = 1 := by simp [zus_std_new_dir]
  have hreg1 : zi_isdir (zus_std_new_dir m parent d f) = false := by rw [h1]; exact hreg
  have hf1 : (zus_std_new_dir m parent d f).i_nlink = 0 := by rw [h1]; exact hf
  generalize zus_std_new_dir m parent d = m1 at hd1 hreg1 hf1
  obtain ⟨a1, a2, _⟩ := add_dentry_eval m1 d f hdf
  obtain ⟨r1, r2, r3⟩ := remove_dentry_eval (zus_std_add_dentry m1 d f) d f hdf
  have hia : zi_isdir (zus_std_add_dentry m1 d f f) = false := by
    rw [a1]; simp only [zi_isdir] at hreg1 ⊢; exact hreg1
  have e2 : zus_std_add_dentry m1 d f d = m1 d := by
    rw [a2]; exact inode_nlink_eta _ _ (by simp [hreg1])
  have e3 : zus_std_remove_dentry (zus_std_add_dentry m1 d f) d f d = m1 d := by
    rw [r2, e2]; exact inode_nlink_eta _ _ (by simp [hia])
  have e4 : zus_std_remove_dentry (zus_std_add_dentry m1 d f) d f f = m1 f := by
    rw [r1, a1]
    apply inode_ext <;> simp only []
    omega
  refine ⟨hd1, by rw [a1]; simp [hf1], e2, by rw [e4]; exact hf1, e3, ?_⟩
  funext p
  by_cases hp : p = f
  · rw [hp]; exact e4
  · by_cases hq : p = d
    · rw [hq]; exact e3
    · rw [r3 p hp hq]
      exact (add_dentry_eval m1 d f hdf).2.2 p hp hq

/-- Witness of C22, amended: the directory at address 20 and the regular file at
address 30. -/
theorem dentry_scenario_witness :
    (zus_std_add_dentry (zus_std_new_dir dentry_mem_example 10 20) 20 30 30).i_nlink = 1 ∧
    zus_std_add_dentry (zus_std_new_dir dentry_mem_example 10 20) 20 30 20 =
      zus_std_new_dir dentry_mem_example 10 20 20 ∧
    zus_std_remove_dentry (zus_std_add_dentry (zus_std_new_dir dentry_mem_example 10 20) 20 30)
      20 30 = zus_std_new_dir dentry_mem_example 10 20 :=
  ⟨(dentry_scenario dentry_mem_example 10 20 30 (by decide) (by decide) (by decide)).2.1,
   (dentry_scenario dentry_mem_example 10 20 30 (by decide) (by decide) (by decide)).2.2.1,
   (dentry_scenario dentry_mem_example 10 20 30 (by decide) (by decide) (by decide)).2.2.2.2.2⟩

/-- C23: for every builder set up by `_zus_iom_common_init` with an end pointer
`end_ptr` bytes behind `iom_e` (so `iom_max = end_ptr / 8`, rounded down), and every
sequence of calls of `_zus_iom_start`, the checked encoders and `_zus_iom_end` in any
order and number, from the first `_zus_iom_start` on the builder has after every call
`iom_e ≤ cur_iom_e ≤ end_iom_e` (offsets from `iom_e`: `0 ≤ cur_iom_e ≤ end_ptr`) and
`iom_n ≤ iom_max`, with `end_iom_e` and `iom_max` as the set-up left them. -/
theorem iom_invariant (api : zus_api) (iomb : zus_iomap_build) (sbi : Nat) (ziom : zufs_iomap)
    (end_ptr iomd : Nat) (before after : List iom_op) :
    0 ≤ (iom_ops api (_zus_iom_common_init iomb sbi ziom end_ptr)
      (before ++ .start iomd :: after)).cur_iom_e ∧
    (iom_ops api (_zus_iom_common_init iomb sbi ziom end_ptr)
      (before ++ .start iomd :: after)).cur_iom_e ≤
      (iom_ops api (_zus_iom_common_init iomb sbi ziom end_ptr)
        (before ++ .start iomd :: after)).end_iom_e ∧
    (iom_ops api (_zus_iom_common_init iomb sbi ziom end_ptr)
      (before ++ .start iomd :: after)).end_iom_e = end_ptr ∧
    (iom_ops api (_zus_iom_common_init iomb sbi ziom end_ptr)
      (before ++ .start iomd :: after)).ziom.iom_n ≤
      (iom_ops api (_zus_iom_common_init iomb sbi ziom end_ptr)
        (before ++ .start iomd :: after)).ziom.iom_max ∧
    (iom_ops api (_zus_iom_common_init iomb sbi ziom end_ptr)
      (before ++ .start iomd :: after)).ziom.iom_max = end_ptr / 8 := by
  have he : (iom_ops api (_zus_iom_common_init iomb sbi ziom end_ptr) before).end_iom_e
      = end_ptr := (ops_frame api before _).1
  have hm : (iom_ops api (_zus_iom_common_init iomb sbi ziom end_ptr) before).ziom.iom_max
      = end_ptr / 8 := (ops_frame api before _).2
  rw [ops_append]
  generalize iom_ops api (_zus_iom_common_init iomb sbi ziom end_ptr) before = b at he hm
  have hf := ops_frame api (.start iomd :: after) b
  have hi := ops_inv api after (_zus_iom_start b iomd)
    (by show b.ziom.iom_max = b.end_iom_e / 8; rw [hm, he])
    ⟨Nat.zero_le _, Nat.zero_le _⟩
  refine ⟨Nat.zero_le _, hi.1, ?_, hi.2, ?_⟩
  · rw [hf.1, he]
  · rw [hf.2, hm]

/-- Witness of C23: in a buffer of 20 bytes a start, two write-back words, an end, a
third write-back word that is refused and a second end leave the cursor at 16, the
end at 20, and `iom_n = 2 = iom_max`. -/
theorem iom_invariant_witness :
    (iom_ops zufs_proto (_zus_iom_common_init (iom_builder 0 0) 1 (iom_builder 0 0).ziom 20)
      ([] ++ .start 0 :: [.enc .wbinv, .enc .wbinv, .finish, .enc .wbinv, .finish])).cur_iom_e
      = 16 ∧
    (iom_ops zufs_proto (_zus_iom_common_init (iom_builder 0 0) 1 (iom_builder 0 0).ziom 20)
      ([] ++ .start 0 :: [.enc .wbinv, .enc .wbinv, .finish, .enc .wbinv, .finish])).ziom.iom_n
      = 2 ∧
    (iom_ops zufs_proto (_zus_iom_common_init (iom_builder 0 0) 1 (iom_builder 0 0).ziom 20)
      ([] ++ .start 0 :: [.enc .wbinv, .enc .wbinv, .finish, .enc .wbinv, .finish])).ziom.iom_n ≤
    (iom_ops zufs_proto (_zus_iom_common_init (iom_builder 0 0) 1 (iom_builder 0 0).ziom 20)
      ([] ++ .start 0 :: [.enc .wbinv, .enc .wbinv, .finish, .enc .wbinv, .finish])).ziom.iom_max :=
  ⟨by decide, by decide,
   (iom_invariant zufs_proto (iom_builder 0 0) 1 (iom_builder 0 0).ziom 20 0 []
    [.enc .wbinv, .enc .wbinv, .finish, .enc .wbinv, .finish]).2.2.2.1⟩

/-- C24: `_ziom_enc_t1_bn` makes no capacity check: every call stores one word, the
block-number word, at `cur_iom_e`, and no other, advances `cur_iom_e` by 8 bytes,
adds one to `iom_n`, and returns true exactly when the new `cur_iom_e` is below
`end_iom_e`.  After `_zus_iom_common_init` with an end pointer a positive multiple of
8 bytes behind `iom_e` and `_zus_iom_start`, a run of calls that stops at the first
false return makes every store at least 8 bytes below `end_iom_e`, and ends with
`iom_n = _zus_iom_len`; this holds for every such run, hence after each call of
one. -/
theorem t1_bn_spec (enc_bn : Nat → Nat → Nat) :
    (∀ (b : zus_iomap_build) (bn pool : Nat),
      (_ziom_enc_t1_bn enc_bn b bn pool).2.stores = b.cur_iom_e :: b.stores ∧
      (_ziom_enc_t1_bn enc_bn b bn pool).2.ziom.iom_e b.cur_iom_e = u64 (enc_bn bn pool) ∧
      (∀ a, a ≠ b.cur_iom_e →
        (_ziom_enc_t1_bn enc_bn b bn pool).2.ziom.iom_e a = b.ziom.iom_e a) ∧
      (_ziom_enc_t1_bn enc_bn b bn pool).2.cur_iom_e = b.cur_iom_e + 8 ∧
      (_ziom_enc_t1_bn enc_bn b bn pool).2.end_iom_e = b.end_iom_e ∧
      (_ziom_enc_t1_bn enc_bn b bn pool).2.ziom.iom_n = b.ziom.iom_n + 1 ∧
      ((_ziom_enc_t1_bn enc_bn b bn pool).1 = true ↔
        (_ziom_enc_t1_bn enc_bn b bn pool).2.cur_iom_e <
          (_ziom_enc_t1_bn enc_bn b bn pool).2.end_iom_e)) ∧
    (∀ (iomb : zus_iomap_build) (sbi : Nat) (ziom : zufs_iomap) (end_ptr iomd : Nat)
        (args : List (Nat × Nat)), 8 ∣ end_ptr → 0 < end_ptr →
      (∀ s ∈ (ziom_t1_run enc_bn
          (_zus_iom_start (_zus_iom_common_init iomb sbi ziom end_ptr) iomd) args).stores,
        s ∈ iomb.stores ∨ s + 8 ≤ end_ptr) ∧
      (ziom_t1_run enc_bn
        (_zus_iom_start (_zus_iom_common_init iomb sbi ziom end_ptr) iomd) args).end_iom_e
        = end_ptr ∧
      (ziom_t1_run enc_bn
        (_zus_iom_start (_zus_iom_common_init iomb sbi ziom end_ptr) iomd) args).ziom.iom_n =
      _zus_iom_len (ziom_t1_run enc_bn
        (_zus_iom_start (_zus_iom_common_init iomb sbi ziom end_ptr) iomd) args)) := by
  refine ⟨?_, ?_⟩
  · intro b bn pool
    refine ⟨?_, ?_, ?_, ?_, ?_, ?_, ?_⟩ <;> simp [_ziom_enc_t1_bn]
    intro a ha; simp [ha]
  · intro iomb sbi ziom end_ptr iomd args h8 hpos
    have h := t1_run_inv enc_bn end_ptr h8 iomb.stores args
      (_zus_iom_start (_zus_iom_common_init iomb sbi ziom end_ptr) iomd) rfl
      (Or.inr hpos) (Nat.zero_le _) (Nat.dvd_zero 8)
      (by show (0 : Nat) = 0 / 8; simp)
      (by
        intro s hs
        rw [start_stores] at hs
        rcases List.mem_cons.mp hs with h | h
        · right; omega
        · exact Or.inl h)
    exact ⟨h.2.2.2, h.1, h.2.2.1⟩

/-- Witness of C24: of five block numbers offered for a buffer of 24 bytes three are
encoded; the store of the third, at offset 16, ends 8 bytes below the end. -/
theorem t1_bn_spec_witness :
    16 ∈ (ziom_t1_run enc_bn_example
      (_zus_iom_start (_zus_iom_common_init (iom_builder 0 0) 1 (iom_builder 0 0).ziom 24) 0)
      [(1, 0), (2, 0), (3, 0), (4, 0), (5, 0)]).stores ∧
    ¬ 24 ∈ (ziom_t1_run enc_bn_example
      (_zus_iom_start (_zus_iom_common_init (iom_builder 0 0) 1 (iom_builder 0 0).ziom 24) 0)
      [(1, 0), (2, 0), (3, 0), (4, 0), (5, 0)]).stores ∧
    (16 ∈ (iom_builder 0 0).stores ∨ 16 + 8 ≤ 24) ∧
    (ziom_t1_run enc_bn_example
      (_zus_iom_start (_zus_iom_common_init (iom_builder 0 0) 1 (iom_builder 0 0).ziom 24) 0)
      [(1, 0), (2, 0), (3, 0), (4, 0), (5, 0)]).ziom.iom_n = 3 :=
  ⟨by decide, by decide,
   ((t1_bn_spec enc_bn_example).2 (iom_builder 0 0) 1 (iom_builder 0 0).ziom 24 0
    [(1, 0), (2, 0), (3, 0), (4, 0), (5, 0)] (by decide) (by decide)).1 16 (by decide),
   by decide⟩

/-- C25: the conversions of time stamps are inverse to each other on the values in
range: for a `timespec` with `tv_sec ≥ 0`, `0 ≤ tv_nsec < 1000000000` and
`tv_sec * 1000000000 + tv_nsec < 2^63`, `zt_to_timespec` of `timespec_to_zt` gives the
`timespec` back; for a 64-bit time stamp below 2^63, `timespec_to_zt` of
`zt_to_timespec` gives the time stamp back, and the `tv_nsec` produced is in
`[0, 1000000000)`. -/
theorem zt_roundtrip :
    (∀ t : timespec, 0 ≤ t.tv_sec → 0 ≤ t.tv_nsec → t.tv_nsec < 1000000000 →
      t.tv_sec * 1000000000 + t.tv_nsec < 2 ^ 63 →
      zt_to_timespec (timespec_to_zt t) = t) ∧
    (∀ mt : Nat, mt < 2 ^ 63 →
      timespec_to_zt (zt_to_timespec mt) = mt ∧
      0 ≤ (zt_to_timespec mt).tv_nsec ∧ (zt_to_timespec mt).tv_nsec < 1000000000) := by
  have hy : s32 (NSEC_PER_SEC : Nat) = 1000000000 := by decide
  refine ⟨?_, ?_⟩
  · intro t h1 h2 h3 h4
    obtain ⟨sec, nsec⟩ := t
    simp only [] at h1 h2 h3 h4
    have hm : timespec_to_zt { tv_sec := sec, tv_nsec := nsec } =
        (sec * 1000000000 + nsec).toNat := by
      simp only [timespec_to_zt, cpu_to_le64, ulong, NSEC_PER_SEC]
      omega
    have hx : s64 (le64_to_cpu ((sec * 1000000000 + nsec).toNat : Nat)) =
        sec * 1000000000 + nsec := by
      simp only [s64, le64_to_cpu, ulong]
      omega
    simp only [zt_to_timespec, _z_div_s64_rem, hm, hx, hy]
    rw [Int.tdiv_eq_ediv (by omega) (by omega), Int.tmod_eq_emod (by omega) (by omega)]
    have hq : (sec * 1000000000 + nsec) / 1000000000 = sec := by omega
    have hr : (sec * 1000000000 + nsec) % 1000000000 = nsec := by omega
    rw [hq, hr]
    simp only [s64, u32, timespec.mk.injEq]
    omega
  · intro mt h
    have hx : s64 (le64_to_cpu (mt : Nat)) = mt := by
      simp only [s64, le64_to_cpu, ulong]
      omega
    have hz : zt_to_timespec mt =
        { tv_sec := (mt : Int) / 1000000000, tv_nsec := (mt : Int) % 1000000000 } := by
      simp only [zt_to_timespec, _z_div_s64_rem, hx, hy]
      rw [Int.tdiv_eq_ediv (by omega) (by omega), Int.tmod_eq_emod (by omega) (by omega)]
      simp only [s64, u32, timespec.mk.injEq]
      omega
    rw [hz]
    refine ⟨?_, ?_, ?_⟩
    · simp only [timespec_to_zt, cpu_to_le64, ulong, NSEC_PER_SEC]
      omega
    · simp only []; omega
    · simp only []; omega

/-- Witness of C25: 5 seconds and 999999999 nanoseconds, and the time stamp
2^63 - 1. -/
theorem zt_roundtrip_witness :
    zt_to_timespec (timespec_to_zt { tv_sec := 5, tv_nsec := 999999999 }) =
      { tv_sec := 5, tv_nsec := 999999999 } ∧
    timespec_to_zt (zt_to_timespec (2 ^ 63 - 1)) = 2 ^ 63 - 1 :=
  ⟨zt_roundtrip.1 { tv_sec := 5, tv_nsec := 999999999 } (by decide) (by decide) (by decide)
    (by decide),
   (zt_roundtrip.2 (2 ^ 63 - 1) (by decide)).1⟩

end Zus
